import Mathlib

/-!
# Upload engine of `service/vod/base_service.go`

A shallow embedding of the part planner (`calculateUploadParts`), the merge-body
builder (`genMergeBody`), the multipart driver (`chunkUpload`) with its workers,
the host failover loop of `Upload`, the private-network (VPC) transfer, the
streaming entry points, the object API and `UploadMediaInner`, followed by the
properties proved about them.

Conventions of the embedding:

* Go `int`/`int64` values are `Int`; where the source can overflow the result
  is wrapped with `wrap64`, and `isInt64` states that a value fits the type.
* A Go `error` value is `Option GoError` (`none` is `nil`).
* A call either returns, panics, or blocks for ever: `Outcome`.
* Pointers that the source may find `nil` are `Option`s.
* Calls that leave the process (control plane, storage, file reads) are fields
  of a `World`; each one sees the calls made so far, so any deterministic
  environment can be expressed. Every call made is appended to a trace.
-/

namespace VolcVod

/-! ## Go runtime vocabulary -/

/-- Values of the Go `error` interface that this file distinguishes: the
struct `UploadError` (fields `Code`, `ErrorCode`, `Message`), which `Upload`
recognises with the type assertion `err.(UploadError)`, and every other error
(`errors.New`, `fmt.Errorf`, transport errors), kept with its message. -/
inductive GoError where
  | UploadError (Code : Int) (ErrorCode : Int) (Message : String)
  | errorString (msg : String)
  deriving DecidableEq

/-- How a Go call ends: it returns a value, it panics, or it never returns
(a receive on a channel that no goroutine will ever send on). -/
inductive Outcome (α : Type) where
  | ret (a : α)
  | panic (msg : String)
  | blocked
  deriving DecidableEq

/-- Two's-complement wrap-around of a mathematical integer into `int64`. -/
def wrap64 (x : Int) : Int := (x + 2 ^ 63) % 2 ^ 64 - 2 ^ 63

/-- The value fits Go's `int64` (and `int` on 64-bit targets). -/
def isInt64 (x : Int) : Prop := -(2 ^ 63) ≤ x ∧ x < 2 ^ 63

instance (x : Int) : Decidable (isInt64 x) := by
  unfold isInt64; exact inferInstance

/-! ## Part planner -/

/-- Go `type UploadPartInfo struct { Number int; OffSet int64; Size int64 }`. -/
structure UploadPartInfo where
  Number : Int
  OffSet : Int
  Size : Int
  deriving DecidableEq

/-- The statement `uploadPartInfos[idx].Size += last` for an index already known
to be in range: the element at position `idx` gets `Size + last` (wrapped). -/
def addToSizeAt : List UploadPartInfo → Nat → Int → List UploadPartInfo
  | [], _, _ => []
  | p :: ps, 0, last => { p with Size := wrap64 (p.Size + last) } :: ps
  | p :: ps, idx + 1, last => p :: addToSizeAt ps idx last

/-- Go `calculateUploadParts(size, chunkSize int64) (int, []*UploadPartInfo, error)`.

* `size / chunkSize` panics for `chunkSize == 0`, truncates toward zero
  (`Int.tdiv`) and wraps for `MinInt64 / -1`;
* more than 10000 whole parts is the error `parts over 10000` with `0, nil`;
* the loop `for i := 0; i < int(totalNum); i++` appends part `i + 1` at offset
  `int64(i) * chunkSize` of length `chunkSize`;
* a non-zero `size % chunkSize` (`Int.tmod`) is added to the element at index
  `totalNum - 1`, which panics when that index is outside the slice. -/
def calculateUploadParts (size chunkSize : Int) :
    Outcome (Int × List UploadPartInfo × Option GoError) :=
  if chunkSize = 0 then .panic "runtime error: integer divide by zero"
  else
    let totalNum := wrap64 (Int.tdiv size chunkSize)
    if totalNum > 10000 then
      .ret (0, [], some (.errorString "parts over 10000"))
    else
      let uploadPartInfos : List UploadPartInfo :=
        (List.range totalNum.toNat).map fun (i : Nat) =>
          { Number := (i : Int) + 1, OffSet := wrap64 ((i : Int) * chunkSize), Size := chunkSize }
      let last := Int.tmod size chunkSize
      if last ≠ 0 then
        if 0 ≤ totalNum - 1 ∧ totalNum - 1 < (uploadPartInfos.length : Int) then
          .ret (totalNum, addToSizeAt uploadPartInfos (totalNum - 1).toNat last, none)
        else .panic "runtime error: index out of range"
      else .ret (totalNum, uploadPartInfos, none)

/-! ## Merge body -/

/-- The nested `Error` object of a storage response envelope
(`model.UploadPartError`), with the fields this file reads or writes. -/
structure UploadPartError where
  Code : Int := 0
  ErrorCode : Int := 0
  Error : String := ""
  Message : String := ""
  StatusCode : Int := 0
  Logid : String := ""
  deriving DecidableEq

/-- Go `model.UploadPartResponse`: the envelope (`Success`, `Error`), the
content type reported in `PayLoad.Meta.ObjectContentType`, and the two fields
`uploadPart` fills in on success, `PartNumber` and `CheckSum`. -/
structure UploadPartResponse where
  Success : Int := 0
  Error : UploadPartError := {}
  ObjectContentType : String := ""
  PartNumber : Int := 0
  CheckSum : String := ""
  deriving DecidableEq

/-- The assignment `s[idx] = entry` for an index already known to be in range. -/
def setAt : List String → Nat → String → List String
  | [], _, _ => []
  | _ :: ss, 0, entry => entry :: ss
  | s :: ss, idx + 1, entry => s :: setAt ss idx entry

/-- Go `fmt.Sprintf("%d:%s", v.PartNumber, v.CheckSum)`. -/
def mergeEntry (partNumber : Int) (checkSum : String) : String :=
  toString partNumber ++ ":" ++ checkSum

/-- The loop `for _, v := range list { s[v.PartNumber-1] = ... }` of
`genMergeBody`, run over the remaining elements with the slice `s` built so
far. A `nil` element panics when its field is read, an index outside `s`
panics in the assignment. -/
def fillMergeSlots : List (Option UploadPartResponse) → List String → Outcome (List String)
  | [], s => .ret s
  | none :: _, _ => .panic "runtime error: invalid memory address or nil pointer dereference"
  | some v :: rest, s =>
    if 0 ≤ v.PartNumber - 1 ∧ v.PartNumber - 1 < (s.length : Int) then
      fillMergeSlots rest (setAt s (v.PartNumber - 1).toNat (mergeEntry v.PartNumber v.CheckSum))
    else .panic "runtime error: index out of range"

/-- Go `(p *Vod) genMergeBody(list []*model.UploadPartResponse) (string, error)`:
an empty list is the error `body crc32 empty`; otherwise a slice of
`len(list)` empty strings is filled by part number and joined with commas. -/
def genMergeBody (uploadPartResponseList : List (Option UploadPartResponse)) :
    Outcome (String × Option GoError) :=
  if uploadPartResponseList.length = 0 then
    .ret ("", some (.errorString "body crc32 empty"))
  else
    match fillMergeSlots uploadPartResponseList
        (List.replicate uploadPartResponseList.length "") with
    | .ret s => .ret (String.intercalate "," s, none)
    | .panic msg => .panic msg
    | .blocked => .blocked

/-! ## Requests, control-plane responses and the trace of calls -/

/-- Go `business.StoreInfo`, with the two fields read through `GetStoreUri`
and `GetAuth`. -/
structure StoreInfo where
  StoreUri : String := ""
  Auth : String := ""
  deriving DecidableEq

/-- Go `business.UploadAddress`: one candidate upload target. -/
structure UploadAddress where
  StoreInfos : List (Option StoreInfo) := []
  UploadHosts : List String := []
  SessionKey : String := ""
  deriving DecidableEq

/-- Go `business.CandidateUploadAddresses`: the three priority lists. -/
structure CandidateUploadAddresses where
  MainUploadAddresses : List (Option UploadAddress) := []
  BackupUploadAddresses : List (Option UploadAddress) := []
  FallbackUploadAddresses : List (Option UploadAddress) := []
  deriving DecidableEq

/-- Go `business.PartUploadInfo` of the private-network path. -/
structure PartUploadInfo where
  PartSize : Int := 0
  PartPutUrls : List String := []
  CompletePartUrl : String := ""
  deriving DecidableEq

/-- Go `business.VpcTosUploadAddress` of the private-network path. -/
structure VpcTosUploadAddress where
  QuickCompleteMode : String := ""
  UploadMode : String := ""
  PutUrl : String := ""
  PartUploadInfo : Option PartUploadInfo := none
  deriving DecidableEq

/-- The object reached by `resp.GetResult().GetData()`. -/
structure ApplyUploadInfoData where
  UploadAddress : Option UploadAddress := none
  CandidateUploadAddresses : Option CandidateUploadAddresses := none
  VpcTosUploadAddress : Option VpcTosUploadAddress := none
  deriving DecidableEq

/-- Go `model_base.ResponseError`. -/
structure ResponseError where
  Code : String := ""
  Message : String := ""
  deriving DecidableEq

/-- Go `model_base.ResponseMetadata`, with the fields this file reads or writes. -/
structure ResponseMetadata where
  RequestId : String := ""
  Service : String := ""
  Error : Option ResponseError := none
  deriving DecidableEq

/-- Go `response.VodApplyUploadInfoResult`, whose `Data` may be `nil`. -/
structure VodApplyUploadInfoResult where
  Data : Option ApplyUploadInfoData := none
  deriving DecidableEq

/-- Go `response.VodApplyUploadInfoResponse`; both fields may be `nil`. -/
structure VodApplyUploadInfoResponse where
  ResponseMetadata : Option ResponseMetadata := none
  Result : Option VodApplyUploadInfoResult := none
  deriving DecidableEq

/-- Go `model.VodUploadFuncRequest` (the reader `Rd` is read through
`World.ReadAll`). `Upload` receives a pointer and writes `ChunkSize` and
`ParallelNum` back into it. -/
structure VodUploadFuncRequest where
  FilePath : String := ""
  Size : Int := 0
  ParallelNum : Int := 0
  SpaceName : String := ""
  FileType : String := ""
  FileName : String := ""
  FileExtension : String := ""
  StorageClass : Int := 0
  ChunkSize : Int := 0
  deriving DecidableEq

/-- Go `model.UploadPartCommon` (without the `*http.Client` handle). -/
structure UploadPartCommon where
  TosHost : String := ""
  Oid : String := ""
  Auth : String := ""
  SpaceName : String := ""
  ChunkSize : Int := 0
  FileSize : Int := 0
  ParallelNum : Int := 0
  StorageClass : Int := 0
  RetryTimes : Int := 0
  ObjectContentType : String := ""
  deriving DecidableEq

/-- One observable step of the upload: a call that leaves the process, or the
line `Upload` prints before each transfer attempt. -/
inductive Event where
  | ApplyUploadInfo (req : VodUploadFuncRequest)
  | vpcUpload (addr : VpcTosUploadAddress) (req : VodUploadFuncRequest)
  | ReadAll
  | Printf (host : Int) (attemptNo : Int)
  | directUpload (fileBytes : List UInt8) (param : UploadPartCommon)
  | chunkUpload (filePath : String) (param : UploadPartCommon)
  | initUploadPartV2 (param : UploadPartCommon)
  | workers (uploadID : String) (parallelNum : Int) (jobs : List UploadPartInfo)
  | mergePut (param : UploadPartCommon) (uploadID : String) (body : String)
  deriving DecidableEq

/-- What the worker goroutines of `chunkUpload` leave behind once `wg.Wait()`
returns: the contents of `errChan` and `chUploadPartRes` (a channel of
pointers) in arrival order, and the content type captured from part 1. -/
structure WorkerPhase where
  errChan : List UploadPartResponse := []
  results : List (Option UploadPartResponse) := []
  objectContentType : String := ""
  deriving DecidableEq

/-- Everything outside the modelled functions. Each field answers one kind of
call, given the events so far and the arguments of the call.

* `MinChunckSize` is the constant `consts.MinChunckSize`.
* `directUpload`, `chunkUpload` and `vpcUpload` are the behaviour of the
  methods of the same name as seen by `Upload` (`chunkUpload` is itself
  modelled below, from `initUploadPartV2`, `runWorkers` and `mergePut`).
* `runWorkers` is the outcome of the concurrent part-upload phase; a panic in
  a worker goroutine ends the process.
* `mergePut` is the merge request of `uploadMergePartV2` after the body is
  built.
* `fmtPlusV` is the text `fmt` renders for `%+v` of a metadata error. -/
structure World where
  MinChunckSize : Int
  ApplyUploadInfo : List Event → VodUploadFuncRequest →
    Option VodApplyUploadInfoResponse × Int × Option GoError
  vpcUpload : List Event → VpcTosUploadAddress → VodUploadFuncRequest → Outcome (Option GoError)
  ReadAll : List Event → List UInt8 × Option GoError
  directUpload : List Event → List UInt8 → UploadPartCommon → Option GoError
  chunkUpload : List Event → String → UploadPartCommon → Outcome (Option GoError)
  initUploadPartV2 : List Event → UploadPartCommon → String × Option GoError
  runWorkers : List Event → String → UploadPartCommon → String → List UploadPartInfo →
    Outcome WorkerPhase
  mergePut : List Event → UploadPartCommon → String → String → Option GoError
  fmtPlusV : ResponseError → String

/-! Nil-safe protobuf getters. -/

/-- Go `(*UploadAddress).GetUploadHosts`. -/
def GetUploadHosts : Option UploadAddress → List String
  | some a => a.UploadHosts
  | none => []

/-- Go `(*UploadAddress).GetStoreInfos`. -/
def GetStoreInfos : Option UploadAddress → List (Option StoreInfo)
  | some a => a.StoreInfos
  | none => []

/-- Go `(*UploadAddress).GetSessionKey`. -/
def GetSessionKey : Option UploadAddress → String
  | some a => a.SessionKey
  | none => ""

/-- Go `(*StoreInfo).GetStoreUri`. -/
def GetStoreUri : Option StoreInfo → String
  | some s => s.StoreUri
  | none => ""

/-- Go `(*StoreInfo).GetAuth`. -/
def GetAuth : Option StoreInfo → String
  | some s => s.Auth
  | none => ""

/-- Go `resp.GetResponseMetadata().GetRequestId()`. -/
def GetRequestId : Option VodApplyUploadInfoResponse → String
  | some r => match r.ResponseMetadata with
    | some md => md.RequestId
    | none => ""
  | none => ""

/-- Go `resp.GetResult().GetData()`. -/
def GetData : Option VodApplyUploadInfoResponse → Option ApplyUploadInfoData
  | some r => r.Result.bind (·.Data)
  | none => none

/-! ## Multipart driver -/

/-- Go `(p *Vod) uploadMergePartV2(param, uploadID, list) error`: the body comes
from `genMergeBody`, whose error is returned before any request is made;
otherwise one merge request is sent and its result returned. -/
def uploadMergePartV2 (w : World) (trace : List Event) (param : UploadPartCommon)
    (uploadID : String) (uploadPartResponseList : List (Option UploadPartResponse)) :
    Outcome (Option GoError) × List Event :=
  match genMergeBody uploadPartResponseList with
  | .panic msg => (.panic msg, trace)
  | .blocked => (.blocked, trace)
  | .ret (_, some err) => (.ret (some err), trace)
  | .ret (body, none) =>
    (.ret (w.mergePut trace param uploadID body), trace ++ [.mergePut param uploadID body])

/-- Go `(p *Vod) chunkUpload(filePath string, param model.UploadPartCommon) error`.

1. `calculateUploadParts(size, param.ChunkSize)`; its error is returned at once.
2. `initUploadPartV2(param)`; its error is returned at once.
3. `make(chan ..., totalNum)` panics for a negative `totalNum`, `wg.Add(parallelNum)`
   for a negative `parallelNum`; with `parallelNum == 0` no worker is started.
4. After `wg.Wait()`, a value in `errChan` ends the call: for `Error.Code == -1`
   the telemetry argument `err.Error()` is evaluated on the `nil` error left by
   step 2, which panics; otherwise an `UploadError` with the recorded codes is
   returned.
5. Otherwise `totalNum` results are received (blocking for ever if fewer were
   sent) and `uploadMergePartV2` is called with the captured content type. -/
def chunkUpload (w : World) (trace : List Event) (filePath : String)
    (param : UploadPartCommon) : Outcome (Option GoError) × List Event :=
  match calculateUploadParts param.FileSize param.ChunkSize with
  | .panic msg => (.panic msg, trace)
  | .blocked => (.blocked, trace)
  | .ret (_, _, some err) => (.ret (some err), trace)
  | .ret (totalNum, uploadPartInfos, none) =>
    let t1 := trace ++ [.initUploadPartV2 param]
    match w.initUploadPartV2 trace param with
    | (_, some err) => (.ret (some err), t1)
    | (uploadID, none) =>
      if totalNum < 0 then (.panic "makechan: size out of range", t1)
      else if param.ParallelNum < 0 then (.panic "sync: negative WaitGroup counter", t1)
      else
        let t2 := t1 ++ [.workers uploadID param.ParallelNum uploadPartInfos]
        let workers : Outcome WorkerPhase :=
          if param.ParallelNum = 0 then .ret {}
          else w.runWorkers t1 filePath param uploadID uploadPartInfos
        match workers with
        | .panic msg => (.panic msg, t2)
        | .blocked => (.blocked, t2)
        | .ret phase =>
          match phase.errChan with
          | v :: _ =>
            if v.Error.Code = -1 then
              (.panic "runtime error: invalid memory address or nil pointer dereference", t2)
            else
              (.ret (some (.UploadError v.Error.Code v.Error.ErrorCode v.Error.Message)), t2)
          | [] =>
            if phase.results.length < totalNum.toNat then (.blocked, t2)
            else
              uploadMergePartV2 w t2 { param with ObjectContentType := phase.objectContentType }
                uploadID (phase.results.take totalNum.toNat)

/-! ## Host failover in `Upload` -/

/-- The predicate `Upload` passes to `retry.RetryIf`:
`if e, ok := err.(UploadError); ok { return e.ErrorCode >= 5000 || e.ErrorCode == 0 && e.Code >= 500 }; return false`. -/
def retryIf : GoError → Bool
  | .UploadError Code ErrorCode _ =>
    decide (ErrorCode ≥ 5000) || (decide (ErrorCode = 0) && decide (Code ≥ 500))
  | .errorString _ => false

/-- Modelled from the spec: `retry.Do` of the imported package
`github.com/avast/retry-go` is not under `src/`. With the options
`RetryIf(p)`, `Attempts(n)` and `LastErrorOnly(true)` the function is called
until it returns `nil`, or returns an error that `p` rejects, or has been
called `n` times; the result is `nil` in the first case and the last error
otherwise. `σ` is the state the retried closure reads and writes, `lastErr`
the error of the previous call. A panic inside the closure is not caught. -/
def retryDo {σ : Type} (p : GoError → Bool) (fn : σ → Outcome (Option GoError) × σ) :
    Nat → σ → Option GoError → Outcome (Option GoError) × σ
  | 0, s, lastErr => (.ret lastErr, s)
  | n + 1, s, _ =>
    match fn s with
    | (.ret none, s1) => (.ret none, s1)
    | (.ret (some err), s1) =>
      if p err then retryDo p fn n s1 (some err) else (.ret (some err), s1)
    | (.panic msg, s1) => (.panic msg, s1)
    | (.blocked, s1) => (.blocked, s1)

/-- The closure `Upload` hands to `retry.Do`, acting on `retryCount` and the
trace: it prints `using %d host, try %d times` with `i + 1` and `retryCount`,
stores `retryCount` in `uploadPart.RetryTimes`, increments `retryCount` and
runs `lazyUploadFn`, which is `directUpload(bts, uploadPart)` when `direct` and
`chunkUpload(filePath, uploadPart)` otherwise. -/
def attempt (w : World) (direct : Bool) (bts : List UInt8) (filePath : String) (i : Nat)
    (uploadPart : UploadPartCommon) :
    Int × List Event → Outcome (Option GoError) × (Int × List Event)
  | (retryCount, trace) =>
    let t1 := trace ++ [.Printf ((i : Int) + 1) retryCount]
    let part := { uploadPart with RetryTimes := retryCount }
    if direct then
      (.ret (w.directUpload t1 bts part), (retryCount + 1, t1 ++ [.directUpload bts part]))
    else
      (w.chunkUpload t1 filePath part, (retryCount + 1, t1 ++ [.chunkUpload filePath part]))

/-- The statement `if len(bts) == 0 { bts, err = ioutil.ReadAll(req.Rd) ... }` of
the candidate loop, which runs only on the single-shot branch (`direct`): the
payload, the read error if any, and the trace afterwards. -/
def readPayload (w : World) (direct : Bool) (bts : List UInt8) (trace : List Event) :
    List UInt8 × Option GoError × List Event :=
  if direct = true ∧ bts.length = 0 then
    ((w.ReadAll trace).1, (w.ReadAll trace).2, trace ++ [.ReadAll])
  else (bts, none, trace)

/-- The first statements of `Upload` after the size check:
`if req.ChunkSize < consts.MinChunckSize { req.ChunkSize = consts.MinChunckSize }`. -/
def raiseChunkSize (w : World) (req : VodUploadFuncRequest) : VodUploadFuncRequest :=
  if req.ChunkSize < w.MinChunckSize then { req with ChunkSize := w.MinChunckSize } else req

/-- What `Upload` hands back: the four return values
`(string, string, error, int)` or a panic, the request as `Upload` left it,
and the events in order. -/
structure UploadResult where
  ret : Outcome (String × String × Option GoError × Int)
  req : VodUploadFuncRequest
  trace : List Event
  deriving DecidableEq

/-- The variables that live across iterations of the candidate loop. -/
structure LoopState where
  req : VodUploadFuncRequest
  bts : List UInt8
  trace : List Event
  deriving DecidableEq

/-- How one iteration of the candidate loop ends. -/
inductive Step where
  | next (st : LoopState)
  | done (r : UploadResult)
  deriving DecidableEq

/-- The statement `if req.ParallelNum == 0 { req.ParallelNum = 1 }`. -/
def defaultParallelNum (req : VodUploadFuncRequest) : VodUploadFuncRequest :=
  if req.ParallelNum = 0 then { req with ParallelNum := 1 } else req

/-- The composite literal `model.UploadPartCommon{...}` that `Upload` builds for
one address (`RetryTimes` and `ObjectContentType` keep their zero values). -/
def newUploadPart (tosHost oid auth : String) (req : VodUploadFuncRequest) : UploadPartCommon :=
  { TosHost := tosHost, Oid := oid, Auth := auth, SpaceName := req.SpaceName,
    ChunkSize := req.ChunkSize, FileSize := req.Size, ParallelNum := req.ParallelNum,
    StorageClass := req.StorageClass }

/-- The statements of the candidate loop from `retryCount := 1` to the end of
the iteration (`http.StatusBadRequest` is 400, `http.StatusOK` is 200): the
transfer runs under `retry.Do(..., RetryIf(retryIf), Attempts(3),
LastErrorOnly(true))`. Success returns the object id and session key. An
`UploadError` that fails the inline test
`ErrorCode >= 5000 || ErrorCode == 0 && Code >= 500` is returned; after any
other error the loop continues. -/
def transferWithRetry (w : World) (logId : String) (i : Nat) (direct : Bool)
    (oid sessionKey : String) (uploadPart : UploadPartCommon) (req : VodUploadFuncRequest)
    (bts : List UInt8) (t1 : List Event) : Step :=
  match retryDo retryIf (attempt w direct bts req.FilePath i uploadPart) 3 (1, t1) none with
  | (.ret none, (_, t2)) =>
    .done { ret := .ret (oid, sessionKey, none, 200), req := req, trace := t2 }
  | (.ret (some (.UploadError Code ErrorCode Message)), (_, t2)) =>
    if ¬ (ErrorCode ≥ 5000 ∨ (ErrorCode = 0 ∧ Code ≥ 500)) then
      .done { ret := .ret (logId, "", some (.UploadError Code ErrorCode Message), 400),
              req := req, trace := t2 }
    else .next { req := req, bts := bts, trace := t2 }
  | (.ret (some (.errorString _)), (_, t2)) => .next { req := req, bts := bts, trace := t2 }
  | (.panic msg, (_, t2)) => .done { ret := .panic msg, req := req, trace := t2 }
  | (.blocked, (_, t2)) => .done { ret := .blocked, req := req, trace := t2 }

/-- One iteration of `for i, uploadAddress := range allUploadAddress` in
`Upload`. An address without a host, without store infos or with a `nil`
first store info is skipped. Otherwise `ParallelNum == 0` becomes 1, the
payload is read once when `Size < ChunkSize` (`readPayload`; a read error is
returned with status 400), and the transfer is made (`transferWithRetry`). -/
def uploadToAddress (w : World) (logId : String) (i : Nat) (uploadAddress : Option UploadAddress)
    (st : LoopState) : Step :=
  match GetUploadHosts uploadAddress, GetStoreInfos uploadAddress with
  | tosHost :: _, some storeInfo :: _ =>
    let req := defaultParallelNum st.req
    let uploadPart := newUploadPart tosHost storeInfo.StoreUri storeInfo.Auth req
    let direct := decide (req.Size < req.ChunkSize)
    match readPayload w direct st.bts st.trace with
    | (_, some err, t1) => .done { ret := .ret (logId, "", some err, 400), req := req, trace := t1 }
    | (bts, none, t1) =>
      transferWithRetry w logId i direct storeInfo.StoreUri (GetSessionKey uploadAddress)
        uploadPart req bts t1
  | _, _ => .next st

/-- The candidate loop of `Upload` from index `i` on, and the statement after
it, `return logId, "", fmt.Errorf("upload failed"), http.StatusBadRequest`. -/
def uploadCandidates (w : World) (logId : String) :
    List (Option UploadAddress) → Nat → LoopState → UploadResult
  | [], _, st =>
    { ret := .ret (logId, "", some (.errorString "upload failed"), 400), req := st.req,
      trace := st.trace }
  | uploadAddress :: rest, i, st =>
    match uploadToAddress w logId i uploadAddress st with
    | .done r => r
    | .next st1 => uploadCandidates w logId rest (i + 1) st1

/-- The list `allUploadAddress` of `Upload`: main, then backup, then fallback
addresses of a non-nil candidate object. -/
def allUploadAddress : Option CandidateUploadAddresses → List (Option UploadAddress)
  | some c => c.MainUploadAddresses ++ c.BackupUploadAddresses ++ c.FallbackUploadAddresses
  | none => []

/-- The `else` branch of `Upload`, used when there is no candidate address:
the single `UploadAddress` gets one transfer, without retry. -/
def uploadSingleAddress (w : World) (logId : String) (uploadAddress : Option UploadAddress)
    (req0 : VodUploadFuncRequest) (trace : List Event) : UploadResult :=
  match uploadAddress with
  | none =>
    { ret := .ret (logId, "", some (.errorString "upload address not exist"), 400), req := req0,
      trace := trace }
  | some ua =>
    match ua.UploadHosts, ua.StoreInfos with
    | [], _ =>
      { ret := .ret (logId, "", some (.errorString "no tos host found"), 400), req := req0,
        trace := trace }
    | tosHost :: _, some storeInfo :: _ =>
      let req := defaultParallelNum req0
      let param := newUploadPart tosHost storeInfo.StoreUri storeInfo.Auth req
      if req.Size < req.ChunkSize then
        let t1 := trace ++ [.ReadAll]
        match w.ReadAll trace with
        | (_, some err) => { ret := .ret (logId, "", some err, 400), req := req, trace := t1 }
        | (bts, none) =>
          let t2 := t1 ++ [.directUpload bts param]
          match w.directUpload t1 bts param with
          | some err => { ret := .ret (logId, "", some err, 400), req := req, trace := t2 }
          | none =>
            { ret := .ret (storeInfo.StoreUri, ua.SessionKey, none, 200), req := req, trace := t2 }
      else
        let t1 := trace ++ [.chunkUpload req.FilePath param]
        match w.chunkUpload trace req.FilePath param with
        | .ret (some err) => { ret := .ret (logId, "", some err, 400), req := req, trace := t1 }
        | .ret none =>
          { ret := .ret (storeInfo.StoreUri, ua.SessionKey, none, 200), req := req, trace := t1 }
        | .panic msg => { ret := .panic msg, req := req, trace := t1 }
        | .blocked => { ret := .blocked, req := req, trace := t1 }
    | _ :: _, _ =>
      { ret := .ret (logId, "", some (.errorString "no store info found"), 400), req := req0,
        trace := trace }

/-- Go `(p *Vod) Upload(req *model.VodUploadFuncRequest) (string, string, error, int)`.

* `Size == 0` is the error `file size is zero` with status 400.
* A `ChunkSize` below `consts.MinChunckSize` is raised to it, in the request.
* `ApplyUploadInfo` is called; its error is returned with its status code.
  `resp.ResponseMetadata.Error` is then read without a nil check.
* A metadata error whose code is not `"0"` is returned.
* With a private-network address, `vpcUpload` decides; on success the object id
  is read from `uploadAddress.StoreInfos[0]` without a check.
* With at least one candidate address the candidate loop runs, otherwise the
  single address is used. -/
def Upload (w : World) (req0 : VodUploadFuncRequest) : UploadResult :=
  if req0.Size = 0 then
    { ret := .ret ("", "", some (.errorString "file size is zero"), 400), req := req0, trace := [] }
  else
    let req := raiseChunkSize w req0
    let t1 : List Event := [.ApplyUploadInfo req]
    match w.ApplyUploadInfo [] req with
    | (resp, code, some err) =>
      { ret := .ret (GetRequestId resp, "", some err, code), req := req, trace := t1 }
    | (none, _, none) =>
      { ret := .panic "runtime error: invalid memory address or nil pointer dereference",
        req := req, trace := t1 }
    | (some r, code, none) =>
      let logId := GetRequestId (some r)
      match r.ResponseMetadata with
      | none =>
        { ret := .panic "runtime error: invalid memory address or nil pointer dereference",
          req := req, trace := t1 }
      | some md =>
        match md.Error.filter (fun e => e.Code ≠ "0") with
        | some e =>
          { ret := .ret (logId, "", some (.errorString (w.fmtPlusV e)), code), req := req,
            trace := t1 }
        | none =>
          let data := GetData (some r)
          match data.bind (·.VpcTosUploadAddress) with
          | some vpcUploadAddress =>
            let t2 := t1 ++ [.vpcUpload vpcUploadAddress req]
            match w.vpcUpload t1 vpcUploadAddress req with
            | .ret (some err) => { ret := .ret (logId, "", some err, 400), req := req, trace := t2 }
            | .panic msg => { ret := .panic msg, req := req, trace := t2 }
            | .blocked => { ret := .blocked, req := req, trace := t2 }
            | .ret none =>
              match data.bind (·.UploadAddress) with
              | none =>
                { ret := .panic "runtime error: invalid memory address or nil pointer dereference",
                  req := req, trace := t2 }
              | some ua =>
                match ua.StoreInfos with
                | [] => { ret := .panic "runtime error: index out of range", req := req, trace := t2 }
                | storeInfo :: _ =>
                  { ret := .ret (GetStoreUri storeInfo, ua.SessionKey, none, 200), req := req,
                    trace := t2 }
          | none =>
            let all := allUploadAddress (data.bind (·.CandidateUploadAddresses))
            if all.length > 0 then
              uploadCandidates w logId all 0 { req := req, bts := [], trace := t1 }
            else
              uploadSingleAddress w logId (data.bind (·.UploadAddress)) req t1

/-! ## Single-shot transfer -/

/-- Go `model.UploadPartCommonResponse`: the envelope of a storage response. -/
structure UploadPartCommonResponse where
  Success : Int := 0
  Error : UploadPartError := {}
  deriving DecidableEq

/-- What becomes of the PUT request of `directUpload`: one of `http.NewRequest`,
`client.Do`, `ioutil.ReadAll` and `json.Unmarshal` returned an error (none of
them is an `UploadError`), or the body parsed into an envelope. -/
inductive PutReply where
  | failed (msg : String)
  | envelope (res : UploadPartCommonResponse)
  deriving DecidableEq

/-- Go `(p *Vod) directUpload(fileBytes []byte, param model.UploadPartCommon) error`,
with `put` standing for the storage host. An error of the request is returned
as it is; an envelope with `Success != 0` is returned as
`errors.New(res.Error.Message)`; otherwise the result is `nil`. -/
def directUpload (put : List Event → List UInt8 → UploadPartCommon → PutReply)
    (trace : List Event) (fileBytes : List UInt8) (param : UploadPartCommon) : Option GoError :=
  match put trace fileBytes param with
  | .failed msg => some (.errorString msg)
  | .envelope res =>
    if res.Success ≠ 0 then some (.errorString res.Error.Message) else none

/-! ## Vocabulary of the statements -/

/-- The transfer attempt an event stands for, if it is one: the host and the
attempt number (`RetryTimes`) of a `directUpload` or `chunkUpload` call. -/
def transferOf : Event → Option (String × Int)
  | .directUpload _ param => some (param.TosHost, param.RetryTimes)
  | .chunkUpload _ param => some (param.TosHost, param.RetryTimes)
  | _ => none

/-- The transfer attempts of a trace, in order. -/
def transferAttempts (trace : List Event) : List (String × Int) :=
  trace.filterMap transferOf

/-- The transfer returned an error that the retry predicate accepts. -/
def retryableFailure (o : Outcome (Option GoError)) : Prop :=
  ∃ err, o = .ret (some err) ∧ retryIf err = true

/-- The transfer returned a service error with error code at least 5000. -/
def serviceFailure5000 (o : Outcome (Option GoError)) : Prop :=
  ∃ Code ErrorCode Message, o = .ret (some (.UploadError Code ErrorCode Message)) ∧ ErrorCode ≥ 5000

/-- The candidate address passes the guard of the loop: its first host is
`host` and its first store info is the non-nil `storeInfo`. -/
def usableAs (a : Option UploadAddress) (host : String) (storeInfo : StoreInfo) : Prop :=
  ∃ hosts infos, GetUploadHosts a = host :: hosts ∧ GetStoreInfos a = some storeInfo :: infos

/-- Three attempts, numbered 1, 2, 3, on the first host of every candidate that
passes the guard of the loop, in list order. -/
def threeAttemptsEach : List (Option UploadAddress) → List (String × Int)
  | [] => []
  | a :: rest =>
    (match GetUploadHosts a, GetStoreInfos a with
      | host :: _, some _ :: _ => [(host, 1), (host, 2), (host, 3)]
      | _, _ => []) ++ threeAttemptsEach rest

/-- The control plane answers the (chunk-size adjusted) request without
error, with request id `logId`, no metadata error, no private-network address
and the candidate list `all`. -/
def offersCandidates (w : World) (req : VodUploadFuncRequest) (logId : String)
    (all : List (Option UploadAddress)) : Prop :=
  ∃ r code md data,
    w.ApplyUploadInfo [] (raiseChunkSize w req) = (some r, code, none) ∧
    r.ResponseMetadata = some md ∧ md.RequestId = logId ∧
    (∀ e, md.Error = some e → e.Code = "0") ∧
    GetData (some r) = some data ∧ data.VpcTosUploadAddress = none ∧
    allUploadAddress data.CandidateUploadAddresses = all

/-- A control plane and storage for worked examples: the candidates are
offered as main addresses under request id `req-1`, the minimum chunk size is
4, the payload reads as three bytes, and every transfer against a host ends
as `transfer` says for that host. -/
def exampleWorld (addresses : List (Option UploadAddress)) (transfer : String → Option GoError) :
    World :=
  { MinChunckSize := 4
    ApplyUploadInfo := fun _ _ =>
      (some { ResponseMetadata := some { RequestId := "req-1" },
              Result := some
                { Data := some
                    { CandidateUploadAddresses := some { MainUploadAddresses := addresses } } } },
        200, none)
    vpcUpload := fun _ _ _ => .ret none
    ReadAll := fun _ => ([1, 2, 3], none)
    directUpload := fun _ _ param => transfer param.TosHost
    chunkUpload := fun _ _ param => .ret (transfer param.TosHost)
    initUploadPartV2 := fun _ _ => ("upload-1", none)
    runWorkers := fun _ _ _ _ _ => .ret {}
    mergePut := fun _ _ _ _ => none
    fmtPlusV := fun e => e.Message }

/-- A candidate address with one host, one store info and a session key. -/
def exampleAddress (host oid sessionKey : String) : Option UploadAddress :=
  some { UploadHosts := [host], StoreInfos := [some { StoreUri := oid, Auth := "auth" }],
         SessionKey := sessionKey }

/-- Storage whose single-shot PUT on host `h1` is answered with a failure
envelope carrying error code 5001 and on every other host with success. -/
def busyFirstHost (_ : List Event) (_ : List UInt8) (param : UploadPartCommon) : PutReply :=
  if param.TosHost = "h1" then
    .envelope { Success := 1, Error := { Code := 500, ErrorCode := 5001, Message := "busy" } }
  else .envelope {}

/-- Two candidate hosts `h1` and `h2` in front of `busyFirstHost`, the
single-shot transfer being `directUpload` as modelled above. -/
def busyWorld : World :=
  { exampleWorld [exampleAddress "h1" "oid1" "sk1", exampleAddress "h2" "oid2" "sk2"]
      (fun _ => none) with
    directUpload := directUpload busyFirstHost }

/-! ## Flattened upload info and the streaming entry point -/

/-- Go `model.UploadCommonInfo` (`hasClient` says that `Client` is not `nil`). -/
structure UploadCommonInfo where
  Hosts : List String := []
  Oid : String := ""
  SessionKey : String := ""
  Auth : String := ""
  StorageClass : Int := 0
  SpaceName : String := ""
  PreferredHostIndex : Int := 0
  hasClient : Bool := true
  deriving DecidableEq

/-- The loop `for _, candidateAddress := range allUploadAddress { candidateHosts =
append(candidateHosts, candidateAddress.UploadHosts...) }` of
`BuildVodCommonUploadInfo`; the field is read without a nil check. -/
def candidateHosts : List (Option UploadAddress) → Outcome (List String)
  | [] => .ret []
  | none :: _ => .panic "runtime error: invalid memory address or nil pointer dereference"
  | some a :: rest =>
    match candidateHosts rest with
    | .ret hosts => .ret (a.UploadHosts ++ hosts)
    | .panic msg => .panic msg
    | .blocked => .blocked

/-- Go `(p *Vod) BuildVodCommonUploadInfo(resp) (*model.UploadCommonInfo, error)`;
`fmtPlusV` renders a metadata error with `%+v`.

* A `nil` response, metadata or result is the error `empty input`.
* A metadata error whose code is not `"0"` is returned.
* `allUploadAddress` is main, then backup, then fallback addresses.
* A `nil` single address or an empty candidate list is `empty address`.
* The single address must have a host (`no tos host found`) and a non-nil
  first store info (`no store info found`); it supplies `Hosts`, `Oid`,
  `SessionKey` and `Auth`.
* The hosts of all candidates, when there is at least one, replace `Hosts`. -/
def BuildVodCommonUploadInfo (fmtPlusV : ResponseError → String)
    (resp : Option VodApplyUploadInfoResponse) :
    Outcome (Option UploadCommonInfo × Option GoError) :=
  match resp with
  | none => .ret (none, some (.errorString "empty input"))
  | some r =>
    match r.ResponseMetadata, r.Result with
    | some md, some _ =>
      match md.Error.filter (fun e => e.Code ≠ "0") with
      | some e => .ret (none, some (.errorString (fmtPlusV e)))
      | none =>
        let all := allUploadAddress ((GetData resp).bind (·.CandidateUploadAddresses))
        match (GetData resp).bind (·.UploadAddress) with
        | none => .ret (none, some (.errorString "empty address"))
        | some ua =>
          if all.length = 0 then .ret (none, some (.errorString "empty address"))
          else
            match ua.UploadHosts, ua.StoreInfos with
            | [], _ => .ret (none, some (.errorString "no tos host found"))
            | _ :: _, some storeInfo :: _ =>
              let info : UploadCommonInfo :=
                { Hosts := ua.UploadHosts, Oid := storeInfo.StoreUri,
                  SessionKey := ua.SessionKey, Auth := storeInfo.Auth }
              match candidateHosts all with
              | .ret hosts =>
                .ret (some (if hosts.length > 0 then { info with Hosts := hosts } else info), none)
              | .panic msg => .panic msg
              | .blocked => .blocked
            | _ :: _, _ => .ret (none, some (.errorString "no store info found"))
    | _, _ => .ret (none, some (.errorString "empty input"))

/-- Go `model.VodStreamUploadRequest`; `Content` is the `io.Reader`, `none`
when it is `nil`, otherwise the bytes it will deliver. -/
structure VodStreamUploadRequest where
  Content : Option (List UInt8) := none
  Size : Int := 0
  SpaceName : String := ""
  FileType : String := ""
  FileName : String := ""
  FileExtension : String := ""
  StorageClass : Int := 0
  ChunkSize : Int := 0
  deriving DecidableEq

/-- Go `model.UploadContentParam`. -/
structure UploadContentParam where
  UploadCommonInfo : Option UploadCommonInfo := none
  ChunkSize : Int := 0
  Size : Int := 0
  Content : Option (List UInt8) := none
  deriving DecidableEq

/-- The calls `StreamUpload` makes. -/
inductive StreamEvent where
  | ApplyUploadInfo (req : VodStreamUploadRequest)
  | vpcUploadStream (addr : VpcTosUploadAddress) (req : VodStreamUploadRequest)
  | StreamUploadContent (param : UploadContentParam)
  deriving DecidableEq

/-- Everything outside `StreamUpload`: the constants `consts.MinChunckSize` and
`consts.StreamMinChunkSize`, the control plane, the methods `vpcUploadStream`
and `StreamUploadContent` as `StreamUpload` sees them, and the texts `fmt`
renders (`%+v` of a metadata error, the `Error()` text of an error). -/
structure StreamWorld where
  MinChunckSize : Int
  StreamMinChunkSize : Int
  ApplyUploadInfo : List StreamEvent → VodStreamUploadRequest →
    Option VodApplyUploadInfoResponse × Int × Option GoError
  vpcUploadStream : List StreamEvent → VpcTosUploadAddress → VodStreamUploadRequest →
    Outcome (Option GoError)
  StreamUploadContent : List StreamEvent → UploadContentParam → Outcome (Option GoError)
  fmtPlusV : ResponseError → String
  errorText : GoError → String

/-- What `StreamUpload` hands back: the four return values or a panic, the
request as it left it, and the calls in order. -/
structure StreamUploadResult where
  ret : Outcome (String × String × Option GoError × Int)
  req : VodStreamUploadRequest
  trace : List StreamEvent
  deriving DecidableEq

/-- Go `(p *Vod) StreamUpload(req *model.VodStreamUploadRequest) (string, string, error, int)`.

* A `ChunkSize` of 0 becomes `consts.MinChunckSize`, in the request.
* A `ChunkSize` below `consts.StreamMinChunkSize` is the error
  `chunk size must be greater than 5MB` with status 0.
* A `nil` `Content` is the error `content is nil` with status 0.
* `ApplyUploadInfo` is called; its error is returned with its status code;
  `resp.ResponseMetadata.Error` is then read without a nil check.
* With a private-network address `vpcUploadStream` decides, and on success the
  object id is read from `uploadAddress.StoreInfos[0]` without a check.
* Otherwise `BuildVodCommonUploadInfo` flattens the response (its error is
  wrapped and returned with the control plane's status code) and
  `StreamUploadContent` transfers the content. -/
def StreamUpload (w : StreamWorld) (req0 : VodStreamUploadRequest) : StreamUploadResult :=
  let req := if req0.ChunkSize = 0 then { req0 with ChunkSize := w.MinChunckSize } else req0
  if req.ChunkSize < w.StreamMinChunkSize then
    { ret := .ret ("", "", some (.errorString "chunk size must be greater than 5MB"), 0),
      req := req, trace := [] }
  else if req.Content = none then
    { ret := .ret ("", "", some (.errorString "content is nil"), 0), req := req, trace := [] }
  else
    let t1 : List StreamEvent := [.ApplyUploadInfo req]
    match w.ApplyUploadInfo [] req with
    | (resp, code, some err) =>
      { ret := .ret (GetRequestId resp, "", some err, code), req := req, trace := t1 }
    | (none, _, none) =>
      { ret := .panic "runtime error: invalid memory address or nil pointer dereference",
        req := req, trace := t1 }
    | (some r, code, none) =>
      let logId := GetRequestId (some r)
      match r.ResponseMetadata with
      | none =>
        { ret := .panic "runtime error: invalid memory address or nil pointer dereference",
          req := req, trace := t1 }
      | some md =>
        match md.Error.filter (fun e => e.Code ≠ "0") with
        | some e =>
          { ret := .ret (logId, "", some (.errorString (w.fmtPlusV e)), code), req := req,
            trace := t1 }
        | none =>
          let data := GetData (some r)
          match data.bind (·.VpcTosUploadAddress) with
          | some vpcUploadAddress =>
            let t2 := t1 ++ [.vpcUploadStream vpcUploadAddress req]
            match w.vpcUploadStream t1 vpcUploadAddress req with
            | .ret (some err) => { ret := .ret (logId, "", some err, 400), req := req, trace := t2 }
            | .panic msg => { ret := .panic msg, req := req, trace := t2 }
            | .blocked => { ret := .blocked, req := req, trace := t2 }
            | .ret none =>
              match data.bind (·.UploadAddress) with
              | none =>
                { ret := .panic "runtime error: invalid memory address or nil pointer dereference",
                  req := req, trace := t2 }
              | some ua =>
                match ua.StoreInfos with
                | [] => { ret := .panic "runtime error: index out of range", req := req, trace := t2 }
                | storeInfo :: _ =>
                  { ret := .ret (GetStoreUri storeInfo, ua.SessionKey, none, 200), req := req,
                    trace := t2 }
          | none =>
            match BuildVodCommonUploadInfo w.fmtPlusV (some r) with
            | .panic msg => { ret := .panic msg, req := req, trace := t1 }
            | .blocked => { ret := .blocked, req := req, trace := t1 }
            | .ret (_, some err) =>
              { ret := .ret (logId, "",
                  some (.errorString ("build common upload info error:" ++ w.errorText err)), code),
                req := req, trace := t1 }
            | .ret (none, none) =>
              { ret := .panic "runtime error: invalid memory address or nil pointer dereference",
                req := req, trace := t1 }
            | .ret (some info, none) =>
              let uploadCommonInfo :=
                { info with StorageClass := req.StorageClass, SpaceName := req.SpaceName }
              let param : UploadContentParam :=
                { UploadCommonInfo := some uploadCommonInfo, ChunkSize := req.ChunkSize,
                  Size := req.Size, Content := req.Content }
              let t2 := t1 ++ [.StreamUploadContent param]
              match w.StreamUploadContent t1 param with
              | .ret (some err) => { ret := .ret (logId, "", some err, 400), req := req, trace := t2 }
              | .ret none =>
                { ret := .ret (uploadCommonInfo.Oid, uploadCommonInfo.SessionKey, none, 200),
                  req := req, trace := t2 }
              | .panic msg => { ret := .panic msg, req := req, trace := t2 }
              | .blocked => { ret := .blocked, req := req, trace := t2 }

/-! ## Private-network (VPC) transfer -/

/-- Go `model.VpcUploadPartInfo`: one entry of the completion body. -/
structure VpcUploadPartInfo where
  PartNumber : Int
  ETag : String
  deriving DecidableEq

/-- The parts of an HTTP response the VPC functions read: the status code and
the headers `x-tos-request-id`, `x-tos-hash-crc64ecma` and `ETag`. -/
structure HttpResponse where
  StatusCode : Int := 200
  RequestId : String := ""
  HashCrc64ecma : String := ""
  ETag : String := ""
  deriving DecidableEq

/-- The calls of the VPC functions that touch the file system or the network:
opening the file, the PUT of a file section, of the whole file or of bytes
taken from a stream, and the completion POST. -/
inductive VpcEvent where
  | Open (filePath : String)
  | putSection (putUrl : String) (offset : Int) (size : Int)
  | putFile (putUrl : String)
  | putBytes (putUrl : String) (body : List UInt8)
  | post (completeUrl : String) (parts : List VpcUploadPartInfo)
  deriving DecidableEq

/-- Everything outside the VPC functions, each answer depending on the calls so
far: `os.Open`, the local CRC-64/ECMA of a file section (`some (offset, size)`)
or of the whole file (`none`) with the error of reading it, `Seek`,
`url.Parse`, `http.NewRequest` (method, URL) and `client.Do` (method, URL). -/
structure VpcWorld where
  Open : List VpcEvent → String → Option GoError
  crc64ecma : List VpcEvent → String → Option (Int × Int) → String × Option GoError
  Seek : List VpcEvent → String → Option GoError
  Parse : String → Option GoError
  NewRequest : String → String → Option GoError
  Do : List VpcEvent → String → String → HttpResponse × Option GoError

/-- Go `(p *Vod) vpcPartPut(f, putUrl, offset, size, param) (string, error)`: the
local checksum of the section (`crc64`), the seek back (`reader seek`),
`url.Parse` (`putUrl is invalid`), the request, then the PUT. A status other
than 200 is `put error:` with the request id; a checksum header different from
the local checksum is `integrity check failed`; otherwise the `ETag` header is
returned. -/
def vpcPartPut (w : VpcWorld) (trace : List VpcEvent) (f : String) (putUrl : String)
    (offset size : Int) : (String × Option GoError) × List VpcEvent :=
  match w.crc64ecma trace f (some (offset, size)) with
  | (_, some _) => (("", some (.errorString "crc64")), trace)
  | (hashCrc64, none) =>
    match w.Seek trace f with
    | some _ => (("", some (.errorString "reader seek")), trace)
    | none =>
      match w.Parse putUrl with
      | some _ => (("", some (.errorString "putUrl is invalid")), trace)
      | none =>
        match w.NewRequest "PUT" putUrl with
        | some err => (("", some err), trace)
        | none =>
          let t1 := trace ++ [.putSection putUrl offset size]
          match w.Do trace "PUT" putUrl with
          | (_, some err) => (("", some err), t1)
          | (rsp, none) =>
            if rsp.StatusCode ≠ 200 then
              (("", some (.errorString ("put error:" ++ rsp.RequestId))), t1)
            else if rsp.HashCrc64ecma ≠ hashCrc64 then
              (("", some (.errorString "integrity check failed")), t1)
            else ((rsp.ETag, none), t1)

/-- Go `(p *Vod) vpcPut(vpcUploadAddress, filePath, param) error`: `url.Parse`
(`putUrl parse failed`), `os.Open` (`file open`), the local checksum of the
file (`crc64`), the seek back (`file seek`), the request, then the PUT, checked
as in `vpcPartPut`. -/
def vpcPut (w : VpcWorld) (trace : List VpcEvent) (vpcUploadAddress : VpcTosUploadAddress)
    (filePath : String) : Option GoError × List VpcEvent :=
  let putUrl := vpcUploadAddress.PutUrl
  match w.Parse putUrl with
  | some _ => (some (.errorString "putUrl parse failed"), trace)
  | none =>
    let t1 := trace ++ [.Open filePath]
    match w.Open trace filePath with
    | some _ => (some (.errorString "file open"), t1)
    | none =>
      match w.crc64ecma t1 filePath none with
      | (_, some _) => (some (.errorString "crc64"), t1)
      | (hashCrc64, none) =>
        match w.Seek t1 filePath with
        | some _ => (some (.errorString "file seek"), t1)
        | none =>
          match w.NewRequest "PUT" putUrl with
          | some err => (some err, t1)
          | none =>
            let t2 := t1 ++ [.putFile putUrl]
            match w.Do t1 "PUT" putUrl with
            | (_, some err) => (some err, t2)
            | (rsp, none) =>
              if rsp.StatusCode ≠ 200 then
                (some (.errorString ("put error:" ++ rsp.RequestId)), t2)
              else if rsp.HashCrc64ecma ≠ hashCrc64 then
                (some (.errorString "integrity check failed"), t2)
              else (none, t2)

/-- Go `(p *Vod) vpcPost(partUploadInfo, partsInfo, param) error`: `url.Parse`
(`postUrl is invalid`), the request, then the POST of the part list; a status
other than 200 is `post error:` with the request id. -/
def vpcPost (w : VpcWorld) (trace : List VpcEvent) (partUploadInfo : PartUploadInfo)
    (parts : List VpcUploadPartInfo) : Option GoError × List VpcEvent :=
  let postUrl := partUploadInfo.CompletePartUrl
  match w.Parse postUrl with
  | some _ => (some (.errorString "postUrl is invalid"), trace)
  | none =>
    match w.NewRequest "POST" postUrl with
    | some err => (some err, trace)
    | none =>
      let t1 := trace ++ [.post postUrl parts]
      match w.Do trace "POST" postUrl with
      | (_, some err) => (some err, t1)
      | (rsp, none) =>
        if rsp.StatusCode ≠ 200 then
          (some (.errorString ("post error:" ++ rsp.RequestId)), t1)
        else (none, t1)

/-- The loop `for i := 0; i < len(urls)-1; i++` of `vpcPartUpload`, run over the
URLs it visits, from index `i`, file offset `offset` and the parts recorded so
far: each part is PUT with length `chunkSize`, its error ends the loop, its
ETag is recorded under number `i + 1`, and `offset` advances by `chunkSize`.
The result is the error if any, the final offset and the recorded parts. -/
def vpcPutWholeParts (w : VpcWorld) (f : String) (chunkSize : Int) :
    List String → Nat → Int → List VpcUploadPartInfo → List VpcEvent →
      (Option GoError × Int × List VpcUploadPartInfo) × List VpcEvent
  | [], _, offset, parts, trace => ((none, offset, parts), trace)
  | partUrl :: rest, i, offset, parts, trace =>
    match vpcPartPut w trace f partUrl offset chunkSize with
    | ((_, some err), t1) => ((some err, offset, parts), t1)
    | ((etag, none), t1) =>
      vpcPutWholeParts w f chunkSize rest (i + 1) (wrap64 (offset + chunkSize))
        (parts ++ [{ PartNumber := (i : Int) + 1, ETag := etag }]) t1

/-- Go `(p *Vod) vpcPartUpload(partUploadInfo, filePath, param) error`.

* A `nil` `partUploadInfo` is `empty partInfo`.
* `totalNum := size / chunkSize` (a panic for part size 0) and
  `lastPartSize := size % chunkSize`.
* `mismatch part upload` when the URL count is not `totalNum + 1` and
  `lastPartSize > 0`, or is not `totalNum` and `lastPartSize == 0`.
* `os.Open` (`file open`), then the loop over all URLs but the last
  (`vpcPutWholeParts`).
* The last part is PUT to `urls[totalNum]`, an index that panics when it is
  outside the slice, with length `size - offset`, and is recorded under number
  `totalNum + 1`.
* `vpcPost` sends the recorded parts. -/
def vpcPartUpload (w : VpcWorld) (trace : List VpcEvent) (partUploadInfo : Option PartUploadInfo)
    (filePath : String) (param : UploadPartCommon) : Outcome (Option GoError) × List VpcEvent :=
  match partUploadInfo with
  | none => (.ret (some (.errorString "empty partInfo")), trace)
  | some info =>
    let size := param.FileSize
    let chunkSize := info.PartSize
    if chunkSize = 0 then (.panic "runtime error: integer divide by zero", trace)
    else
      let totalNum := wrap64 (Int.tdiv size chunkSize)
      let lastPartSize := Int.tmod size chunkSize
      let urls := info.PartPutUrls
      if ((urls.length : Int) ≠ wrap64 (totalNum + 1) ∧ lastPartSize > 0) ∨
          ((urls.length : Int) ≠ totalNum ∧ lastPartSize = 0) then
        (.ret (some (.errorString "mismatch part upload")), trace)
      else
        let t1 := trace ++ [.Open filePath]
        match w.Open trace filePath with
        | some _ => (.ret (some (.errorString "file open")), t1)
        | none =>
          match vpcPutWholeParts w filePath chunkSize (urls.take (urls.length - 1)) 0 0 [] t1 with
          | ((some err, _, _), t2) => (.ret (some err), t2)
          | ((none, offset, parts), t2) =>
            let lastChunkSize := wrap64 (size - offset)
            if 0 ≤ totalNum ∧ totalNum < (urls.length : Int) then
              match vpcPartPut w t2 filePath (urls.getD totalNum.toNat "") offset lastChunkSize with
              | ((_, some err), t3) => (.ret (some err), t3)
              | ((etag, none), t3) =>
                let r := vpcPost w t3 info
                  (parts ++ [{ PartNumber := wrap64 (totalNum + 1), ETag := etag }])
                (.ret r.1, r.2)
            else (.panic "runtime error: index out of range", t2)

/-- Go `(p *Vod) vpcUpload(vpcUploadAddress, req) error`: a `nil` address is
`nil VpcUploadAddress`; quick-complete mode `enable` returns `nil` at once;
mode `direct` is `vpcPut`, mode `part` is `vpcPartUpload`, any other mode
returns `nil`. -/
def vpcUpload (w : VpcWorld) (trace : List VpcEvent)
    (vpcUploadAddress : Option VpcTosUploadAddress) (req : VodUploadFuncRequest) :
    Outcome (Option GoError) × List VpcEvent :=
  match vpcUploadAddress with
  | none => (.ret (some (.errorString "nil VpcUploadAddress")), trace)
  | some addr =>
    if addr.QuickCompleteMode = "enable" then (.ret none, trace)
    else
      let param : UploadPartCommon := { FileSize := req.Size, SpaceName := req.SpaceName }
      if addr.UploadMode = "direct" then
        ((.ret (vpcPut w trace addr req.FilePath).1), (vpcPut w trace addr req.FilePath).2)
      else if addr.UploadMode = "part" then
        vpcPartUpload w trace addr.PartUploadInfo req.FilePath param
      else (.ret none, trace)

/-- Go `(p *Vod) vpcPutStream(vpcUploadAddress, content, param) error`: one PUT of
the whole stream, without a checksum comparison. -/
def vpcPutStream (w : VpcWorld) (trace : List VpcEvent) (vpcUploadAddress : VpcTosUploadAddress)
    (content : List UInt8) : Option GoError × List VpcEvent :=
  let putUrl := vpcUploadAddress.PutUrl
  match w.Parse putUrl with
  | some _ => (some (.errorString "putUrl parse failed"), trace)
  | none =>
    match w.NewRequest "PUT" putUrl with
    | some err => (some err, trace)
    | none =>
      let t1 := trace ++ [.putBytes putUrl content]
      match w.Do trace "PUT" putUrl with
      | (_, some err) => (some err, t1)
      | (rsp, none) =>
        if rsp.StatusCode ≠ 200 then
          (some (.errorString ("put error:" ++ rsp.RequestId)), t1)
        else (none, t1)

/-- Go `(p *Vod) vpcPartPutStream(putUrl, content, param) (string, error)`: one
PUT of the bytes the limited reader delivers; the `ETag` header is returned. -/
def vpcPartPutStream (w : VpcWorld) (trace : List VpcEvent) (putUrl : String)
    (content : List UInt8) : (String × Option GoError) × List VpcEvent :=
  match w.Parse putUrl with
  | some _ => (("", some (.errorString "putUrl is invalid")), trace)
  | none =>
    match w.NewRequest "PUT" putUrl with
    | some err => (("", some err), trace)
    | none =>
      let t1 := trace ++ [.putBytes putUrl content]
      match w.Do trace "PUT" putUrl with
      | (_, some err) => (("", some err), t1)
      | (rsp, none) =>
        if rsp.StatusCode ≠ 200 then
          (("", some (.errorString ("put error:" ++ rsp.RequestId))), t1)
        else ((rsp.ETag, none), t1)

/-- The loop `for i := 0; i < len(urls); i++` of `vpcPartUploadStream` from
index `i`: each URL receives the next `chunkSize` bytes of the stream
(`io.LimitReader(content, chunkSize)`), and is recorded under number `i + 1`.
The result is the error if any, the bytes left in the stream and the parts. -/
def vpcPutStreamParts (w : VpcWorld) (chunkSize : Int) :
    List String → Nat → List UInt8 → List VpcUploadPartInfo → List VpcEvent →
      (Option GoError × List UInt8 × List VpcUploadPartInfo) × List VpcEvent
  | [], _, content, parts, trace => ((none, content, parts), trace)
  | partUrl :: rest, i, content, parts, trace =>
    match vpcPartPutStream w trace partUrl (content.take chunkSize.toNat) with
    | ((_, some err), t1) => ((some err, content.drop chunkSize.toNat, parts), t1)
    | ((etag, none), t1) =>
      vpcPutStreamParts w chunkSize rest (i + 1) (content.drop chunkSize.toNat)
        (parts ++ [{ PartNumber := (i : Int) + 1, ETag := etag }]) t1

/-- Go `(p *Vod) vpcPartUploadStream(partUploadInfo, content, param) error`.

* A `nil` `partUploadInfo` is `empty partInfo`.
* `totalNum := size / chunkSize` (a panic for part size 0).
* `mismatch part upload` when the URL count is not `totalNum + 1`.
* Every URL receives the next `chunkSize` bytes (`vpcPutStreamParts`).
* A stream that is not at its end afterwards is `size & content mismatch`.
* `vpcPost` sends the recorded parts. -/
def vpcPartUploadStream (w : VpcWorld) (trace : List VpcEvent)
    (partUploadInfo : Option PartUploadInfo) (content : List UInt8) (param : UploadPartCommon) :
    Outcome (Option GoError) × List VpcEvent :=
  match partUploadInfo with
  | none => (.ret (some (.errorString "empty partInfo")), trace)
  | some info =>
    let size := param.FileSize
    let chunkSize := info.PartSize
    if chunkSize = 0 then (.panic "runtime error: integer divide by zero", trace)
    else
      let totalNum := wrap64 (Int.tdiv size chunkSize)
      if (info.PartPutUrls.length : Int) ≠ wrap64 (totalNum + 1) then
        (.ret (some (.errorString "mismatch part upload")), trace)
      else
        match vpcPutStreamParts w chunkSize info.PartPutUrls 0 content [] trace with
        | ((some err, _, _), t1) => (.ret (some err), t1)
        | ((none, left, parts), t1) =>
          if left.length ≠ 0 then (.ret (some (.errorString "size & content mismatch")), t1)
          else
            let r := vpcPost w t1 info parts
            (.ret r.1, r.2)

/-- Go `(p *Vod) vpcUploadStream(vpcUploadAddress, req) error`: as `vpcUpload`,
with `vpcPutStream` for mode `direct` and `vpcPartUploadStream` for mode
`part`. -/
def vpcUploadStream (w : VpcWorld) (trace : List VpcEvent)
    (vpcUploadAddress : Option VpcTosUploadAddress) (req : VodStreamUploadRequest) :
    Outcome (Option GoError) × List VpcEvent :=
  match vpcUploadAddress with
  | none => (.ret (some (.errorString "nil VpcUploadAddress")), trace)
  | some addr =>
    if addr.QuickCompleteMode = "enable" then (.ret none, trace)
    else
      let param : UploadPartCommon := { FileSize := req.Size, SpaceName := req.SpaceName }
      if addr.UploadMode = "direct" then
        ((.ret (vpcPutStream w trace addr (req.Content.getD [])).1),
          (vpcPutStream w trace addr (req.Content.getD [])).2)
      else if addr.UploadMode = "part" then
        vpcPartUploadStream w trace addr.PartUploadInfo (req.Content.getD []) param
      else (.ret none, trace)

/-! ## Vocabulary of the statements on order, strategy and the VPC path -/

/-- The trace at the end of one iteration of the candidate loop. -/
def Step.trace : Step → List Event
  | .next st => st.trace
  | .done r => r.trace

/-- The request at the end of one iteration of the candidate loop. -/
def Step.req : Step → VodUploadFuncRequest
  | .next st => st.req
  | .done r => r.req

/-- The events of `k` consecutive runs of the retried closure, the first one
with `retryCount = rc`: the printed line and the transfer call of each. -/
def attemptEvents (i : Nat) (direct : Bool) (bts : List UInt8) (filePath : String)
    (up : UploadPartCommon) : Int → Nat → List Event
  | _, 0 => []
  | rc, k + 1 =>
    [Event.Printf ((i : Int) + 1) rc,
      if direct then Event.directUpload bts { up with RetryTimes := rc }
      else Event.chunkUpload filePath { up with RetryTimes := rc }] ++
    attemptEvents i direct bts filePath up (rc + 1) k

/-- An event agrees with the threshold between the two strategies for a payload
of `size` bytes and chunk size `chunkSize`: a single-shot call occurs only when
`size < chunkSize`, a multipart call only when `size ≥ chunkSize`, and either
carries these two numbers. -/
def strategyOk (size chunkSize : Int) : Event → Prop
  | .directUpload _ param =>
    size < chunkSize ∧ param.FileSize = size ∧ param.ChunkSize = chunkSize
  | .chunkUpload _ param =>
    ¬ size < chunkSize ∧ param.FileSize = size ∧ param.ChunkSize = chunkSize
  | _ => True

/-- The transfer returned an error. -/
def transferFailure (o : Outcome (Option GoError)) : Prop :=
  ∃ err, o = .ret (some err)

/-- The hosts of the candidates, in list order. -/
def flattenHosts : List (Option UploadAddress) → List String
  | [] => []
  | a :: rest => GetUploadHosts a ++ flattenHosts rest

/-- A file system and storage for worked examples of the VPC path: the file
opens, its local checksum is `42`, every request can be built, and the
response to a request is `rsp` of its URL. -/
def exampleVpcWorld (rsp : String → HttpResponse) : VpcWorld :=
  { Open := fun _ _ => none
    crc64ecma := fun _ _ _ => ("42", none)
    Seek := fun _ _ => none
    Parse := fun _ => none
    NewRequest := fun _ _ => none
    Do := fun _ _ url => (rsp url, none) }

/-- Every PUT to `putUrl` is answered, without transport error, with status 200
and a checksum header that differs from the checksum computed locally over the
bytes of file `f` that were sent. -/
def alwaysMismatch (w : VpcWorld) (f putUrl : String) : Prop :=
  ∀ (t : List VpcEvent) (range : Option (Int × Int)),
    (w.Do t "PUT" putUrl).2 = none ∧ (w.Do t "PUT" putUrl).1.StatusCode = 200 ∧
      (w.Do t "PUT" putUrl).1.HashCrc64ecma ≠ (w.crc64ecma t f range).1

/-- The example control plane offering the candidate object `c` (main, backup
and fallback lists), the rest as in `exampleWorld`. -/
def exampleCandidateWorld (c : CandidateUploadAddresses) (transfer : String → Option GoError) :
    World :=
  { exampleWorld [] transfer with
    ApplyUploadInfo := fun _ _ =>
      (some { ResponseMetadata := some { RequestId := "req-1" },
              Result := some { Data := some { CandidateUploadAddresses := some c } } },
        200, none) }

/-- A streaming environment for worked examples: minimum chunk size 4, stream
minimum 5, a control plane without candidates, and collaborators that succeed. -/
def exampleStreamWorld : StreamWorld :=
  { MinChunckSize := 4
    StreamMinChunkSize := 5
    ApplyUploadInfo := fun _ _ => (some { ResponseMetadata := some { RequestId := "req-1" } }, 200, none)
    vpcUploadStream := fun _ _ _ => .ret none
    StreamUploadContent := fun _ _ => .ret none
    fmtPlusV := fun e => e.Message
    errorText := fun _ => "" }

/-! ## Workers of the multipart pipeline -/

/-- The calls of the workers and of the object API that touch the file system
or the storage host: `os.Open`, `ReadAt` of a part, and the methods
`uploadPart`, `uploadPartStream`, `directUpload`, `directUploadStream`,
`initUploadPartV2` and `uploadMergePartV2` with their arguments. -/
inductive StorageEvent where
  | Open (filePath : String)
  | ReadAt (filePath : String) (size : Int) (offset : Int)
  | uploadPart (param : UploadPartCommon) (uploadID : String) (partNumber : Int)
      (data : List UInt8) (storageClass : Int)
  | uploadPartStream (param : UploadPartCommon) (uploadID : String) (partNumber : Int)
      (content : List UInt8) (storageClass : Int)
  | directUpload (fileBytes : List UInt8) (param : UploadPartCommon)
  | directUploadStream (content : List UInt8) (param : UploadPartCommon)
  | initUploadPartV2 (param : UploadPartCommon)
  | uploadMergePartV2 (param : UploadPartCommon) (uploadID : String)
      (list : List (Option UploadPartResponse))
  deriving DecidableEq

/-- Everything outside the workers and the object API, each answer depending on
the calls so far. `uploadPart` and `uploadPartStream` answer with the four
return values `(*UploadPartResponse, logid, statusCode, error)`; `errorText` is
the text of `err.Error()` (also what `%v` renders for an error). The telemetry
calls (`reporter.report`) are not part of the trace. -/
structure StorageWorld where
  Open : List StorageEvent → String → Option GoError
  ReadAt : List StorageEvent → String → Int → Int → List UInt8 × Option GoError
  uploadPart : List StorageEvent → UploadPartCommon → String → Int → List UInt8 → Int →
    Option UploadPartResponse × String × Int × Option GoError
  uploadPartStream : List StorageEvent → UploadPartCommon → String → Int → List UInt8 → Int →
    Option UploadPartResponse × String × Int × Option GoError
  directUpload : List StorageEvent → List UInt8 → UploadPartCommon → Option GoError
  directUploadStream : List StorageEvent → List UInt8 → UploadPartCommon → Option GoError
  initUploadPartV2 : List StorageEvent → UploadPartCommon → String × Option GoError
  uploadMergePartV2 : List StorageEvent → UploadPartCommon → String →
    List (Option UploadPartResponse) → Outcome (Option GoError)
  errorText : GoError → String

/-- Go `type Jobs struct` (the client handle left out): one part to upload. -/
structure Jobs where
  filePath : String
  uploadPartInfo : UploadPartInfo
  uploadPartCommon : UploadPartCommon
  uploadId : String
  storageClass : Int
  deriving DecidableEq

/-- The variables `resp`, `logid`, `statusCode` and `err` of `worker` that the
closure given to `retry.Do` assigns, with the trace. -/
structure PutState where
  resp : Option UploadPartResponse := none
  logid : String := ""
  statusCode : Int := 0
  err : Option GoError := none
  trace : List StorageEvent := []
  deriving DecidableEq

/-- The closure `func() error { resp, logid, statusCode, err = p.uploadPart(...); return err }`
of `worker`. -/
def putAttempt (sw : StorageWorld) (job : Jobs) (data : List UInt8) :
    PutState → Outcome (Option GoError) × PutState
  | st =>
    let r := sw.uploadPart st.trace job.uploadPartCommon job.uploadId job.uploadPartInfo.Number
      data job.storageClass
    (.ret r.2.2.2,
      { resp := r.1, logid := r.2.1, statusCode := r.2.2.1, err := r.2.2.2,
        trace := st.trace ++
          [.uploadPart job.uploadPartCommon job.uploadId job.uploadPartInfo.Number data
            job.storageClass] })

/-- How the body of the worker loop ends for one job, up to the channel send:
a failure record for `errChan` (after which the worker sets `*quit = -1` and
returns), a response for `results`, or a panic. -/
inductive JobEnd where
  | failure (res : UploadPartResponse)
  | result (resp : Option UploadPartResponse)
  | panic (msg : String)
  deriving DecidableEq

/-- The body of `for job := range jobs` in `worker`, from `os.Open` to the
decision what to send.

* `os.Open` fails: record with `Code: -1`, the error text and `open file failed`.
* `make([]byte, Size)` panics for a negative size.
* `fd.ReadAt` fails: record with `Code: -1`, the error text and `read data error`.
* `retry.Do(closure, retry.Attempts(3))`: the default `RetryIf` of the package
  accepts every error, so `retryDo` runs with the predicate that is always
  true; the value `retry.Do` returns is dropped and `err` is read instead.
* `err != nil`: record with `Code: -1`, the error text, `upload part fail`, the
  status code and log id; for an `UploadError` its `Code`, `ErrorCode` and
  `Message` replace those of the record.
* Otherwise `resp` goes to `results`. -/
def workerJob (sw : StorageWorld) (trace : List StorageEvent) (job : Jobs) :
    JobEnd × List StorageEvent :=
  let t1 := trace ++ [.Open job.filePath]
  match sw.Open trace job.filePath with
  | some err =>
    (.failure
      { Success := -1,
        Error := { Code := -1, Error := sw.errorText err, Message := "open file failed" },
        PartNumber := job.uploadPartInfo.Number }, t1)
  | none =>
    if job.uploadPartInfo.Size < 0 then (.panic "runtime error: makeslice: len out of range", t1)
    else
      let t2 := t1 ++ [.ReadAt job.filePath job.uploadPartInfo.Size job.uploadPartInfo.OffSet]
      match sw.ReadAt t1 job.filePath job.uploadPartInfo.Size job.uploadPartInfo.OffSet with
      | (_, some err) =>
        (.failure
          { Success := -1,
            Error := { Code := -1, Error := sw.errorText err, Message := "read data error" },
            PartNumber := job.uploadPartInfo.Number }, t2)
      | (data, none) =>
        let st := (retryDo (fun _ => true) (putAttempt sw job data) 3 { trace := t2 } none).2
        match st.err with
        | some err =>
          let record : UploadPartError :=
            { Code := -1, Error := sw.errorText err, Message := "upload part fail",
              StatusCode := st.statusCode, Logid := st.logid }
          let record : UploadPartError :=
            match err with
            | .UploadError Code ErrorCode Message =>
              { record with Code := Code, ErrorCode := ErrorCode, Message := Message }
            | .errorString _ => record
          (.failure { Success := -1, Error := record, PartNumber := job.uploadPartInfo.Number },
            st.trace)
        | none => (.result st.resp, st.trace)

/-- What one worker shares with the rest of `chunkUpload`: the two channels,
`*quit`, `*objectContentType`, and the trace. -/
structure PoolState where
  errChan : List UploadPartResponse := []
  results : List (Option UploadPartResponse) := []
  quit : Int := 0
  objectContentType : String := ""
  trace : List StorageEvent := []
  deriving DecidableEq

/-- Go `worker(p, jobs, results, errChan, quit, objectContentType, wg)` run over
the jobs this worker receives, in order: a job is skipped when `*quit != 0`; a
failure is sent to `errChan`, `*quit` becomes -1 and the worker returns;
otherwise the response is sent to `results` and, for part number 1, its
content type is stored (`resp.PayLoad`, a panic for a `nil` response). -/
def worker (sw : StorageWorld) : List Jobs → PoolState → Outcome PoolState
  | [], st => .ret st
  | job :: rest, st =>
    if st.quit ≠ 0 then worker sw rest st
    else
      match workerJob sw st.trace job with
      | (.failure res, t1) =>
        .ret { st with errChan := st.errChan ++ [res], quit := -1, trace := t1 }
      | (.panic msg, _) => .panic msg
      | (.result resp, t1) =>
        let st1 := { st with results := st.results ++ [resp], trace := t1 }
        if job.uploadPartInfo.Number = 1 then
          match resp with
          | none => .panic "runtime error: invalid memory address or nil pointer dereference"
          | some r => worker sw rest { st1 with objectContentType := r.ObjectContentType }
        else worker sw rest st1

/-- The jobs `chunkUpload` pushes, one per planned part, in plan order. -/
def pushJobs (filePath : String) (param : UploadPartCommon) (uploadID : String)
    (uploadPartInfos : List UploadPartInfo) : List Jobs :=
  uploadPartInfos.map fun info =>
    { filePath := filePath, uploadPartInfo := info, uploadPartCommon := param,
      uploadId := uploadID, storageClass := param.StorageClass }

/-- The worker phase of `chunkUpload` for `parallelNum == 1`: the only worker
receives every job in the order it was pushed. -/
def oneWorker (sw : StorageWorld) (filePath : String) (param : UploadPartCommon)
    (uploadID : String) (uploadPartInfos : List UploadPartInfo) : Outcome WorkerPhase :=
  match worker sw (pushJobs filePath param uploadID uploadPartInfos) {} with
  | .ret st =>
    .ret { errChan := st.errChan, results := st.results, objectContentType := st.objectContentType }
  | .panic msg => .panic msg
  | .blocked => .blocked

/-- The number of goroutines `for w := 1; w <= parallelNum; w++ { go worker(...) }`
starts. -/
def workersStarted (parallelNum : Int) : Nat := parallelNum.toNat

/-- The world in which `Upload` sees the `chunkUpload` modelled above. -/
def withChunkUpload (w : World) : World :=
  { w with chunkUpload := fun trace filePath param => (chunkUpload w trace filePath param).1 }

/-- A world whose worker phase is that of a single worker over the storage
`sw`, whose control plane offers one address on host `h1`, and whose multipart
session opens as `upload-1`; the minimum chunk size is 4. -/
def oneWorkerWorld (sw : StorageWorld) : World :=
  { exampleWorld [exampleAddress "h1" "oid1" "sk1"] (fun _ => none) with
    runWorkers := fun _ filePath param uploadID infos => oneWorker sw filePath param uploadID infos }

/-- The text of an error in worked examples: its message. -/
def messageOf : GoError → String
  | .UploadError _ _ Message => Message
  | .errorString msg => msg

/-- Storage for worked examples: the file opens unless `openErr` is set, a read
delivers `size` zero bytes unless `readErr` is set, and the `k`-th PUT of a
part (counted over the whole run, from 0) is answered by `put k`. Everything
else succeeds, and the text of an error is its message. -/
def exampleStorage (openErr readErr : Option GoError)
    (put : Nat → Option GoError) : StorageWorld :=
  { Open := fun _ _ => openErr
    ReadAt := fun _ _ size _ => (List.replicate size.toNat 0, readErr)
    uploadPart := fun trace _ _ partNumber _ _ =>
      match put (trace.filter fun e =>
          match e with
          | .uploadPart _ _ _ _ _ => true
          | _ => false).length with
      | some err => (none, "log-1", 500, some err)
      | none => (some { PartNumber := partNumber, CheckSum := "crc" }, "log-1", 200, none)
    uploadPartStream := fun _ _ _ partNumber _ _ =>
      (some { PartNumber := partNumber, CheckSum := "crc" }, "log-1", 200, none)
    directUpload := fun _ _ _ => none
    directUploadStream := fun _ _ _ => none
    initUploadPartV2 := fun _ _ => ("upload-1", none)
    uploadMergePartV2 := fun _ _ _ _ => .ret none
    errorText := messageOf }

/-! ## Entry point with commit: `UploadMediaInner` -/

/-- Go `model.VodUploadMediaInnerFuncRequest`, with the fields that reach the
modelled request of `Upload` or the commit request. -/
structure VodUploadMediaInnerFuncRequest where
  FilePath : String := ""
  Size : Int := 0
  ParallelNum : Int := 0
  SpaceName : String := ""
  FileType : String := ""
  FileName : String := ""
  FileExtension : String := ""
  StorageClass : Int := 0
  ChunkSize : Int := 0
  CallbackArgs : String := ""
  Funcs : String := ""
  VodUploadSource : String := ""
  ExpireTime : String := ""
  deriving DecidableEq

/-- Go `request.VodCommitUploadInfoRequest`. -/
structure VodCommitUploadInfoRequest where
  SpaceName : String := ""
  SessionKey : String := ""
  CallbackArgs : String := ""
  Functions : String := ""
  VodUploadSource : String := ""
  ExpireTime : String := ""
  deriving DecidableEq

/-- Go `response.VodCommitUploadInfoResponse`; `Result` stands for the payload
of a commit. -/
structure VodCommitUploadInfoResponse where
  ResponseMetadata : Option ResponseMetadata := none
  Result : Option String := none
  deriving DecidableEq

/-- Go `(p *Vod) fillCommitUploadInfoResponseWhenError(logId, errMsg string)`. -/
def fillCommitUploadInfoResponseWhenError (logId errMsg : String) : VodCommitUploadInfoResponse :=
  { ResponseMetadata :=
      some { RequestId := logId, Service := "vod", Error := some { Message := errMsg } } }

/-- The composite literal `&model.VodUploadFuncRequest{...}` that
`UploadMediaInner` builds for `Upload`. -/
def uploadRequestOf (r : VodUploadMediaInnerFuncRequest) : VodUploadFuncRequest :=
  { FilePath := r.FilePath, Size := r.Size, ParallelNum := r.ParallelNum,
    SpaceName := r.SpaceName, FileType := r.FileType, FileName := r.FileName,
    FileExtension := r.FileExtension, StorageClass := r.StorageClass, ChunkSize := r.ChunkSize }

/-- What `UploadMediaInner` hands back: its three return values or a panic, the
events of the inner `Upload`, and the commit requests it sent. -/
structure MediaResult where
  ret : Outcome (Option VodCommitUploadInfoResponse × Int × Option GoError)
  trace : List Event
  commits : List VodCommitUploadInfoRequest
  deriving DecidableEq

/-- Go `(p *Vod) UploadMediaInner(req) (r *VodCommitUploadInfoResponse, c int, e error)`;
`errorText` is the text of `err.Error()` and `CommitUploadInfo` the commit API,
which sees the events of the upload. The request of `Upload` is
`uploadRequestOf`; an error of `Upload` is returned with the response
`fillCommitUploadInfoResponseWhenError(logId, err.Error())` and the status code;
otherwise the commit request is built with the session key and sent, and its
three results are returned. The deferred telemetry call is not part of the
trace. -/
def UploadMediaInner (w : World) (errorText : GoError → String)
    (CommitUploadInfo : List Event → VodCommitUploadInfoRequest →
      Option VodCommitUploadInfoResponse × Int × Option GoError)
    (uploadMediaInnerRequest : VodUploadMediaInnerFuncRequest) : MediaResult :=
  let up := Upload w (uploadRequestOf uploadMediaInnerRequest)
  match up.ret with
  | .panic msg => { ret := .panic msg, trace := up.trace, commits := [] }
  | .blocked => { ret := .blocked, trace := up.trace, commits := [] }
  | .ret (logId, _, some err, code) =>
    { ret := .ret (some (fillCommitUploadInfoResponseWhenError logId (errorText err)), code,
        some err),
      trace := up.trace, commits := [] }
  | .ret (_, sessionKey, none, _) =>
    let commitRequest : VodCommitUploadInfoRequest :=
      { SpaceName := uploadMediaInnerRequest.SpaceName, SessionKey := sessionKey,
        CallbackArgs := uploadMediaInnerRequest.CallbackArgs,
        Functions := uploadMediaInnerRequest.Funcs,
        VodUploadSource := uploadMediaInnerRequest.VodUploadSource,
        ExpireTime := uploadMediaInnerRequest.ExpireTime }
    let r := CommitUploadInfo up.trace commitRequest
    { ret := .ret r, trace := up.trace, commits := [commitRequest] }

/-! ## Checked upload info and host choice -/

/-- Go `(p *Vod) checkUploadCommonInfo(uploadInfo *model.UploadCommonInfo) error`. -/
def checkUploadCommonInfo (uploadInfo : Option UploadCommonInfo) : Option GoError :=
  match uploadInfo with
  | none => some (.UploadError 0 0 "wrong upload common info")
  | some info =>
    if info.Auth = "" ∨ info.Oid = "" ∨ info.Hosts.length = 0 ∨ info.hasClient = false then
      some (.UploadError 0 0 "wrong upload common info")
    else none

/-- Go `(p *Vod) pickUploadHost(uploadInfo *model.UploadCommonInfo) string`, with
the value behind the pointer after the call: `index` is `PreferredHostIndex`
when `0 < PreferredHostIndex < len(Hosts)` and 0 otherwise, and `Hosts[index]`
panics when the index is outside the slice. -/
def pickUploadHost (uploadInfo : Option UploadCommonInfo) :
    Outcome (String × UploadCommonInfo) :=
  match uploadInfo with
  | none => .panic "runtime error: invalid memory address or nil pointer dereference"
  | some info =>
    let index : Int :=
      if info.PreferredHostIndex > 0 ∧ info.PreferredHostIndex < (info.Hosts.length : Int) then
        info.PreferredHostIndex
      else 0
    if 0 ≤ index ∧ index < (info.Hosts.length : Int) then
      .ret (info.Hosts.getD index.toNat "", info)
    else .panic "runtime error: index out of range"

/-! ## Object API and streams of unknown size -/

/-- Go `model.CreateMultipartUploadInput`. -/
structure CreateMultipartUploadInput where
  UploadCommonInfo : Option UploadCommonInfo := none
  deriving DecidableEq

/-- Go `model.UploadPartInput`; `Data` is the byte slice (`nil` and empty are
not told apart by the code) and `Content` the reader, given by the bytes it
delivers. -/
structure UploadPartInput where
  UploadCommonInfo : Option UploadCommonInfo := none
  PartNumber : Int := 0
  UploadId : String := ""
  Data : List UInt8 := []
  Content : Option (List UInt8) := none
  deriving DecidableEq

/-- Go `model.CompleteMultipartUploadInput`. -/
structure CompleteMultipartUploadInput where
  UploadCommonInfo : Option UploadCommonInfo := none
  UploadId : String := ""
  PartList : List (Option UploadPartResponse) := []
  deriving DecidableEq

/-- Go `model.PutObjectInput`. -/
structure PutObjectInput where
  UploadCommonInfo : Option UploadCommonInfo := none
  Data : List UInt8 := []
  Content : Option (List UInt8) := none
  deriving DecidableEq

/-- Go `(p *Vod) CreateMultipartUpload(input) (string, error)`. -/
def CreateMultipartUpload (sw : StorageWorld) (trace : List StorageEvent)
    (input : Option CreateMultipartUploadInput) :
    Outcome (String × Option GoError) × List StorageEvent :=
  match input with
  | none => (.ret ("", some (.UploadError 0 0 "empty input")), trace)
  | some input =>
    match checkUploadCommonInfo input.UploadCommonInfo with
    | some err => (.ret ("", some err), trace)
    | none =>
      match pickUploadHost input.UploadCommonInfo with
      | .panic msg => (.panic msg, trace)
      | .blocked => (.blocked, trace)
      | .ret (host, info) =>
        let param : UploadPartCommon :=
          { SpaceName := info.SpaceName, TosHost := host, Oid := info.Oid, Auth := info.Auth,
            StorageClass := info.StorageClass }
        (.ret (sw.initUploadPartV2 trace param), trace ++ [.initUploadPartV2 param])

/-- Go `(p *Vod) UploadPart(input) (*model.UploadPartResponse, error)`: non-empty
`Data` goes to `uploadPart`, otherwise a non-nil `Content` to
`uploadPartStream`, otherwise the error is `nil data&content`. -/
def UploadPart (sw : StorageWorld) (trace : List StorageEvent) (input : Option UploadPartInput) :
    Outcome (Option UploadPartResponse × Option GoError) × List StorageEvent :=
  match input with
  | none => (.ret (none, some (.UploadError 0 0 "empty input")), trace)
  | some input =>
    match checkUploadCommonInfo input.UploadCommonInfo with
    | some err => (.ret (none, some err), trace)
    | none =>
      match pickUploadHost input.UploadCommonInfo with
      | .panic msg => (.panic msg, trace)
      | .blocked => (.blocked, trace)
      | .ret (host, info) =>
        let partInfo : UploadPartCommon := { TosHost := host, Oid := info.Oid, Auth := info.Auth }
        if input.Data.length ≠ 0 then
          let r := sw.uploadPart trace partInfo input.UploadId input.PartNumber input.Data
            info.StorageClass
          (.ret (r.1, r.2.2.2),
            trace ++ [.uploadPart partInfo input.UploadId input.PartNumber input.Data
              info.StorageClass])
        else
          match input.Content with
          | some content =>
            let r := sw.uploadPartStream trace partInfo input.UploadId input.PartNumber content
              info.StorageClass
            (.ret (r.1, r.2.2.2),
              trace ++ [.uploadPartStream partInfo input.UploadId input.PartNumber content
                info.StorageClass])
          | none => (.ret (none, some (.errorString "nil data&content")), trace)

/-- Go `(p *Vod) CompleteMultipartUpload(input) error`. -/
def CompleteMultipartUpload (sw : StorageWorld) (trace : List StorageEvent)
    (input : Option CompleteMultipartUploadInput) : Outcome (Option GoError) × List StorageEvent :=
  match input with
  | none => (.ret (some (.UploadError 0 0 "empty input")), trace)
  | some input =>
    match checkUploadCommonInfo input.UploadCommonInfo with
    | some err => (.ret (some err), trace)
    | none =>
      match pickUploadHost input.UploadCommonInfo with
      | .panic msg => (.panic msg, trace)
      | .blocked => (.blocked, trace)
      | .ret (host, info) =>
        let uploadPart : UploadPartCommon :=
          { StorageClass := info.StorageClass, TosHost := host, Oid := info.Oid,
            Auth := info.Auth }
        (sw.uploadMergePartV2 trace uploadPart input.UploadId input.PartList,
          trace ++ [.uploadMergePartV2 uploadPart input.UploadId input.PartList])

/-- Go `(p *Vod) PutObject(input) error`: non-empty `Data` goes to
`directUpload`, otherwise a non-nil `Content` to `directUploadStream`,
otherwise the error is `nil data and content`. -/
def PutObject (sw : StorageWorld) (trace : List StorageEvent) (input : Option PutObjectInput) :
    Outcome (Option GoError) × List StorageEvent :=
  match input with
  | none => (.ret (some (.UploadError 0 0 "empty input")), trace)
  | some input =>
    match checkUploadCommonInfo input.UploadCommonInfo with
    | some err => (.ret (some err), trace)
    | none =>
      match pickUploadHost input.UploadCommonInfo with
      | .panic msg => (.panic msg, trace)
      | .blocked => (.blocked, trace)
      | .ret (host, info) =>
        let param : UploadPartCommon :=
          { TosHost := host, Oid := info.Oid, Auth := info.Auth,
            StorageClass := info.StorageClass, SpaceName := info.SpaceName }
        if input.Data.length ≠ 0 then
          (.ret (sw.directUpload trace input.Data param), trace ++ [.directUpload input.Data param])
        else
          match input.Content with
          | some content =>
            (.ret (sw.directUploadStream trace content param),
              trace ++ [.directUploadStream content param])
          | none => (.ret (some (.errorString "nil data and content")), trace)

/-- Go `ioutil.ReadAll(io.LimitReader(content, n))` for a reader that delivers
its bytes without error: the bytes read and the reader afterwards. A limit
`n <= 0` reads nothing; otherwise a `nil` reader panics. -/
def readLimited (content : Option (List UInt8)) (n : Int) :
    Outcome (List UInt8 × Option (List UInt8)) :=
  if n ≤ 0 then .ret ([], content)
  else
    match content with
    | none => .panic "runtime error: invalid memory address or nil pointer dereference"
    | some bytes => .ret (bytes.take n.toNat, some (bytes.drop n.toNat))

/-- The loop `for { UploadPart(...); ...; data = ReadAll(LimitReader(...)); if
len(data) == 0 { break } }` of `StreamUploadContentInChunk` and the statements
after it, from the state `index`, `data`, `content`, `partList`: the part is
sent (an error is wrapped as `UploadPart Error:`), recorded, `index` is
incremented, the next chunk is read, and an empty chunk ends the loop, after
which `CompleteMultipartUpload` is called (an error is wrapped as
`CompleteMultipartUpload Error:`). `fuel` bounds the number of iterations;
`.blocked` marks its exhaustion. -/
def uploadChunks (sw : StorageWorld) (uploadCommonInfo : UploadCommonInfo) (uploadId : String)
    (chunkSize : Int) :
    Nat → Int → List UInt8 → Option (List UInt8) → List (Option UploadPartResponse) →
      List StorageEvent → Outcome (Option GoError) × List StorageEvent
  | 0, _, _, _, _, trace => (.blocked, trace)
  | fuel + 1, index, data, content, partList, trace =>
    match UploadPart sw trace
        (some { UploadCommonInfo := some uploadCommonInfo, PartNumber := index,
                UploadId := uploadId, Data := data }) with
    | (.panic msg, t1) => (.panic msg, t1)
    | (.blocked, t1) => (.blocked, t1)
    | (.ret (_, some err), t1) =>
      (.ret (some (.errorString ("UploadPart Error:" ++ sw.errorText err))), t1)
    | (.ret (partInfo, none), t1) =>
      match readLimited content chunkSize with
      | .panic msg => (.panic msg, t1)
      | .blocked => (.blocked, t1)
      | .ret (data1, content1) =>
        if data1.length = 0 then
          match CompleteMultipartUpload sw t1
              (some { UploadCommonInfo := some uploadCommonInfo, UploadId := uploadId,
                      PartList := partList ++ [partInfo] }) with
          | (.panic msg, t2) => (.panic msg, t2)
          | (.blocked, t2) => (.blocked, t2)
          | (.ret (some err), t2) =>
            (.ret (some (.errorString ("CompleteMultipartUpload Error:" ++ sw.errorText err))), t2)
          | (.ret none, t2) => (.ret none, t2)
        else
          uploadChunks sw uploadCommonInfo uploadId chunkSize fuel (wrap64 (index + 1)) data1
            content1 (partList ++ [partInfo]) t1

/-- Go `(p *Vod) StreamUploadContentInChunk(param) error`: the first
`ChunkSize` bytes are read; fewer bytes than `ChunkSize` go to `PutObject` as
`Data`; otherwise a multipart session is created (an error is wrapped as
`CreateMultipartUpload Error:`) and the chunks are sent from index 1
(`uploadChunks`; every iteration after the first consumes at least one byte,
so `len(content) + 1` iterations are enough). -/
def StreamUploadContentInChunk (sw : StorageWorld) (trace : List StorageEvent)
    (param : UploadContentParam) : Outcome (Option GoError) × List StorageEvent :=
  match param.UploadCommonInfo with
  | none => (.ret (some (.errorString "nil upload common info")), trace)
  | some uploadCommonInfo =>
    match checkUploadCommonInfo (some uploadCommonInfo) with
    | some err => (.ret (some err), trace)
    | none =>
      match readLimited param.Content param.ChunkSize with
      | .panic msg => (.panic msg, trace)
      | .blocked => (.blocked, trace)
      | .ret (data, content) =>
        if (data.length : Int) < param.ChunkSize then
          PutObject sw trace (some { UploadCommonInfo := some uploadCommonInfo, Data := data })
        else
          match CreateMultipartUpload sw trace (some { UploadCommonInfo := some uploadCommonInfo }) with
          | (.panic msg, t1) => (.panic msg, t1)
          | (.blocked, t1) => (.blocked, t1)
          | (.ret (_, some err), t1) =>
            (.ret (some (.errorString ("CreateMultipartUpload Error:" ++ sw.errorText err))), t1)
          | (.ret (uploadId, none), t1) =>
            uploadChunks sw uploadCommonInfo uploadId param.ChunkSize
              ((param.Content.getD []).length + 1) 1 data content [] t1

/-! ## Vocabulary of the statements on workers -/

/-- The event of one `uploadPart` call of a worker for `job` with the bytes
`data`. -/
def putEvent (job : Jobs) (data : List UInt8) : StorageEvent :=
  .uploadPart job.uploadPartCommon job.uploadId job.uploadPartInfo.Number data job.storageClass

/-- What `uploadPart` answers to a worker for `job` with the bytes `data` after
the calls in `trace`. -/
def putAnswer (sw : StorageWorld) (trace : List StorageEvent) (job : Jobs) (data : List UInt8) :
    Option UploadPartResponse × String × Int × Option GoError :=
  sw.uploadPart trace job.uploadPartCommon job.uploadId job.uploadPartInfo.Number data
    job.storageClass

/-- The trace of a worker when it starts the PUT of `job`: the file was opened
and the part read. -/
def readTrace (trace : List StorageEvent) (job : Jobs) : List StorageEvent :=
  trace ++ [.Open job.filePath] ++
    [.ReadAt job.filePath job.uploadPartInfo.Size job.uploadPartInfo.OffSet]

/-- The failure record the worker builds from the error `err` of the last
attempt, answered with status code `statusCode` and log id `logid`. -/
def putFailure (sw : StorageWorld) (job : Jobs) (err : GoError) (statusCode : Int)
    (logid : String) : UploadPartResponse :=
  { Success := -1,
    Error :=
      match err with
      | .UploadError Code ErrorCode Message =>
        { Code := Code, ErrorCode := ErrorCode, Error := sw.errorText err, Message := Message,
          StatusCode := statusCode, Logid := logid }
      | .errorString _ =>
        { Code := -1, Error := sw.errorText err, Message := "upload part fail",
          StatusCode := statusCode, Logid := logid },
    PartNumber := job.uploadPartInfo.Number }

/-! ## Vocabulary of the statements on the object API -/

/-- Chunk `i` (from 0) of a stream cut into pieces of `c` bytes. -/
def chunkAt (c : Nat) (content : List UInt8) (i : Nat) : List UInt8 :=
  (content.drop (i * c)).take c

/-- The number of pieces of `c` bytes, the last one possibly shorter, that
`n` bytes are cut into: `n / c` rounded up. -/
def chunkCount (c n : Nat) : Nat := (n + c - 1) / c

/-- Every request to the storage host succeeds, at any point of any run. -/
def allRequestsSucceed (sw : StorageWorld) : Prop :=
  (∀ t d p, sw.directUpload t d p = none) ∧
  (∀ t p, (sw.initUploadPartV2 t p).2 = none) ∧
  (∀ t p u n d sc, (sw.uploadPart t p u n d sc).2.2.2 = none) ∧
  (∀ t p u l, sw.uploadMergePartV2 t p u l = .ret none)

/-- The host `pickUploadHost` is to return: `Hosts[PreferredHostIndex]` when
`0 < PreferredHostIndex < len(Hosts)`, `Hosts[0]` otherwise. -/
def preferredHost (info : UploadCommonInfo) : String :=
  if 0 < info.PreferredHostIndex ∧ info.PreferredHostIndex < (info.Hosts.length : Int) then
    info.Hosts.getD info.PreferredHostIndex.toNat ""
  else info.Hosts.getD 0 ""

/-- An upload info for worked examples: hosts `h1`, `h2`, `h3`, the second one
preferred. -/
def exampleInfo : UploadCommonInfo :=
  { Hosts := ["h1", "h2", "h3"], Oid := "oid1", SessionKey := "sk1", Auth := "auth",
    PreferredHostIndex := 1 }

/-- The parameters `UploadPart` builds for a checked upload info. -/
def hostParam (info : UploadCommonInfo) : UploadPartCommon :=
  { TosHost := preferredHost info, Oid := info.Oid, Auth := info.Auth }

/-- The parameters `CompleteMultipartUpload` builds for a checked upload info. -/
def storageParam (info : UploadCommonInfo) : UploadPartCommon :=
  { TosHost := preferredHost info, Oid := info.Oid, Auth := info.Auth,
    StorageClass := info.StorageClass }

/-- The parameters `CreateMultipartUpload` and `PutObject` build for a checked
upload info. -/
def spaceParam (info : UploadCommonInfo) : UploadPartCommon :=
  { TosHost := preferredHost info, Oid := info.Oid, Auth := info.Auth,
    StorageClass := info.StorageClass, SpaceName := info.SpaceName }

/-- The `uploadPart` calls for the chunks of `content` from part number
`first` on, in stream order. -/
def chunkEvents (info : UploadCommonInfo) (uploadId : String) (c : Nat) (content : List UInt8)
    (first : Int) : List StorageEvent :=
  (List.range (chunkCount c content.length)).map fun (j : Nat) =>
    StorageEvent.uploadPart (hostParam info) uploadId (first + (j : Int)) (chunkAt c content j)
      info.StorageClass

/-! ## Vocabulary of the statements on the private-network entry -/

/-- The control plane answers the (chunk-size adjusted) request without error,
with request id `logId`, no metadata error, the private-network address `addr`
and the single upload address `ua`. -/
def offersVpcAddress (w : World) (req : VodUploadFuncRequest) (logId : String)
    (addr : VpcTosUploadAddress) (ua : UploadAddress) : Prop :=
  ∃ r code md data,
    w.ApplyUploadInfo [] (raiseChunkSize w req) = (some r, code, none) ∧
    r.ResponseMetadata = some md ∧ md.RequestId = logId ∧
    (∀ e, md.Error = some e → e.Code = "0") ∧
    GetData (some r) = some data ∧ data.VpcTosUploadAddress = some addr ∧
    data.UploadAddress = some ua

/-- The private-network transfer that `Upload` sees in `w` is the modelled
`vpcUpload` over the file system and storage `vw`. -/
def vpcBacked (w : World) (vw : VpcWorld) : Prop :=
  ∀ t addr req, w.vpcUpload t addr req = (vpcUpload vw [] (some addr) req).1

/-- The example control plane offering the private-network address `addr`
next to a single address on host `h1`, the private-network transfer being the
modelled `vpcUpload` over `exampleVpcWorld`. -/
def exampleVpcUploadWorld (addr : VpcTosUploadAddress) : World :=
  { exampleWorld [] (fun _ => none) with
    ApplyUploadInfo := fun _ _ =>
      (some { ResponseMetadata := some { RequestId := "req-1" },
              Result := some
                { Data := some
                    { UploadAddress := exampleAddress "h1" "oid1" "sk1",
                      VpcTosUploadAddress := some addr } } },
        200, none)
    vpcUpload := fun _ a req => (vpcUpload (exampleVpcWorld (fun _ => {})) [] (some a) req).1 }

/-! ## Vocabulary of the statements on host failover -/

/-- The request the candidate loop of `Upload` works with: the chunk size
raised to the minimum and an unset `ParallelNum` set to 1. -/
def loopRequest (w : World) (req : VodUploadFuncRequest) : VodUploadFuncRequest :=
  defaultParallelNum (raiseChunkSize w req)

/-- The call `lazyUploadFn()` that the candidate loop of `Upload` makes for the
request `req` against a candidate with first host `tosHost` and first store
info `storeInfo`, as attempt number `retryCount`, after the events `trace` and
with the payload `bts` in hand: `directUpload` when `Size < ChunkSize`,
`chunkUpload` otherwise, with the parameters the loop builds. -/
def lazyUpload (w : World) (req : VodUploadFuncRequest) (tosHost : String)
    (storeInfo : StoreInfo) (retryCount : Int) (trace : List Event) (bts : List UInt8) :
    Outcome (Option GoError) :=
  if (loopRequest w req).Size < (loopRequest w req).ChunkSize then
    .ret (w.directUpload trace bts
      { newUploadPart tosHost storeInfo.StoreUri storeInfo.Auth (loopRequest w req) with
        RetryTimes := retryCount })
  else
    w.chunkUpload trace (loopRequest w req).FilePath
      { newUploadPart tosHost storeInfo.StoreUri storeInfo.Auth (loopRequest w req) with
        RetryTimes := retryCount }

/-- Attempt number `retryCount` of the transfer that `Upload` makes for `req`
against the candidate `a` ends in a way that satisfies `P`, whatever was
called before it. -/
def attemptEnds (w : World) (req : VodUploadFuncRequest) (a : Option UploadAddress)
    (retryCount : Int) (P : Outcome (Option GoError) → Prop) : Prop :=
  ∀ host storeInfo, usableAs a host storeInfo →
    ∀ trace bts, P (lazyUpload w req host storeInfo retryCount trace bts)

/-- Each of the three attempts that `Upload` can make for `req` against the
candidate `a` ends in a way that satisfies `P`. -/
def allAttemptsEnd (w : World) (req : VodUploadFuncRequest) (a : Option UploadAddress)
    (P : Outcome (Option GoError) → Prop) : Prop :=
  ∀ retryCount : Int, 1 ≤ retryCount → retryCount ≤ 3 → attemptEnds w req a retryCount P

/-- The transfer returned an error after which the candidate loop goes on: one
that the retry predicate accepts, or one that is not an `UploadError`. -/
def continuingFailure (o : Outcome (Option GoError)) : Prop :=
  ∃ err, o = .ret (some err) ∧ (retryIf err = true ∨ ∃ msg, err = .errorString msg)

/-- The attempts numbered 1 to `k` on one host. -/
def attemptsOn (host : String) (k : Nat) : List (String × Int) :=
  (List.range k).map fun (m : Nat) => (host, (m : Int) + 1)

/-- The world in which `Upload` sees the transfers modelled above:
`directUpload` with the storage host answering the single-shot PUT as `put`
says, and `chunkUpload` over `w`. -/
def withTransfers (w : World)
    (put : List Event → List UInt8 → UploadPartCommon → PutReply) : World :=
  { w with
    directUpload := directUpload put
    chunkUpload := fun trace filePath param => (chunkUpload w trace filePath param).1 }

/-- The envelope or transport failure by which a storage host reports `answer`
to a single-shot PUT. -/
def replyOf : Option GoError → PutReply
  | none => .envelope {}
  | some (.UploadError Code ErrorCode Message) =>
    .envelope { Success := 1, Error := { Code := Code, ErrorCode := ErrorCode, Message := Message } }
  | some (.errorString msg) => .failed msg

/-- A world for worked examples of the failover whose transfers are the
modelled `directUpload` and `chunkUpload`. The control plane offers the
candidate object `c`. A storage host answers the `retryCount`-th attempt
against it as `answer host retryCount` says: `none` lets the single-shot PUT
and the start of the multipart session succeed, an error is what the envelope
or the transport reports. Parts are uploaded by a single worker over storage
that always succeeds, and the merge succeeds. -/
def failoverWorld (c : CandidateUploadAddresses) (answer : String → Int → Option GoError) :
    World :=
  withTransfers
    { exampleCandidateWorld c (fun _ => none) with
      initUploadPartV2 := fun _ param =>
        match answer param.TosHost param.RetryTimes with
        | some err => ("", some err)
        | none => ("upload-1", none)
      runWorkers := fun _ filePath param uploadID infos =>
        oneWorker (exampleStorage none none (fun _ => none)) filePath param uploadID infos }
    (fun _ _ param => replyOf (answer param.TosHost param.RetryTimes))

/-- A file of 8 bytes to be sent with chunk size 4, in two parts. -/
def exampleFile : VodUploadFuncRequest := { FilePath := "f", Size := 8, ChunkSize := 4 }

/-! ## Closed forms used in the statements -/

/-- The part the planner's loop creates in iteration `i`, without wrap-around. -/
def loopPart (chunkSize : Int) (i : Nat) : UploadPartInfo :=
  { Number := (i : Int) + 1, OffSet := (i : Int) * chunkSize, Size := chunkSize }

/-- Closed form of a successful plan: `n` loop parts, the last one longer by
the remainder. -/
def planOf (size chunkSize : Int) : List UploadPartInfo :=
  (List.range ((size / chunkSize).toNat - 1)).map (loopPart chunkSize) ++
    [{ Number := size / chunkSize, OffSet := (size / chunkSize - 1) * chunkSize,
       Size := chunkSize + size % chunkSize }]

/-- A list element is a non-nil part result whose number indexes a slice of
length `n`. -/
def slotOk (n : Nat) (x : Option UploadPartResponse) : Prop :=
  ∃ v, x = some v ∧ 1 ≤ v.PartNumber ∧ v.PartNumber ≤ (n : Int)

/-- The merge body the specification asks for: `1:c1,2:c2,...,n:cn`. -/
def orderedMergeBody (c : Int → String) (n : Nat) : String :=
  String.intercalate "," ((List.range n).map fun (i : Nat) => mergeEntry ((i : Int) + 1) (c ((i : Int) + 1)))

/-- Part `i` (0-based) of a plan of `n` parts as the specification describes
it: number `i + 1`, offset `i * chunkSize`, length `chunkSize`, the last part
longer by `size % chunkSize`. -/
def plannedPart (size chunkSize : Int) (n : Nat) (i : Nat) : UploadPartInfo :=
  { Number := (i : Int) + 1, OffSet := (i : Int) * chunkSize,
    Size := if i + 1 < n then chunkSize else chunkSize + size % chunkSize }

/-! ## Lemmas and theorems -/

theorem wrap64_of_isInt64 {x : Int} (h : isInt64 x) : wrap64 x = x := by
  unfold isInt64 at h
  unfold wrap64
  norm_num at h ⊢
  omega

theorem addToSizeAt_append (l : List UploadPartInfo) (x : UploadPartInfo) (d : Int) :
    addToSizeAt (l ++ [x]) l.length d = l ++ [{ x with Size := wrap64 (x.Size + d) }] := by
  induction l with
  | nil => rfl
  | cons p ps ih => simp [addToSizeAt, ih]

theorem loop_parts_eq (chunkSize : Int) (m : Nat) (h0 : 0 ≤ chunkSize)
    (hm : (m : Int) * chunkSize < 2 ^ 63) :
    ((List.range m).map fun i : Nat =>
      ({ Number := (i : Int) + 1, OffSet := wrap64 ((i : Int) * chunkSize), Size := chunkSize } : UploadPartInfo))
      = (List.range m).map (loopPart chunkSize) := by
  apply List.map_congr_left
  intro i hi
  have hi' : i < m := List.mem_range.mp hi
  have h1 : (i : Int) * chunkSize ≤ (m : Int) * chunkSize :=
    mul_le_mul_of_nonneg_right (by exact_mod_cast hi'.le) h0
  have h2 : (0 : Int) ≤ (i : Int) * chunkSize := mul_nonneg (by positivity) h0
  have : wrap64 ((i : Int) * chunkSize) = (i : Int) * chunkSize :=
    wrap64_of_isInt64 ⟨by linarith [show (-(2:Int)^63) ≤ 0 by norm_num], by linarith⟩
  simp [loopPart, this]

theorem sum_sizes_loop (chunkSize : Int) (m : Nat) :
    (((List.range m).map (loopPart chunkSize)).map (·.Size)).sum = (m : Int) * chunkSize := by
  induction m with
  | zero => simp
  | succ k ih =>
    rw [List.range_succ, List.map_append, List.map_append, List.sum_append, ih]
    simp [loopPart]
    ring

theorem calculateUploadParts_eq (size chunkSize : Int) (hs : isInt64 size)
    (hc : 0 < chunkSize) (hle : chunkSize ≤ size) (hn : size / chunkSize ≤ 10000) :
    calculateUploadParts size chunkSize = .ret (size / chunkSize, planOf size chunkSize, none) := by
  have hs0 : 0 ≤ size := by linarith
  have hq : Int.tdiv size chunkSize = size / chunkSize := Int.tdiv_eq_ediv hs0 hc.le
  have hr : Int.tmod size chunkSize = size % chunkSize := Int.tmod_eq_emod hs0 hc.le
  have hq1 : 1 ≤ size / chunkSize := by
    have := Int.ediv_le_ediv hc hle
    rwa [Int.ediv_self (ne_of_gt hc)] at this
  have hdecomp : chunkSize * (size / chunkSize) + size % chunkSize = size :=
    Int.ediv_add_emod size chunkSize
  have hr0 : 0 ≤ size % chunkSize := Int.emod_nonneg _ (ne_of_gt hc)
  have hrlt : size % chunkSize < chunkSize := Int.emod_lt_of_pos _ hc
  have hwq : wrap64 (size / chunkSize) = size / chunkSize :=
    wrap64_of_isInt64 ⟨by linarith [show (-(2:Int)^63) ≤ 0 by norm_num], by linarith [show (10000:Int) < 2^63 by norm_num]⟩
  obtain ⟨k, hk⟩ : ∃ k : Nat, size / chunkSize = (k : Int) + 1 :=
    ⟨(size / chunkSize - 1).toNat, by omega⟩
  have hkc : ((k : Int) + 1) * chunkSize ≤ size := by
    have : chunkSize * ((k : Int) + 1) + size % chunkSize = size := by rw [← hk]; exact hdecomp
    nlinarith
  have hlt : ((k + 1 : Nat) : Int) * chunkSize < 2 ^ 63 := by
    push_cast; linarith [hs.2]
  have htoNat : ((k : Int) + 1).toNat = k + 1 := by omega
  have hlast : wrap64 (chunkSize + size % chunkSize) = chunkSize + size % chunkSize := by
    apply wrap64_of_isInt64
    constructor
    · linarith [show (-(2:Int)^63) ≤ 0 by norm_num]
    · have : chunkSize + size % chunkSize ≤ size := by nlinarith
      linarith [hs.2]
  rw [hk] at hwq hn
  unfold calculateUploadParts planOf
  simp only [hq, hr, hk, hwq, htoNat]
  rw [if_neg (ne_of_gt hc), if_neg (by linarith)]
  rw [loop_parts_eq chunkSize (k + 1) hc.le hlt]
  simp only [List.length_map, List.length_range, Nat.add_sub_cancel]
  rw [List.range_succ, List.map_append]
  by_cases hz : size % chunkSize = 0
  · simp [hz, loopPart]
  · have hidx : ((k : Int) + 1 - 1).toNat = ((List.range k).map (loopPart chunkSize)).length := by
      simp
    rw [if_pos hz, if_pos (by push_cast; omega), hidx]
    simp only [List.map_cons, List.map_nil]
    rw [addToSizeAt_append]
    simp [loopPart, hlast]

theorem setAt_eq_set (s : List String) (i : Nat) (e : String) : setAt s i e = s.set i e := by
  induction s generalizing i with
  | nil => rfl
  | cons x xs ih => cases i <;> simp [setAt, ih]

theorem fillMergeSlots_ret_iff (l : List (Option UploadPartResponse)) (s : List String) :
    (∃ r, fillMergeSlots l s = .ret r) ↔ ∀ x ∈ l, slotOk s.length x := by
  induction l generalizing s with
  | nil => simp [fillMergeSlots]
  | cons x rest ih =>
    cases x with
    | none =>
      simp [fillMergeSlots, slotOk]
    | some v =>
      by_cases hv : 0 ≤ v.PartNumber - 1 ∧ v.PartNumber - 1 < (s.length : Int)
      · have hlen : (setAt s (v.PartNumber - 1).toNat (mergeEntry v.PartNumber v.CheckSum)).length
            = s.length := by rw [setAt_eq_set]; simp
        simp only [fillMergeSlots, if_pos hv, ih, hlen, List.mem_cons, forall_eq_or_imp]
        constructor
        · intro h
          exact ⟨⟨v, rfl, by omega, by omega⟩, h⟩
        · intro h
          exact h.2
      · simp only [fillMergeSlots, if_neg hv, List.mem_cons, forall_eq_or_imp]
        constructor
        · rintro ⟨r, hr⟩
          cases hr
        · rintro ⟨⟨v', hv', h1, h2⟩, _⟩
          cases hv'
          exact absurd ⟨by omega, by omega⟩ hv

theorem fillMergeSlots_length (l : List (Option UploadPartResponse)) (s r : List String)
    (h : fillMergeSlots l s = .ret r) : r.length = s.length := by
  induction l generalizing s with
  | nil => simp [fillMergeSlots] at h; rw [h]
  | cons x rest ih =>
    cases x with
    | none => simp [fillMergeSlots] at h
    | some v =>
      by_cases hv : 0 ≤ v.PartNumber - 1 ∧ v.PartNumber - 1 < (s.length : Int)
      · simp only [fillMergeSlots, if_pos hv] at h
        rw [ih _ h, setAt_eq_set]; simp
      · simp only [fillMergeSlots, if_neg hv] at h
        cases h

/-- After the loop, slot `j` holds the entry of part `j + 1` when some element
of the list carries that number, and is untouched otherwise. `c` names the
checksum recorded for each part number. -/
theorem fillMergeSlots_slot (c : Int → String) (l : List UploadPartResponse)
    (hc : ∀ v ∈ l, v.CheckSum = c v.PartNumber) (s r : List String)
    (h : fillMergeSlots (l.map some) s = .ret r) (j : Nat) (hj : j < s.length) :
    r[j]? = if ∃ v ∈ l, v.PartNumber = (j : Int) + 1
      then some (mergeEntry ((j : Int) + 1) (c ((j : Int) + 1))) else s[j]? := by
  induction l generalizing s with
  | nil =>
    simp [fillMergeSlots] at h
    simp [h]
  | cons v rest ih =>
    have hc' : ∀ w ∈ rest, w.CheckSum = c w.PartNumber := fun w hw => hc w (List.mem_cons_of_mem _ hw)
    by_cases hv : 0 ≤ v.PartNumber - 1 ∧ v.PartNumber - 1 < (s.length : Int)
    · simp only [List.map_cons, fillMergeSlots, if_pos hv] at h
      have hlen : (setAt s (v.PartNumber - 1).toNat (mergeEntry v.PartNumber v.CheckSum)).length
            = s.length := by rw [setAt_eq_set]; simp
      rw [ih hc' _ h (by rw [hlen]; exact hj)]
      by_cases hrest : ∃ w ∈ rest, w.PartNumber = (j : Int) + 1
      · have : ∃ w ∈ v :: rest, w.PartNumber = (j : Int) + 1 := by
          obtain ⟨w, hw, hw'⟩ := hrest
          exact ⟨w, List.mem_cons_of_mem _ hw, hw'⟩
        rw [if_pos hrest, if_pos this]
      · rw [if_neg hrest, setAt_eq_set]
        by_cases hvj : v.PartNumber = (j : Int) + 1
        · have : ∃ w ∈ v :: rest, w.PartNumber = (j : Int) + 1 := ⟨v, List.mem_cons_self _ _, hvj⟩
          rw [if_pos this]
          have hidx : (v.PartNumber - 1).toNat = j := by omega
          rw [hidx, hc v (List.mem_cons_self _ _), hvj]
          simp [hj]
        · have : ¬ ∃ w ∈ v :: rest, w.PartNumber = (j : Int) + 1 := by
            rintro ⟨w, hw, hw'⟩
            rcases List.mem_cons.mp hw with rfl | hw
            · exact hvj hw'
            · exact hrest ⟨w, hw, hw'⟩
          rw [if_neg this]
          have hidx : (v.PartNumber - 1).toNat ≠ j := by omega
          simp only [List.getElem?_set, if_neg hidx]
    · simp only [List.map_cons, fillMergeSlots, if_neg hv] at h
      cases h

theorem genMergeBody_of_numbers (c : Int → String) (n : Nat) (hn : 1 ≤ n)
    (l : List UploadPartResponse)
    (hlen : l.length = n)
    (hall : ∀ i : Nat, i < n → ∃ v ∈ l, v.PartNumber = (i : Int) + 1)
    (hin : ∀ v ∈ l, 1 ≤ v.PartNumber ∧ v.PartNumber ≤ (n : Int))
    (hc : ∀ v ∈ l, v.CheckSum = c v.PartNumber) :
    genMergeBody (l.map some) = .ret (orderedMergeBody c n, none) := by
  have hok : ∀ x ∈ l.map some, slotOk (List.replicate (l.map some).length "").length x := by
    intro x hx
    obtain ⟨v, hv, rfl⟩ := List.mem_map.mp hx
    exact ⟨v, rfl, (hin v hv).1, by simpa [hlen] using (hin v hv).2⟩
  obtain ⟨r, hr⟩ := (fillMergeSlots_ret_iff _ _).mpr hok
  have hrlen : r.length = n := by
    rw [fillMergeSlots_length _ _ _ hr]; simp [hlen]
  have hr_eq : r = (List.range n).map fun (i : Nat) => mergeEntry ((i : Int) + 1) (c ((i : Int) + 1)) := by
    apply List.ext_getElem?
    intro j
    by_cases hj : j < n
    · rw [fillMergeSlots_slot c l hc _ r hr j (by simp [hlen, hj]), if_pos (hall j hj)]
      simp [hj]
    · rw [List.getElem?_eq_none (by omega), List.getElem?_eq_none (by simp; omega)]
  unfold genMergeBody
  rw [if_neg (by simp [hlen]; omega), hr, hr_eq]
  rfl

theorem planOf_eq_planned (size chunkSize : Int) (k : Nat) (hk : size / chunkSize = (k : Int) + 1) :
    planOf size chunkSize = (List.range (k + 1)).map (plannedPart size chunkSize (k + 1)) := by
  have htoNat : (size / chunkSize).toNat - 1 = k := by omega
  unfold planOf
  rw [htoNat, List.range_succ, List.map_append]
  congr 1
  · apply List.map_congr_left
    intro i hi
    have : i < k := List.mem_range.mp hi
    simp [loopPart, plannedPart, this]
  · simp [plannedPart, hk]

theorem calculateUploadParts_planned (size chunkSize : Int) (hs : isInt64 size)
    (hc : 0 < chunkSize) (hle : chunkSize ≤ size) (hn : size / chunkSize ≤ 10000) :
    ∃ k : Nat, size / chunkSize = (k : Int) + 1 ∧
      calculateUploadParts size chunkSize =
        .ret (size / chunkSize, (List.range (k + 1)).map (plannedPart size chunkSize (k + 1)), none) := by
  have hq1 : 1 ≤ size / chunkSize := by
    have := Int.ediv_le_ediv hc hle
    rwa [Int.ediv_self (ne_of_gt hc)] at this
  refine ⟨(size / chunkSize - 1).toNat, by omega, ?_⟩
  rw [calculateUploadParts_eq size chunkSize hs hc hle hn,
    planOf_eq_planned size chunkSize (size / chunkSize - 1).toNat (by omega)]

theorem sum_sizes_planned_front (size chunkSize : Int) (n m : Nat) (hm : m < n) :
    (((List.range m).map (plannedPart size chunkSize n)).map (·.Size)).sum = (m : Int) * chunkSize := by
  induction m with
  | zero => simp
  | succ j ih =>
    rw [List.range_succ, List.map_append, List.map_append, List.sum_append, ih (by omega)]
    have : j + 1 < n := hm
    simp [plannedPart, this]
    ring

theorem sum_sizes_planned (size chunkSize : Int) (k : Nat) :
    (((List.range (k + 1)).map (plannedPart size chunkSize (k + 1))).map (·.Size)).sum
      = ((k : Int) + 1) * chunkSize + size % chunkSize := by
  rw [List.range_succ, List.map_append, List.map_append, List.sum_append,
    sum_sizes_planned_front size chunkSize (k + 1) k (by omega)]
  simp [plannedPart]
  ring

theorem addToSizeAt_length (l : List UploadPartInfo) (i : Nat) (d : Int) :
    (addToSizeAt l i d).length = l.length := by
  induction l generalizing i with
  | nil => rfl
  | cons p ps ih => cases i <;> simp [addToSizeAt, ih]

theorem calculateUploadParts_length_le (size chunkSize n : Int) (parts : List UploadPartInfo)
    (h : calculateUploadParts size chunkSize = .ret (n, parts, none)) : parts.length ≤ 10000 := by
  unfold calculateUploadParts at h
  by_cases h0 : chunkSize = 0
  · rw [if_pos h0] at h; cases h
  · rw [if_neg h0] at h
    by_cases h1 : wrap64 (Int.tdiv size chunkSize) > 10000
    · rw [if_pos h1] at h; cases h
    · rw [if_neg h1] at h
      by_cases h2 : Int.tmod size chunkSize ≠ 0
      · simp only [if_pos h2] at h
        split_ifs at h
        cases h
        simp only [addToSizeAt_length, List.length_map, List.length_range]
        omega
      · simp only [if_neg h2] at h
        cases h
        simp only [List.length_map, List.length_range]
        omega

/-- C1 (amended): for `0 < chunkSize ≤ totalSize` with at most 10000 whole
parts the planner succeeds; the lengths of the parts sum to `totalSize`, each
part starts where the parts before it end (so the parts tile `[0, totalSize)`
from offset 0 without gap or overlap, every length being positive), and every
part but the last has length `chunkSize`. -/
theorem calculateUploadParts_tiles (size chunkSize : Int) (hs : isInt64 size) (_hpos : 0 < size)
    (hc : 0 < chunkSize) (hle : chunkSize ≤ size) (hn : size / chunkSize ≤ 10000) :
    ∃ parts : List UploadPartInfo,
      calculateUploadParts size chunkSize = .ret (size / chunkSize, parts, none) ∧
      (parts.map (·.Size)).sum = size ∧
      (∀ (i : Nat) (hi : i < parts.length),
        parts[i].OffSet = ((parts.take i).map (·.Size)).sum) ∧
      (∀ p ∈ parts, 0 < p.Size) ∧
      (∀ (i : Nat) (hi : i < parts.length), i + 1 < parts.length → parts[i].Size = chunkSize) := by
  obtain ⟨k, hk, heq⟩ := calculateUploadParts_planned size chunkSize hs hc hle hn
  have hr0 : 0 ≤ size % chunkSize := Int.emod_nonneg _ (ne_of_gt hc)
  have hdecomp : chunkSize * (size / chunkSize) + size % chunkSize = size :=
    Int.ediv_add_emod size chunkSize
  refine ⟨_, heq, ?_, ?_, ?_, ?_⟩
  · rw [sum_sizes_planned, ← hk]
    linarith
  · intro i hi
    have hi' : i < k + 1 := by simpa using hi
    rw [← List.map_take, List.take_range, Nat.min_eq_left hi'.le,
      sum_sizes_planned_front size chunkSize (k + 1) i hi']
    simp [plannedPart]
  · intro p hp
    obtain ⟨i, _, rfl⟩ := List.mem_map.mp hp
    simp only [plannedPart]
    split_ifs <;> omega
  · intro i hi hlt
    have hlt' : i + 1 < k + 1 := by simpa using hlt
    simp [plannedPart, hlt']

/-- C1 as stated fails: with `totalSize = 5 < chunkSize = 10` the quotient is 0,
no part is created and adding the remainder to element `-1` panics. -/
theorem calculateUploadParts_small_file_panics :
    (0 : Int) < 5 ∧ (0 : Int) < 10 ∧ (5 : Int) / 10 ≤ 10000 ∧
      calculateUploadParts 5 10 = .panic "runtime error: index out of range" := by
  decide

theorem calculateUploadParts_tiles_witness :
    ∃ parts : List UploadPartInfo,
      calculateUploadParts 10 3 = .ret ((10 : Int) / 3, parts, none) ∧
      (parts.map (·.Size)).sum = 10 ∧
      (∀ (i : Nat) (hi : i < parts.length),
        parts[i].OffSet = ((parts.take i).map (·.Size)).sum) ∧
      (∀ p ∈ parts, 0 < p.Size) ∧
      (∀ (i : Nat) (hi : i < parts.length), i + 1 < parts.length → parts[i].Size = 3) :=
  calculateUploadParts_tiles 10 3 (by decide) (by decide) (by decide) (by decide) (by decide)

/-- C2: for `size ≥ chunkSize > 0` with `size / chunkSize ≤ 10000` the planner
returns `n = size / chunkSize` as the total and exactly `n` parts; part `i + 1`
has number `i + 1` and offset `i * chunkSize`; every part before the last has
length `chunkSize` and the last `chunkSize + size % chunkSize`; when the
remainder is 0 all parts have length `chunkSize`. -/
theorem calculateUploadParts_whole_parts (size chunkSize : Int) (hs : isInt64 size)
    (hc : 0 < chunkSize) (hle : chunkSize ≤ size) (hn : size / chunkSize ≤ 10000) :
    ∃ parts : List UploadPartInfo,
      calculateUploadParts size chunkSize = .ret (size / chunkSize, parts, none) ∧
      (parts.length : Int) = size / chunkSize ∧
      (∀ (i : Nat) (hi : i < parts.length),
        parts[i].Number = (i : Int) + 1 ∧ parts[i].OffSet = (i : Int) * chunkSize ∧
        (i + 1 < parts.length → parts[i].Size = chunkSize) ∧
        (i + 1 = parts.length → parts[i].Size = chunkSize + size % chunkSize)) ∧
      (size % chunkSize = 0 → ∀ p ∈ parts, p.Size = chunkSize) := by
  obtain ⟨k, hk, heq⟩ := calculateUploadParts_planned size chunkSize hs hc hle hn
  refine ⟨_, heq, ?_, ?_, ?_⟩
  · simp [hk]
  · intro i hi
    refine ⟨by simp [plannedPart], by simp [plannedPart], ?_, ?_⟩
    · intro hlt
      have hlt' : i + 1 < k + 1 := by simpa using hlt
      simp [plannedPart, hlt']
    · intro hlast
      have hlast' : i + 1 = k + 1 := by simpa using hlast
      have : i = k := by omega
      simp [plannedPart, this]
  · intro hz p hp
    obtain ⟨i, _, rfl⟩ := List.mem_map.mp hp
    simp [plannedPart, hz]

theorem calculateUploadParts_whole_parts_witness :
    ∃ parts : List UploadPartInfo,
      calculateUploadParts 10 3 = .ret ((10 : Int) / 3, parts, none) ∧
      (parts.length : Int) = (10 : Int) / 3 ∧
      (∀ (i : Nat) (hi : i < parts.length),
        parts[i].Number = (i : Int) + 1 ∧ parts[i].OffSet = (i : Int) * 3 ∧
        (i + 1 < parts.length → parts[i].Size = 3) ∧
        (i + 1 = parts.length → parts[i].Size = 3 + (10 : Int) % 3)) ∧
      ((10 : Int) % 3 = 0 → ∀ p ∈ parts, p.Size = 3) :=
  calculateUploadParts_whole_parts 10 3 (by decide) (by decide) (by decide) (by decide)

/-- C3: with `chunkSize > 0` and more than 10000 whole parts the planner returns
the error `parts over 10000` and no parts, `chunkUpload` returns that error
with the trace unchanged (no init call, no worker phase, no merge request),
and no successful plan has more than 10000 parts. -/
theorem too_many_parts_rejected (size chunkSize : Int) (hs : isInt64 size)
    (hc : 0 < chunkSize) (hgt : size / chunkSize > 10000) :
    calculateUploadParts size chunkSize = .ret (0, [], some (.errorString "parts over 10000")) ∧
    (∀ (w : World) (trace : List Event) (filePath : String) (param : UploadPartCommon),
      param.FileSize = size → param.ChunkSize = chunkSize →
      chunkUpload w trace filePath param =
        (.ret (some (.errorString "parts over 10000")), trace)) ∧
    (∀ (s c n : Int) (parts : List UploadPartInfo),
      calculateUploadParts s c = .ret (n, parts, none) → parts.length ≤ 10000) := by
  have hs0 : 0 ≤ size := by
    by_contra hneg
    have : size / chunkSize < 0 := Int.ediv_neg' (by omega) hc
    omega
  have hq : Int.tdiv size chunkSize = size / chunkSize := Int.tdiv_eq_ediv hs0 hc.le
  have hqle : size / chunkSize ≤ size := Int.ediv_le_self _ hs0
  have hwq : wrap64 (size / chunkSize) = size / chunkSize :=
    wrap64_of_isInt64 ⟨by linarith [show (-(2:Int)^63) ≤ 0 by norm_num], by linarith [hs.2]⟩
  have hplan : calculateUploadParts size chunkSize
      = .ret (0, [], some (.errorString "parts over 10000")) := by
    unfold calculateUploadParts
    simp only [hq, hwq]
    rw [if_neg (ne_of_gt hc), if_pos hgt]
  refine ⟨hplan, ?_, ?_⟩
  · intro w trace filePath param hsz hch
    unfold chunkUpload
    rw [hsz, hch, hplan]
  · intro s c n parts h
    exact calculateUploadParts_length_le s c n parts h

theorem too_many_parts_rejected_witness :
    calculateUploadParts 100000000000 1 = .ret (0, [], some (.errorString "parts over 10000")) ∧
    (∀ (w : World) (trace : List Event) (filePath : String) (param : UploadPartCommon),
      param.FileSize = 100000000000 → param.ChunkSize = 1 →
      chunkUpload w trace filePath param =
        (.ret (some (.errorString "parts over 10000")), trace)) ∧
    (∀ (s c n : Int) (parts : List UploadPartInfo),
      calculateUploadParts s c = .ret (n, parts, none) → parts.length ≤ 10000) :=
  too_many_parts_rejected 100000000000 1 (by decide) (by decide) (by decide)

/-- C4: for `n ≥ 1` and a list of part results that carries every part number
`1..n` exactly once, in any order, `genMergeBody` returns `1:c1,2:c2,...,n:cn`
(`c i` being the checksum of part `i`), and returns the same for every
permutation of the list. -/
theorem genMergeBody_ordered (c : Int → String) (n : Nat) (hn : 1 ≤ n)
    (l : List UploadPartResponse)
    (hperm : (l.map (·.PartNumber)).Perm ((List.range n).map fun (i : Nat) => (i : Int) + 1))
    (hc : ∀ v ∈ l, v.CheckSum = c v.PartNumber) :
    genMergeBody (l.map some) = .ret (orderedMergeBody c n, none) ∧
    ∀ l2 : List UploadPartResponse, l2.Perm l →
      genMergeBody (l2.map some) = genMergeBody (l.map some) := by
  have key : ∀ l1 : List UploadPartResponse,
      (l1.map (·.PartNumber)).Perm ((List.range n).map fun (i : Nat) => (i : Int) + 1) →
      (∀ v ∈ l1, v.CheckSum = c v.PartNumber) →
      genMergeBody (l1.map some) = .ret (orderedMergeBody c n, none) := by
    intro l1 hp hc1
    have hlen : l1.length = n := by
      have := hp.length_eq
      simpa using this
    apply genMergeBody_of_numbers c n hn l1 hlen
    · intro i hi
      have hmem : ((i : Int) + 1) ∈ l1.map (·.PartNumber) :=
        hp.mem_iff.mpr (List.mem_map.mpr ⟨i, List.mem_range.mpr hi, rfl⟩)
      obtain ⟨v, hv, hvn⟩ := List.mem_map.mp hmem
      exact ⟨v, hv, hvn⟩
    · intro v hv
      have hmem : v.PartNumber ∈ (List.range n).map fun (i : Nat) => (i : Int) + 1 :=
        hp.mem_iff.mp (List.mem_map.mpr ⟨v, hv, rfl⟩)
      obtain ⟨i, hi, hvi⟩ := List.mem_map.mp hmem
      have : i < n := List.mem_range.mp hi
      constructor <;> omega
    · exact hc1
  refine ⟨key l hperm hc, ?_⟩
  intro l2 h2
  rw [key l hperm hc]
  exact key l2 ((h2.map _).trans hperm) (fun v hv => hc v (h2.mem_iff.mp hv))

theorem genMergeBody_ordered_witness :
    genMergeBody ([⟨0, {}, "", 3, "c3"⟩, ⟨0, {}, "", 1, "c1"⟩, ⟨0, {}, "", 2, "c2"⟩].map some)
      = .ret ("1:c1,2:c2,3:c3", none) := by
  have h := (genMergeBody_ordered (fun i => "c" ++ toString i) 3 (by decide)
    [⟨0, {}, "", 3, "c3"⟩, ⟨0, {}, "", 1, "c1"⟩, ⟨0, {}, "", 2, "c2"⟩]
    (by decide) (by decide)).1
  rw [h]
  decide

/-- C5 (amended): `genMergeBody` returns an error exactly for the empty list,
and for a non-empty list it returns a merge body exactly when every element is
a non-nil part result whose number lies in `1..len(list)`; duplicates and the
gaps they leave are accepted. -/
theorem genMergeBody_checks (l : List (Option UploadPartResponse)) :
    ((∃ body err, genMergeBody l = .ret (body, some err)) ↔ l = []) ∧
    (l ≠ [] → ((∃ body, genMergeBody l = .ret (body, none)) ↔
      ∀ x ∈ l, ∃ v, x = some v ∧ 1 ≤ v.PartNumber ∧ v.PartNumber ≤ (l.length : Int))) := by
  have hslots := fillMergeSlots_ret_iff l (List.replicate l.length "")
  simp only [List.length_replicate, slotOk] at hslots
  constructor
  · constructor
    · rintro ⟨body, err, h⟩
      by_contra hne
      have hlen : ¬ l.length = 0 := by simpa using hne
      unfold genMergeBody at h
      rw [if_neg hlen] at h
      split at h <;> cases h
    · rintro rfl
      exact ⟨"", _, rfl⟩
  · intro hne
    have hlen : ¬ l.length = 0 := by simpa using hne
    rw [← hslots]
    unfold genMergeBody
    rw [if_neg hlen]
    constructor
    · rintro ⟨body, h⟩
      split at h
      · rename_i s hs
        exact ⟨s, hs⟩
      · cases h
      · cases h
    · rintro ⟨r, hr⟩
      rw [hr]
      exact ⟨_, rfl⟩

/-- C5 as stated fails: a one-element list whose part number is 2 lies outside
`1..len(list)`; the assignment `s[1] = ...` on a slice of length 1 panics. -/
theorem genMergeBody_out_of_range_panics :
    genMergeBody [some ⟨0, {}, "", 2, "c2"⟩] = .panic "runtime error: index out of range" := by
  decide

theorem genMergeBody_checks_witness :
    (∃ body, genMergeBody [some ⟨0, {}, "", 1, "a"⟩, some ⟨0, {}, "", 1, "b"⟩, some ⟨0, {}, "", 3, "c"⟩]
      = .ret (body, none)) :=
  ((genMergeBody_checks
    [some ⟨0, {}, "", 1, "a"⟩, some ⟨0, {}, "", 1, "b"⟩, some ⟨0, {}, "", 3, "c"⟩]).2
      (by decide)).mpr (by decide)

/-- Reading of the retry predicate as a proposition on the error. -/
theorem retryIf_eq_true_iff (err : GoError) :
    retryIf err = true ↔
      ∃ Code ErrorCode Message, err = .UploadError Code ErrorCode Message ∧
        (ErrorCode ≥ 5000 ∨ (ErrorCode = 0 ∧ Code ≥ 500)) := by
  cases err with
  | UploadError Code ErrorCode Message =>
    constructor
    · intro h
      refine ⟨Code, ErrorCode, Message, rfl, ?_⟩
      simpa [retryIf] using h
    · rintro ⟨c, e, m, heq, h⟩
      cases heq
      simpa [retryIf] using h
  | errorString msg =>
    simp [retryIf]

/-- C6: the predicate `Upload` gives to `retry.RetryIf` accepts an error exactly
when it is an `UploadError` with `ErrorCode ≥ 5000`, or with `ErrorCode = 0`
and `Code ≥ 500`; every other error, and every error that is not an
`UploadError`, is rejected. -/
theorem retryIf_classifies (err : GoError) :
    (retryIf err = true ↔
      ∃ Code ErrorCode Message, err = .UploadError Code ErrorCode Message ∧
        (ErrorCode ≥ 5000 ∨ (ErrorCode = 0 ∧ Code ≥ 500))) ∧
    ((∀ Code ErrorCode Message, err ≠ .UploadError Code ErrorCode Message) → retryIf err = false) := by
  refine ⟨retryIf_eq_true_iff err, ?_⟩
  intro h
  cases err with
  | UploadError Code ErrorCode Message => exact absurd rfl (h Code ErrorCode Message)
  | errorString msg => rfl

theorem transferAttempts_append (a b : List Event) :
    transferAttempts (a ++ b) = transferAttempts a ++ transferAttempts b := by
  simp [transferAttempts, List.filterMap_append]

theorem retryDo_ok {σ : Type} (p : GoError → Bool) (fn : σ → Outcome (Option GoError) × σ)
    (n : Nat) (s : σ) (last : Option GoError) (h : (fn s).1 = .ret none) :
    retryDo p fn (n + 1) s last = (.ret none, (fn s).2) := by
  rcases hfn : fn s with ⟨o, s1⟩
  rw [hfn] at h
  simp only at h
  subst h
  simp [retryDo, hfn]

theorem retryDo_reject {σ : Type} (p : GoError → Bool) (fn : σ → Outcome (Option GoError) × σ)
    (n : Nat) (s : σ) (last : Option GoError) (err : GoError)
    (h : (fn s).1 = .ret (some err)) (hp : p err = false) :
    retryDo p fn (n + 1) s last = (.ret (some err), (fn s).2) := by
  rcases hfn : fn s with ⟨o, s1⟩
  rw [hfn] at h
  simp only at h
  subst h
  simp [retryDo, hfn, hp]

theorem retryDo_retry {σ : Type} (p : GoError → Bool) (fn : σ → Outcome (Option GoError) × σ)
    (n : Nat) (s : σ) (last : Option GoError) (err : GoError)
    (h : (fn s).1 = .ret (some err)) (hp : p err = true) :
    retryDo p fn (n + 1) s last = retryDo p fn n (fn s).2 (some err) := by
  rcases hfn : fn s with ⟨o, s1⟩
  rw [hfn] at h
  simp only at h
  subst h
  simp [retryDo, hfn, hp]

theorem attempt_snd (w : World) (direct : Bool) (bts : List UInt8) (filePath : String) (i : Nat)
    (up : UploadPartCommon) (rc : Int) (t : List Event) :
    (attempt w direct bts filePath i up (rc, t)).2 =
      (rc + 1, t ++ [.Printf ((i : Int) + 1) rc] ++
        [if direct then Event.directUpload bts { up with RetryTimes := rc }
          else Event.chunkUpload filePath { up with RetryTimes := rc }]) := by
  cases direct <;> simp [attempt]

theorem transferAttempts_step (direct : Bool) (bts : List UInt8) (filePath : String) (i : Nat)
    (up : UploadPartCommon) (rc : Int) (t : List Event) :
    transferAttempts (t ++ [.Printf ((i : Int) + 1) rc] ++
        [if direct then Event.directUpload bts { up with RetryTimes := rc }
          else Event.chunkUpload filePath { up with RetryTimes := rc }])
      = transferAttempts t ++ [(up.TosHost, rc)] := by
  cases direct <;> simp [transferAttempts, transferOf, List.filterMap_append]

theorem readPayload_ok (w : World) (direct : Bool) (bts : List UInt8) (t : List Event)
    (hread : ∀ t, (w.ReadAll t).2 = none) :
    ∃ b t1, readPayload w direct bts t = (b, none, t1) ∧ transferAttempts t1 = transferAttempts t := by
  unfold readPayload
  split_ifs
  · exact ⟨_, _, by rw [hread], by simp [transferAttempts_append, transferAttempts, transferOf]⟩
  · exact ⟨_, _, rfl, rfl⟩

theorem Upload_eq_uploadCandidates (w : World) (req : VodUploadFuncRequest) (logId : String)
    (all : List (Option UploadAddress)) (hsize : req.Size ≠ 0) (hne : all ≠ [])
    (hcp : offersCandidates w req logId all) :
    Upload w req = uploadCandidates w logId all 0
      { req := raiseChunkSize w req, bts := [], trace := [.ApplyUploadInfo (raiseChunkSize w req)] } := by
  obtain ⟨r, code, md, data, happly, hmd, hid, herr, hdata, hvpc, hall⟩ := hcp
  have hfilter : md.Error.filter (fun e => e.Code ≠ "0") = none := by
    cases hE : md.Error with
    | none => rfl
    | some e => simp [Option.filter, herr e hE]
  have hlen : all.length > 0 := List.length_pos.mpr hne
  unfold Upload
  rw [if_neg hsize]
  simp only [happly, hmd, hfilter, hdata, Option.bind, hvpc, hall, hlen, if_true,
    GetRequestId, hid]

theorem serviceFailure5000_retryable (o : Outcome (Option GoError)) (h : serviceFailure5000 o) :
    retryableFailure o := by
  obtain ⟨c, ec, m, rfl, hec⟩ := h
  exact ⟨_, rfl, (retryIf_eq_true_iff _).mpr ⟨c, ec, m, rfl, Or.inl hec⟩⟩

theorem usableAs_host (a : Option UploadAddress) (h1 h2 : String) (s1 s2 : StoreInfo)
    (hu1 : usableAs a h1 s1) (hu2 : usableAs a h2 s2) : h2 = h1 := by
  obtain ⟨_, _, hH1, _⟩ := hu1
  obtain ⟨_, _, hH2, _⟩ := hu2
  rw [hH1] at hH2
  injection hH2 with h _
  exact h.symm

theorem threeAttemptsEach_usable (a : Option UploadAddress) (host : String) (si : StoreInfo)
    (rest : List (Option UploadAddress)) (hu : usableAs a host si) :
    threeAttemptsEach (a :: rest) = [(host, 1), (host, 2), (host, 3)] ++ threeAttemptsEach rest := by
  obtain ⟨hosts, infos, hH, hS⟩ := hu
  simp only [threeAttemptsEach, hH, hS]

theorem exampleAddress_usable (host oid sessionKey : String) :
    usableAs (exampleAddress host oid sessionKey) host { StoreUri := oid, Auth := "auth" } :=
  ⟨[], [], rfl, rfl⟩

/-- The single-shot transfer never returns an `UploadError`, so the retry
predicate rejects every error it returns. -/
theorem directUpload_error_rejected (put : List Event → List UInt8 → UploadPartCommon → PutReply)
    (trace : List Event) (fileBytes : List UInt8) (param : UploadPartCommon) (err : GoError)
    (h : directUpload put trace fileBytes param = some err) : retryIf err = false := by
  unfold directUpload at h
  split at h
  · cases h; rfl
  · split_ifs at h
    cases h; rfl

/-- C9 (evaluation at the failing input): the storage answers the single-shot
PUT on `h1` with an envelope `success = 1`, error code 5001. `directUpload`
returns the plain error `busy`, the retry predicate rejects it, and `Upload`
makes one attempt on `h1` instead of three before moving to `h2`. -/
theorem directUpload_service_error_not_retried :
    directUpload busyFirstHost [] [1, 2, 3] { TosHost := "h1" } = some (.errorString "busy") ∧
    retryIf (.errorString "busy") = false ∧
    transferAttempts (Upload busyWorld { Size := 3 }).trace = [("h1", 1), ("h2", 1)] ∧
    (Upload busyWorld { Size := 3 }).ret = .ret ("oid2", "sk2", none, 200) := by
  decide

/-! ## Order of the candidates and choice of the strategy -/

theorem retryDo_attempt_shape (w : World) (p : GoError → Bool) (d : Bool) (b : List UInt8)
    (f : String) (i : Nat) (up : UploadPartCommon) :
    ∀ (n : Nat) (rc : Int) (t : List Event) (last : Option GoError),
      ∃ k, k ≤ n ∧ (0 < n → 0 < k) ∧
        (retryDo p (attempt w d b f i up) n (rc, t) last).2.2
          = t ++ attemptEvents i d b f up rc k := by
  intro n
  induction n with
  | zero =>
    intro rc t last
    exact ⟨0, le_refl _, fun h => absurd h (lt_irrefl _), by simp [retryDo, attemptEvents]⟩
  | succ n ih =>
    intro rc t last
    have hsnd := attempt_snd w d b f i up rc t
    rcases hfn : attempt w d b f i up (rc, t) with ⟨o, s1⟩
    rw [hfn] at hsnd
    simp only at hsnd
    subst hsnd
    have hone : t ++ [Event.Printf ((i : Int) + 1) rc] ++
        [if d then Event.directUpload b { up with RetryTimes := rc }
          else Event.chunkUpload f { up with RetryTimes := rc }]
        = t ++ attemptEvents i d b f up rc 1 := by
      simp [attemptEvents]
    cases o with
    | ret a =>
      cases a with
      | none => exact ⟨1, by omega, fun _ => by omega, by simp only [retryDo, hfn]; exact hone⟩
      | some e =>
        by_cases hp : p e = true
        · obtain ⟨k, hk, _, htr⟩ := ih (rc + 1) (t ++ [Event.Printf ((i : Int) + 1) rc] ++
            [if d then Event.directUpload b { up with RetryTimes := rc }
              else Event.chunkUpload f { up with RetryTimes := rc }]) (some e)
          refine ⟨k + 1, by omega, fun _ => by omega, ?_⟩
          simp only [retryDo, hfn, hp, if_true]
          rw [htr]
          simp [attemptEvents]
        · exact ⟨1, by omega, fun _ => by omega, by
            simp only [retryDo, hfn, hp]
            exact hone⟩
    | panic msg => exact ⟨1, by omega, fun _ => by omega, by simp only [retryDo, hfn]; exact hone⟩
    | blocked => exact ⟨1, by omega, fun _ => by omega, by simp only [retryDo, hfn]; exact hone⟩

theorem transferWithRetry_shape (w : World) (logId : String) (i : Nat) (direct : Bool)
    (oid sessionKey : String) (up : UploadPartCommon) (req : VodUploadFuncRequest)
    (b : List UInt8) (t1 : List Event) :
    ∃ k, 1 ≤ k ∧ k ≤ 3 ∧
      (transferWithRetry w logId i direct oid sessionKey up req b t1).trace
        = t1 ++ attemptEvents i direct b req.FilePath up 1 k ∧
      (transferWithRetry w logId i direct oid sessionKey up req b t1).req = req := by
  obtain ⟨k, hk3, hk1, htr⟩ := retryDo_attempt_shape w retryIf direct b req.FilePath i up 3 1 t1 none
  refine ⟨k, hk1 (by omega), hk3, ?_⟩
  unfold transferWithRetry
  rcases hr : retryDo retryIf (attempt w direct b req.FilePath i up) 3 (1, t1) none with ⟨o, rc, t2⟩
  rw [hr] at htr
  simp only at htr
  subst htr
  cases o with
  | ret a =>
    cases a with
    | none => exact ⟨rfl, rfl⟩
    | some e =>
      cases e with
      | UploadError c ec m =>
        simp only
        split_ifs <;> exact ⟨rfl, rfl⟩
      | errorString m => exact ⟨rfl, rfl⟩
  | panic msg => exact ⟨rfl, rfl⟩
  | blocked => exact ⟨rfl, rfl⟩

theorem attemptEvents_strategyOk (i : Nat) (b : List UInt8) (f : String) (up : UploadPartCommon) :
    ∀ (k : Nat) (rc : Int), ∀ e ∈ attemptEvents i (decide (up.FileSize < up.ChunkSize)) b f up rc k,
      strategyOk up.FileSize up.ChunkSize e := by
  intro k
  induction k with
  | zero => intro rc e he; simp [attemptEvents] at he
  | succ k ih =>
    intro rc e he
    simp only [attemptEvents, List.cons_append, List.nil_append, List.mem_cons] at he
    rcases he with rfl | rfl | he
    · trivial
    · by_cases hlt : up.FileSize < up.ChunkSize
      · simp [hlt, strategyOk]
      · simp [hlt, strategyOk]
    · exact ih (rc + 1) e he

theorem attemptEvents_transfers (i : Nat) (d : Bool) (b : List UInt8) (f : String)
    (up : UploadPartCommon) (k : Nat) (hk : k ≤ 3) :
    (transferAttempts (attemptEvents i d b f up 1 k)).Sublist
      [(up.TosHost, 1), (up.TosHost, 2), (up.TosHost, 3)] := by
  have h3 : transferAttempts (attemptEvents i d b f up 1 3)
      = [(up.TosHost, 1), (up.TosHost, 2), (up.TosHost, 3)] := by
    cases d <;> simp [attemptEvents, transferAttempts, transferOf]
  have hsplit : ∀ (j : Nat) (rc : Int) (m : Nat),
      attemptEvents i d b f up rc (j + m)
        = attemptEvents i d b f up rc j ++ attemptEvents i d b f up (rc + j) m := by
    intro j
    induction j with
    | zero => intro rc m; simp [attemptEvents]
    | succ j ih =>
      intro rc m
      have : j + 1 + m = (j + m) + 1 := by omega
      rw [this]
      simp only [attemptEvents, ih, List.append_assoc]
      congr 3
      push_cast
      ring_nf
  rw [← h3]
  obtain ⟨m, hm⟩ : ∃ m, 3 = k + m := ⟨3 - k, by omega⟩
  rw [hm, hsplit k 1 m, transferAttempts_append]
  exact List.sublist_append_left _ _

theorem readPayload_shape (w : World) (d : Bool) (bts : List UInt8) (t : List Event) :
    (readPayload w d bts t).2.2 = t ∨ (readPayload w d bts t).2.2 = t ++ [Event.ReadAll] := by
  unfold readPayload
  split_ifs
  · exact Or.inr rfl
  · exact Or.inl rfl

theorem defaultParallelNum_size (req : VodUploadFuncRequest) :
    (defaultParallelNum req).Size = req.Size ∧ (defaultParallelNum req).ChunkSize = req.ChunkSize := by
  unfold defaultParallelNum
  split_ifs <;> exact ⟨rfl, rfl⟩

/-- One iteration of the candidate loop only appends to the trace; what it
appends agrees with the strategy threshold and is at most three attempts on
the address's first host; size and chunk size of the request are kept. -/
theorem uploadToAddress_shape (w : World) (logId : String) (i : Nat) (a : Option UploadAddress)
    (st : LoopState) :
    ∃ ext, (uploadToAddress w logId i a st).trace = st.trace ++ ext ∧
      (∀ e ∈ ext, strategyOk st.req.Size st.req.ChunkSize e) ∧
      (transferAttempts ext).Sublist (threeAttemptsEach [a]) ∧
      (uploadToAddress w logId i a st).req.Size = st.req.Size ∧
      (uploadToAddress w logId i a st).req.ChunkSize = st.req.ChunkSize := by
  have hskip : ∀ l : List (String × Int), (transferAttempts []).Sublist l := fun l => by
    simp [transferAttempts]
  rcases hH : GetUploadHosts a with _ | ⟨host, hosts⟩
  · exact ⟨[], by simp [uploadToAddress, hH, Step.trace], by simp, hskip _,
      by simp [uploadToAddress, hH, Step.req], by simp [uploadToAddress, hH, Step.req]⟩
  · rcases hS : GetStoreInfos a with _ | ⟨_ | si, infos⟩
    · exact ⟨[], by simp [uploadToAddress, hH, hS, Step.trace], by simp, hskip _,
        by simp [uploadToAddress, hH, hS, Step.req], by simp [uploadToAddress, hH, hS, Step.req]⟩
    · exact ⟨[], by simp [uploadToAddress, hH, hS, Step.trace], by simp, hskip _,
        by simp [uploadToAddress, hH, hS, Step.req], by simp [uploadToAddress, hH, hS, Step.req]⟩
    · obtain ⟨hsz, hch⟩ := defaultParallelNum_size st.req
      have hthree : threeAttemptsEach [a] = [(host, 1), (host, 2), (host, 3)] := by
        simp [threeAttemptsEach, hH, hS]
      have hupS : (newUploadPart host si.StoreUri si.Auth (defaultParallelNum st.req)).FileSize
          = st.req.Size := hsz
      have hupC : (newUploadPart host si.StoreUri si.Auth (defaultParallelNum st.req)).ChunkSize
          = st.req.ChunkSize := hch
      have hupH : (newUploadPart host si.StoreUri si.Auth (defaultParallelNum st.req)).TosHost
          = host := rfl
      unfold uploadToAddress
      simp only [hH, hS, hsz, hch]
      generalize newUploadPart host si.StoreUri si.Auth (defaultParallelNum st.req) = up
        at hupS hupC hupH ⊢
      generalize defaultParallelNum st.req = req1 at hsz hch ⊢
      have hshape := readPayload_shape w (decide (st.req.Size < st.req.ChunkSize)) st.bts st.trace
      rcases hr : readPayload w (decide (st.req.Size < st.req.ChunkSize)) st.bts st.trace
        with ⟨b, _ | err, t1⟩
      · -- the payload is available: the transfer runs
        rw [hr] at hshape
        simp only at hshape
        obtain ⟨k, _, hk3, htr, hreq⟩ := transferWithRetry_shape w logId i
          (decide (st.req.Size < st.req.ChunkSize)) si.StoreUri (GetSessionKey a) up req1 b t1
        have hok := attemptEvents_strategyOk i b req1.FilePath up k 1
        have hsub := attemptEvents_transfers i (decide (st.req.Size < st.req.ChunkSize)) b
          req1.FilePath up k hk3
        rw [hupS, hupC] at hok
        rw [hupH] at hsub
        simp only [hreq, htr, hsz, hch, hthree]
        rcases hshape with rfl | rfl
        · exact ⟨_, rfl, hok, hsub, trivial, trivial⟩
        · refine ⟨[Event.ReadAll] ++ _, by rw [List.append_assoc], ?_, ?_, trivial, trivial⟩
          · intro e he
            rcases List.mem_append.mp he with h1 | h2
            · simp only [List.mem_singleton] at h1
              subst h1
              trivial
            · exact hok e h2
          · rw [transferAttempts_append]
            simpa [transferAttempts, transferOf] using hsub
      · -- the read failed
        rw [hr] at hshape
        simp only at hshape
        simp only [Step.trace, Step.req, hsz, hch]
        rcases hshape with rfl | rfl
        · exact ⟨[], by simp, by simp, hskip _, trivial, trivial⟩
        · exact ⟨[Event.ReadAll], rfl, by simp [strategyOk], by simp [transferAttempts, transferOf],
            trivial, trivial⟩

/-- The candidate loop only appends to the trace; what it appends agrees with
the strategy threshold, and its transfer attempts follow the order of the
candidate list, at most three per candidate; the chunk size is kept. -/
theorem uploadCandidates_shape (w : World) (logId : String) (l : List (Option UploadAddress)) :
    ∀ (i : Nat) (st : LoopState),
      ∃ ext, (uploadCandidates w logId l i st).trace = st.trace ++ ext ∧
        (∀ e ∈ ext, strategyOk st.req.Size st.req.ChunkSize e) ∧
        (transferAttempts ext).Sublist (threeAttemptsEach l) ∧
        (uploadCandidates w logId l i st).req.ChunkSize = st.req.ChunkSize := by
  induction l with
  | nil =>
    intro i st
    exact ⟨[], by simp [uploadCandidates], by simp, by simp [transferAttempts, threeAttemptsEach], rfl⟩
  | cons a rest ih =>
    intro i st
    obtain ⟨ext, htr, hok, hsub, hsz, hch⟩ := uploadToAddress_shape w logId i a st
    have hthree : threeAttemptsEach (a :: rest) = threeAttemptsEach [a] ++ threeAttemptsEach rest := by
      simp [threeAttemptsEach]
    unfold uploadCandidates
    rcases hstep : uploadToAddress w logId i a st with st1 | r
    · rw [hstep] at htr hsz hch
      simp only [Step.trace, Step.req] at htr hsz hch
      obtain ⟨ext2, htr2, hok2, hsub2, hch2⟩ := ih (i + 1) st1
      refine ⟨ext ++ ext2, ?_, ?_, ?_, ?_⟩
      · simp only [htr2, htr, List.append_assoc]
      · intro e he
        rcases List.mem_append.mp he with h1 | h2
        · exact hok e h1
        · have := hok2 e h2
          rwa [hsz, hch] at this
      · rw [transferAttempts_append, hthree]
        exact hsub.append hsub2
      · simp only [hch2, hch]
    · rw [hstep] at htr hsz hch
      simp only [Step.trace, Step.req] at htr hsz hch
      refine ⟨ext, htr, hok, ?_, hch⟩
      rw [hthree]
      exact hsub.trans (List.sublist_append_left _ _)

theorem uploadSingleAddress_shape (w : World) (logId : String) (ua : Option UploadAddress)
    (req0 : VodUploadFuncRequest) (t : List Event) :
    ∃ ext, (uploadSingleAddress w logId ua req0 t).trace = t ++ ext ∧
      (∀ e ∈ ext, strategyOk req0.Size req0.ChunkSize e) ∧
      (uploadSingleAddress w logId ua req0 t).req.ChunkSize = req0.ChunkSize := by
  obtain ⟨hsz, hch⟩ := defaultParallelNum_size req0
  unfold uploadSingleAddress
  split
  · exact ⟨[], by simp, by simp, rfl⟩
  · split
    · exact ⟨[], by simp, by simp, rfl⟩
    · simp only
      split_ifs with hlt
      · split
        · exact ⟨[Event.ReadAll], rfl, by simp [strategyOk], hch⟩
        · split
          · refine ⟨[Event.ReadAll] ++ [Event.directUpload _ _], List.append_assoc _ _ _, ?_, hch⟩
            intro e he
            simp only [List.singleton_append, List.mem_cons, List.mem_singleton, List.not_mem_nil,
              or_false] at he
            rcases he with rfl | rfl
            · trivial
            · exact ⟨by rwa [hsz, hch] at hlt, by simp [newUploadPart, hsz], by simp [newUploadPart, hch]⟩
          · refine ⟨[Event.ReadAll] ++ [Event.directUpload _ _], List.append_assoc _ _ _, ?_, hch⟩
            intro e he
            simp only [List.singleton_append, List.mem_cons, List.mem_singleton, List.not_mem_nil,
              or_false] at he
            rcases he with rfl | rfl
            · trivial
            · exact ⟨by rwa [hsz, hch] at hlt, by simp [newUploadPart, hsz], by simp [newUploadPart, hch]⟩
      · have hev : ∀ (h o a : String), ∀ e ∈ [Event.chunkUpload (defaultParallelNum req0).FilePath
            (newUploadPart h o a (defaultParallelNum req0))],
            strategyOk req0.Size req0.ChunkSize e := by
          intro h o a e he
          simp only [List.mem_singleton] at he
          subst he
          exact ⟨by rwa [hsz, hch] at hlt, by simp [newUploadPart, hsz], by simp [newUploadPart, hch]⟩
        split <;> exact ⟨_, rfl, hev _ _ _, hch⟩
    · exact ⟨[], by simp, by simp, rfl⟩

theorem raiseChunkSize_size (w : World) (req : VodUploadFuncRequest) :
    (raiseChunkSize w req).Size = req.Size := by
  unfold raiseChunkSize
  split_ifs <;> rfl

/-- For a non-empty payload the trace of `Upload` starts with the control-plane
call for the chunk-size adjusted request, everything after it agrees with the
strategy threshold, and the request keeps the adjusted chunk size. -/
theorem Upload_shape (w : World) (req : VodUploadFuncRequest) (hsize : req.Size ≠ 0) :
    ∃ ext, (Upload w req).trace = Event.ApplyUploadInfo (raiseChunkSize w req) :: ext ∧
      (∀ e ∈ ext, strategyOk req.Size (raiseChunkSize w req).ChunkSize e) ∧
      (Upload w req).req.ChunkSize = (raiseChunkSize w req).ChunkSize := by
  have hloop : ∀ (logId : String) (l : List (Option UploadAddress)),
      ∃ ext, (uploadCandidates w logId l 0
          { req := raiseChunkSize w req, bts := [],
            trace := [Event.ApplyUploadInfo (raiseChunkSize w req)] }).trace
          = Event.ApplyUploadInfo (raiseChunkSize w req) :: ext ∧
        (∀ e ∈ ext, strategyOk req.Size (raiseChunkSize w req).ChunkSize e) ∧
        (uploadCandidates w logId l 0
          { req := raiseChunkSize w req, bts := [],
            trace := [Event.ApplyUploadInfo (raiseChunkSize w req)] }).req.ChunkSize
          = (raiseChunkSize w req).ChunkSize := by
    intro logId l
    obtain ⟨ext, htr, hok, _, hch⟩ := uploadCandidates_shape w logId l 0
      { req := raiseChunkSize w req, bts := [],
        trace := [Event.ApplyUploadInfo (raiseChunkSize w req)] }
    refine ⟨ext, htr, ?_, hch⟩
    intro e he
    have := hok e he
    rwa [raiseChunkSize_size] at this
  have hsingle : ∀ (logId : String) (ua : Option UploadAddress),
      ∃ ext, (uploadSingleAddress w logId ua (raiseChunkSize w req)
          [Event.ApplyUploadInfo (raiseChunkSize w req)]).trace
          = Event.ApplyUploadInfo (raiseChunkSize w req) :: ext ∧
        (∀ e ∈ ext, strategyOk req.Size (raiseChunkSize w req).ChunkSize e) ∧
        (uploadSingleAddress w logId ua (raiseChunkSize w req)
          [Event.ApplyUploadInfo (raiseChunkSize w req)]).req.ChunkSize
          = (raiseChunkSize w req).ChunkSize := by
    intro logId ua
    obtain ⟨ext, htr, hok, hch⟩ := uploadSingleAddress_shape w logId ua (raiseChunkSize w req)
      [Event.ApplyUploadInfo (raiseChunkSize w req)]
    refine ⟨ext, htr, ?_, hch⟩
    intro e he
    have := hok e he
    rwa [raiseChunkSize_size] at this
  unfold Upload
  rw [if_neg hsize]
  simp only
  split
  · exact ⟨[], rfl, by simp, rfl⟩
  · exact ⟨[], rfl, by simp, rfl⟩
  · split
    · exact ⟨[], rfl, by simp, rfl⟩
    · split
      · exact ⟨[], rfl, by simp, rfl⟩
      · split
        · split
          · exact ⟨[_], rfl, by simp [strategyOk], rfl⟩
          · exact ⟨[_], rfl, by simp [strategyOk], rfl⟩
          · exact ⟨[_], rfl, by simp [strategyOk], rfl⟩
          · split
            · exact ⟨[_], rfl, by simp [strategyOk], rfl⟩
            · split
              · exact ⟨[_], rfl, by simp [strategyOk], rfl⟩
              · exact ⟨[_], rfl, by simp [strategyOk], rfl⟩
        · split_ifs
          · exact hloop _ _
          · exact hsingle _ _

theorem candidateHosts_eq_flatten (l : List (Option UploadAddress)) (hosts : List String)
    (h : candidateHosts l = .ret hosts) : hosts = flattenHosts l := by
  induction l generalizing hosts with
  | nil =>
    simp only [candidateHosts] at h
    cases h
    rfl
  | cons a rest ih =>
    cases a with
    | none => simp only [candidateHosts] at h; cases h
    | some ua =>
      simp only [candidateHosts] at h
      rcases hc : candidateHosts rest with hs | msg | _
      · rw [hc] at h
        simp only at h
        cases h
        rw [flattenHosts, ← ih hs hc]
        rfl
      · rw [hc] at h; cases h
      · rw [hc] at h; cases h

theorem transferAttempts_cons_apply (r : VodUploadFuncRequest) (ext : List Event) :
    transferAttempts (Event.ApplyUploadInfo r :: ext) = transferAttempts ext := by
  simp [transferAttempts, transferOf]

theorem attemptEvents_first_mem (i : Nat) (b : List UInt8) (f : String) (up : UploadPartCommon)
    (rc : Int) (k : Nat) (hk : 1 ≤ k) :
    Event.chunkUpload f { up with RetryTimes := rc } ∈ attemptEvents i false b f up rc k := by
  obtain ⟨j, rfl⟩ : ∃ j, k = j + 1 := ⟨k - 1, by omega⟩
  simp [attemptEvents]

/-- With a usable first candidate and a payload not below the chunk size, the
first multipart attempt on that candidate is in the trace of the loop. -/
theorem uploadCandidates_first_chunk (w : World) (logId : String) (i : Nat)
    (a : Option UploadAddress) (rest : List (Option UploadAddress)) (st : LoopState)
    (host : String) (si : StoreInfo) (hu : usableAs a host si)
    (hge : ¬ st.req.Size < st.req.ChunkSize) :
    Event.chunkUpload (defaultParallelNum st.req).FilePath
        { newUploadPart host si.StoreUri si.Auth (defaultParallelNum st.req) with RetryTimes := 1 }
      ∈ (uploadCandidates w logId (a :: rest) i st).trace := by
  obtain ⟨hosts, infos, hH, hS⟩ := hu
  obtain ⟨hsz, hch⟩ := defaultParallelNum_size st.req
  have hdirect : decide ((defaultParallelNum st.req).Size < (defaultParallelNum st.req).ChunkSize)
      = false := by
    rw [hsz, hch]
    exact decide_eq_false hge
  obtain ⟨k, hk1, _, htr, _⟩ := transferWithRetry_shape w logId i false si.StoreUri
    (GetSessionKey a) (newUploadPart host si.StoreUri si.Auth (defaultParallelNum st.req))
    (defaultParallelNum st.req) st.bts st.trace
  have hmem := attemptEvents_first_mem i st.bts (defaultParallelNum st.req).FilePath
    (newUploadPart host si.StoreUri si.Auth (defaultParallelNum st.req)) 1 k hk1
  have hstep : uploadToAddress w logId i a st
      = transferWithRetry w logId i false si.StoreUri (GetSessionKey a)
          (newUploadPart host si.StoreUri si.Auth (defaultParallelNum st.req))
          (defaultParallelNum st.req) st.bts st.trace := by
    unfold uploadToAddress
    simp only [hH, hS, hdirect, readPayload, Bool.false_eq_true, false_and, if_false]
  have hin : Event.chunkUpload (defaultParallelNum st.req).FilePath
        { newUploadPart host si.StoreUri si.Auth (defaultParallelNum st.req) with RetryTimes := 1 }
      ∈ (uploadToAddress w logId i a st).trace := by
    rw [hstep, htr]
    exact List.mem_append_right _ hmem
  unfold uploadCandidates
  rcases hs : uploadToAddress w logId i a st with st1 | r
  · rw [hs] at hin
    simp only [Step.trace] at hin
    obtain ⟨ext, htr2, _⟩ := uploadCandidates_shape w logId rest (i + 1) st1
    simp only [htr2]
    exact List.mem_append_left _ hin
  · rw [hs] at hin
    exact hin

/-- No single-shot call when the payload is not below the effective chunk
size, and a multipart call on a usable first candidate. -/
theorem Upload_multipart (w : World) (req : VodUploadFuncRequest) (hsize : req.Size ≠ 0)
    (hge : ¬ req.Size < (raiseChunkSize w req).ChunkSize) :
    (∀ e ∈ (Upload w req).trace, ∀ b p, e ≠ Event.directUpload b p) ∧
    (∀ logId a rest host si, offersCandidates w req logId (a :: rest) → usableAs a host si →
      ∃ p, p.TosHost = host ∧ p.FileSize = req.Size ∧
        p.ChunkSize = (raiseChunkSize w req).ChunkSize ∧ p.RetryTimes = 1 ∧
        Event.chunkUpload req.FilePath p ∈ (Upload w req).trace) := by
  constructor
  · obtain ⟨ext, htr, hok, _⟩ := Upload_shape w req hsize
    intro e he b p hep
    subst hep
    rw [htr] at he
    rcases List.mem_cons.mp he with h | h
    · cases h
    · exact hge (hok _ h).1
  · intro logId a rest host si hcp hu
    have hup := Upload_eq_uploadCandidates w req logId _ hsize (by simp) hcp
    have hmem := uploadCandidates_first_chunk w logId 0 a rest
      { req := raiseChunkSize w req, bts := [],
        trace := [Event.ApplyUploadInfo (raiseChunkSize w req)] } host si hu
      (by rw [raiseChunkSize_size]; exact hge)
    obtain ⟨hsz, hch⟩ := defaultParallelNum_size (raiseChunkSize w req)
    have hpath : (defaultParallelNum (raiseChunkSize w req)).FilePath = req.FilePath := by
      unfold defaultParallelNum raiseChunkSize
      split_ifs <;> rfl
    rw [hpath] at hmem
    refine ⟨_, ?_, ?_, ?_, ?_, by rw [hup]; exact hmem⟩
    · rfl
    · simp only [newUploadPart, hsz, raiseChunkSize_size]
    · simp only [newUploadPart, hch]
    · rfl

/-- C12 (amended): when the payload size equals the effective chunk size,
`Upload` makes no single-shot call; with a usable first candidate it calls the
multipart pipeline on it, and the plan for such a payload is a single part of
that size. -/
theorem upload_equal_size_is_multipart (w : World) (req : VodUploadFuncRequest)
    (hsize : req.Size ≠ 0) (hint : isInt64 req.Size) (hpos : 0 < req.Size)
    (heq : req.Size = (raiseChunkSize w req).ChunkSize) :
    (∀ e ∈ (Upload w req).trace, ∀ b p, e ≠ Event.directUpload b p) ∧
    (∀ logId a rest host si, offersCandidates w req logId (a :: rest) → usableAs a host si →
      ∃ p, p.TosHost = host ∧ p.FileSize = req.Size ∧
        p.ChunkSize = (raiseChunkSize w req).ChunkSize ∧ p.RetryTimes = 1 ∧
        Event.chunkUpload req.FilePath p ∈ (Upload w req).trace) ∧
    calculateUploadParts req.Size (raiseChunkSize w req).ChunkSize
      = .ret (1, [{ Number := 1, OffSet := 0, Size := req.Size }], none) := by
  obtain ⟨h1, h2⟩ := Upload_multipart w req hsize (by rw [← heq]; exact lt_irrefl _)
  refine ⟨h1, h2, ?_⟩
  rw [← heq]
  have hdiv : req.Size / req.Size = 1 := Int.ediv_self (ne_of_gt hpos)
  have hmod : req.Size % req.Size = 0 := Int.emod_self
  rw [calculateUploadParts_eq req.Size req.Size hint hpos (le_refl _) (by rw [hdiv]; norm_num)]
  simp [planOf, hdiv, hmod]

/-- C12 as stated fails: a 4-byte payload with effective chunk size 4 is sent
through `chunkUpload`; no `directUpload` call is made. -/
theorem upload_equal_size_not_single_shot :
    (raiseChunkSize (exampleWorld [exampleAddress "h1" "oid1" "sk1"] (fun _ => none))
      { Size := 4 }).ChunkSize = 4 ∧
    (Upload (exampleWorld [exampleAddress "h1" "oid1" "sk1"] (fun _ => none)) { Size := 4 }).trace
      = [Event.ApplyUploadInfo { Size := 4, ChunkSize := 4 }, Event.Printf 1 1,
          Event.chunkUpload ""
            { TosHost := "h1", Oid := "oid1", Auth := "auth", ChunkSize := 4, FileSize := 4,
              ParallelNum := 1, RetryTimes := 1 }] := by
  decide

theorem upload_equal_size_is_multipart_witness :
    calculateUploadParts 4
        (raiseChunkSize (exampleWorld [exampleAddress "h1" "oid1" "sk1"] (fun _ => none))
          { Size := 4 }).ChunkSize
      = .ret (1, [{ Number := 1, OffSet := 0, Size := 4 }], none) :=
  (upload_equal_size_is_multipart (exampleWorld [exampleAddress "h1" "oid1" "sk1"] (fun _ => none))
    { Size := 4 } (by decide) (by decide) (by decide) (by decide)).2.2

/-- C13 (amended): for a payload of `chunkSize + 1` bytes, `chunkSize ≥ 2` being
the effective chunk size, `Upload` makes no single-shot call, calls the
multipart pipeline on a usable first candidate, and the plan of
`calculateUploadParts(chunkSize + 1, chunkSize)` is exactly one part, of length
`chunkSize + 1`. -/
theorem upload_one_byte_over_is_one_part (w : World) (req : VodUploadFuncRequest)
    (hint : isInt64 req.Size) (hchunk : 2 ≤ (raiseChunkSize w req).ChunkSize)
    (hsz : req.Size = (raiseChunkSize w req).ChunkSize + 1) :
    (∀ e ∈ (Upload w req).trace, ∀ b p, e ≠ Event.directUpload b p) ∧
    (∀ logId a rest host si, offersCandidates w req logId (a :: rest) → usableAs a host si →
      ∃ p, p.TosHost = host ∧ p.FileSize = req.Size ∧
        p.ChunkSize = (raiseChunkSize w req).ChunkSize ∧ p.RetryTimes = 1 ∧
        Event.chunkUpload req.FilePath p ∈ (Upload w req).trace) ∧
    calculateUploadParts ((raiseChunkSize w req).ChunkSize + 1) (raiseChunkSize w req).ChunkSize
      = .ret (1, [{ Number := 1, OffSet := 0, Size := (raiseChunkSize w req).ChunkSize + 1 }],
          none) := by
  obtain ⟨h1, h2⟩ := Upload_multipart w req (by omega) (by omega)
  refine ⟨h1, h2, ?_⟩
  generalize (raiseChunkSize w req).ChunkSize = C at hchunk hsz ⊢
  have hC : C ≠ 0 := by omega
  have h10 : (1 : Int) / C = 0 := Int.ediv_eq_zero_of_lt (by norm_num) (by omega)
  have h1m : (1 : Int) % C = 1 := Int.emod_eq_of_lt (by norm_num) (by omega)
  have hdiv : (C + 1) / C = 1 := by
    have h := Int.add_mul_ediv_right 1 1 hC
    rw [one_mul, h10] at h
    rw [add_comm C 1, h]
    norm_num
  have hmod : (C + 1) % C = 1 := by
    have h := Int.add_mul_emod_self (a := 1) (b := 1) (c := C)
    rw [one_mul, h1m] at h
    rw [add_comm C 1, h]
  rw [calculateUploadParts_eq (C + 1) C (hsz ▸ hint) (by omega) (by omega)
    (by rw [hdiv]; norm_num)]
  simp [planOf, hdiv, hmod]

/-- C13 as stated fails: the plan for 5 bytes with chunk size 4 has one part,
not two; the part has length 5. -/
theorem one_byte_over_plan_has_one_part :
    calculateUploadParts (4 + 1) 4 = .ret (1, [{ Number := 1, OffSet := 0, Size := 5 }], none) ∧
    ¬ (2 ≤ [({ Number := 1, OffSet := 0, Size := 5 } : UploadPartInfo)].length) := by
  decide

theorem upload_one_byte_over_is_one_part_witness :
    calculateUploadParts (4 + 1) 4
      = .ret (1, [{ Number := 1, OffSet := 0, Size := 4 + 1 }], none) :=
  (upload_one_byte_over_is_one_part
    (exampleWorld [exampleAddress "h1" "oid1" "sk1"] (fun _ => none))
    { Size := 5 } (by decide) (by decide) (by decide)).2.2

/-- C14: `Upload` with `Size == 0` returns `file size is zero` with status 400
and an empty session key, and `StreamUpload` with a non-zero chunk size below
the stream minimum or with `nil` content returns an error with status 0; in
each case no call is made (the trace is empty). -/
theorem input_errors_make_no_call (w : World) (req : VodUploadFuncRequest)
    (sw : StreamWorld) (sreq : VodStreamUploadRequest) (hzero : req.Size = 0)
    (hbad : (sreq.ChunkSize ≠ 0 ∧ sreq.ChunkSize < sw.StreamMinChunkSize) ∨ sreq.Content = none) :
    Upload w req =
      { ret := .ret ("", "", some (.errorString "file size is zero"), 400), req := req,
        trace := [] } ∧
    (∃ err, (StreamUpload sw sreq).ret = .ret ("", "", some err, 0)) ∧
    (StreamUpload sw sreq).trace = [] := by
  constructor
  · unfold Upload
    rw [if_pos hzero]
  · unfold StreamUpload
    simp only
    by_cases hlt : (if sreq.ChunkSize = 0 then { sreq with ChunkSize := sw.MinChunckSize }
        else sreq).ChunkSize < sw.StreamMinChunkSize
    · rw [if_pos hlt]
      exact ⟨⟨_, rfl⟩, rfl⟩
    · rw [if_neg hlt]
      have hnil : (if sreq.ChunkSize = 0 then { sreq with ChunkSize := sw.MinChunckSize }
          else sreq).Content = none := by
        rcases hbad with ⟨hne, hlow⟩ | hnil
        · rw [if_neg hne] at hlt
          exact absurd hlow hlt
        · split_ifs <;> exact hnil
      rw [if_pos hnil]
      exact ⟨⟨_, rfl⟩, rfl⟩

theorem input_errors_make_no_call_witness :
    Upload (exampleWorld [exampleAddress "h1" "oid1" "sk1"] (fun _ => none)) { Size := 0 } =
      { ret := .ret ("", "", some (.errorString "file size is zero"), 400), req := { Size := 0 },
        trace := [] } ∧
    (∃ err, (StreamUpload exampleStreamWorld { ChunkSize := 1, Content := some [1] }).ret
      = .ret ("", "", some err, 0)) ∧
    (StreamUpload exampleStreamWorld { ChunkSize := 1, Content := some [1] }).trace = [] :=
  input_errors_make_no_call _ { Size := 0 } exampleStreamWorld
    { ChunkSize := 1, Content := some [1] } rfl (Or.inl ⟨by decide, by decide⟩)

/-- C15 (amended): for a non-empty payload whose chunk size is below the
protocol minimum, `Upload` does not stop: it writes the minimum into the
request and calls the control plane with the adjusted request. -/
theorem upload_raises_small_chunk_size (w : World) (req : VodUploadFuncRequest)
    (hsize : req.Size ≠ 0) (hlt : req.ChunkSize < w.MinChunckSize) :
    (Upload w req).req.ChunkSize = w.MinChunckSize ∧
    ∃ ext, (Upload w req).trace
      = Event.ApplyUploadInfo { req with ChunkSize := w.MinChunckSize } :: ext := by
  obtain ⟨ext, htr, _, hch⟩ := Upload_shape w req hsize
  have hraise : raiseChunkSize w req = { req with ChunkSize := w.MinChunckSize } := by
    unfold raiseChunkSize
    rw [if_pos hlt]
  rw [hraise] at htr hch
  exact ⟨hch, ext, htr⟩

/-- C15 as stated fails: with chunk size 1 below the minimum 4, `Upload` calls
the control plane, transfers the payload and returns success, and the request
ends with chunk size 4. -/
theorem upload_small_chunk_size_proceeds :
    (Upload (exampleWorld [exampleAddress "h1" "oid1" "sk1"] (fun _ => none))
      { Size := 3, ChunkSize := 1 }).ret = .ret ("oid1", "sk1", none, 200) ∧
    (Upload (exampleWorld [exampleAddress "h1" "oid1" "sk1"] (fun _ => none))
      { Size := 3, ChunkSize := 1 }).req.ChunkSize = 4 ∧
    (Upload (exampleWorld [exampleAddress "h1" "oid1" "sk1"] (fun _ => none))
      { Size := 3, ChunkSize := 1 }).trace.length = 4 := by
  decide

theorem upload_raises_small_chunk_size_witness :
    (Upload (exampleWorld [exampleAddress "h1" "oid1" "sk1"] (fun _ => none))
      { Size := 3, ChunkSize := 1 }).req.ChunkSize = 4 :=
  (upload_raises_small_chunk_size (exampleWorld [exampleAddress "h1" "oid1" "sk1"] (fun _ => none))
    { Size := 3, ChunkSize := 1 } (by decide) (by decide)).1

/-! ## Private-network path -/

theorem vpcPartPut_trace (w : VpcWorld) (t : List VpcEvent) (f u : String) (o s : Int) :
    ∃ ext, (vpcPartPut w t f u o s).2 = t ++ ext ∧ ∀ url parts, VpcEvent.post url parts ∉ ext := by
  unfold vpcPartPut
  split
  · exact ⟨[], by simp, by simp⟩
  · split
    · exact ⟨[], by simp, by simp⟩
    · split
      · exact ⟨[], by simp, by simp⟩
      · split
        · exact ⟨[], by simp, by simp⟩
        · simp only
          split
          · exact ⟨_, rfl, by simp⟩
          · split_ifs <;> exact ⟨_, rfl, by simp⟩

theorem vpcPutWholeParts_trace (w : VpcWorld) (f : String) (chunkSize : Int) (l : List String) :
    ∀ (i : Nat) (o : Int) (parts : List VpcUploadPartInfo) (t : List VpcEvent),
      ∃ ext, (vpcPutWholeParts w f chunkSize l i o parts t).2 = t ++ ext ∧
        ∀ url ps, VpcEvent.post url ps ∉ ext := by
  induction l with
  | nil => intro i o parts t; exact ⟨[], by simp [vpcPutWholeParts], by simp⟩
  | cons u rest ih =>
    intro i o parts t
    obtain ⟨ext1, h1, hn1⟩ := vpcPartPut_trace w t f u o chunkSize
    unfold vpcPutWholeParts
    rcases hp : vpcPartPut w t f u o chunkSize with ⟨⟨etag, _ | err⟩, t1⟩
    · rw [hp] at h1
      simp only at h1
      obtain ⟨ext2, h2, hn2⟩ := ih (i + 1) (wrap64 (o + chunkSize))
        (parts ++ [{ PartNumber := (i : Int) + 1, ETag := etag }]) t1
      subst h1
      refine ⟨ext1 ++ ext2, by simp only [h2, List.append_assoc], ?_⟩
      intro url ps hmem
      rcases List.mem_append.mp hmem with h | h
      · exact hn1 url ps h
      · exact hn2 url ps h
    · rw [hp] at h1
      exact ⟨ext1, h1, hn1⟩

/-- The count of part URLs the file-based check asks for. -/
theorem vpcPartUpload_check (size partSize : Int) (n : Nat) (hsize : 0 ≤ size) (hint : isInt64 size)
    (hpart : 0 < partSize) :
    (((n : Int) ≠ wrap64 (wrap64 (Int.tdiv size partSize) + 1) ∧ Int.tmod size partSize > 0) ∨
      ((n : Int) ≠ wrap64 (Int.tdiv size partSize) ∧ Int.tmod size partSize = 0)) ↔
    (n : Int) ≠ size / partSize + (if size % partSize ≠ 0 then 1 else 0) := by
  have hq : Int.tdiv size partSize = size / partSize := Int.tdiv_eq_ediv hsize hpart.le
  have hr : Int.tmod size partSize = size % partSize := Int.tmod_eq_emod hsize hpart.le
  have hq0 : 0 ≤ size / partSize := Int.ediv_nonneg hsize hpart.le
  have hqle : size / partSize ≤ size := Int.ediv_le_self _ hsize
  have hr0 : 0 ≤ size % partSize := Int.emod_nonneg _ (ne_of_gt hpart)
  have hb := hint.2
  have hw1 : wrap64 (size / partSize) = size / partSize :=
    wrap64_of_isInt64 ⟨by linarith [show (-(2:Int)^63) ≤ 0 by norm_num], by linarith⟩
  rw [hq, hr, hw1]
  by_cases hz : size % partSize = 0
  · simp [hz]
  · have hpos : size % partSize > 0 := by omega
    have h2 : 2 ≤ partSize := by
      by_contra hlt
      have hp1 : partSize = 1 := by omega
      rw [hp1] at hz
      simp at hz
    have hhalf : size / partSize * 2 ≤ size := by
      have := Int.ediv_mul_le size (ne_of_gt hpart)
      nlinarith
    have hw2 : wrap64 (size / partSize + 1) = size / partSize + 1 :=
      wrap64_of_isInt64 ⟨by linarith [show (-(2:Int)^63) ≤ 0 by norm_num], by
        have : (2:Int)^63 = 9223372036854775808 := by norm_num
        omega⟩
    rw [hw2]
    simp [hz, hpos]

theorem vpcPost_trace (w : VpcWorld) (t : List VpcEvent) (info : PartUploadInfo)
    (parts : List VpcUploadPartInfo) : ∃ ext, (vpcPost w t info parts).2 = t ++ ext := by
  unfold vpcPost
  simp only
  split
  · exact ⟨[], by simp⟩
  · split
    · exact ⟨[], by simp⟩
    · split
      · exact ⟨_, rfl⟩
      · split_ifs <;> exact ⟨_, rfl⟩

theorem wrap64_tdiv (size partSize : Int) (hsize : 0 ≤ size) (hint : isInt64 size)
    (hpart : 0 < partSize) : wrap64 (Int.tdiv size partSize) = size / partSize := by
  have hq : Int.tdiv size partSize = size / partSize := Int.tdiv_eq_ediv hsize hpart.le
  have hq0 : 0 ≤ size / partSize := Int.ediv_nonneg hsize hpart.le
  have hqle : size / partSize ≤ size := Int.ediv_le_self _ hsize
  rw [hq]
  exact wrap64_of_isInt64 ⟨by linarith [show (-(2:Int)^63) ≤ 0 by norm_num], by linarith [hint.2]⟩

/-- Once the count check has passed, the file is opened: the trace grows by the
`Open` event at least. -/
theorem vpcPartUpload_opens (w : VpcWorld) (trace : List VpcEvent) (info : PartUploadInfo)
    (f : String) (param : UploadPartCommon) (hpart : info.PartSize ≠ 0)
    (hcheck : ¬ (((info.PartPutUrls.length : Int)
          ≠ wrap64 (wrap64 (Int.tdiv param.FileSize info.PartSize) + 1) ∧
        Int.tmod param.FileSize info.PartSize > 0) ∨
      ((info.PartPutUrls.length : Int) ≠ wrap64 (Int.tdiv param.FileSize info.PartSize) ∧
        Int.tmod param.FileSize info.PartSize = 0))) :
    ∃ ext, (vpcPartUpload w trace (some info) f param).2 = trace ++ VpcEvent.Open f :: ext := by
  unfold vpcPartUpload
  simp only
  rw [if_neg hpart, if_neg hcheck]
  split
  · exact ⟨[], rfl⟩
  · obtain ⟨ext1, h1, _⟩ := vpcPutWholeParts_trace w f info.PartSize
      (info.PartPutUrls.take (info.PartPutUrls.length - 1)) 0 0 [] (trace ++ [VpcEvent.Open f])
    rcases hl : vpcPutWholeParts w f info.PartSize
      (info.PartPutUrls.take (info.PartPutUrls.length - 1)) 0 0 [] (trace ++ [VpcEvent.Open f])
      with ⟨⟨_ | err, off, parts⟩, t2⟩
    · rw [hl] at h1
      simp only at h1
      subst h1
      simp only
      split_ifs
      · obtain ⟨ext2, h2, _⟩ := vpcPartPut_trace w (trace ++ [VpcEvent.Open f] ++ ext1) f
          (info.PartPutUrls.getD (wrap64 (Int.tdiv param.FileSize info.PartSize)).toNat "") off
          (wrap64 (param.FileSize - off))
        rcases hp : vpcPartPut w (trace ++ [VpcEvent.Open f] ++ ext1) f
          (info.PartPutUrls.getD (wrap64 (Int.tdiv param.FileSize info.PartSize)).toNat "") off
          (wrap64 (param.FileSize - off)) with ⟨⟨etag, _ | err⟩, t3⟩
        · rw [hp] at h2
          simp only at h2
          subst h2
          obtain ⟨ext3, h3⟩ := vpcPost_trace w (trace ++ [VpcEvent.Open f] ++ ext1 ++ ext2) info
            (parts ++ [{ PartNumber := wrap64 (wrap64 (Int.tdiv param.FileSize info.PartSize) + 1),
                         ETag := etag }])
          exact ⟨ext1 ++ ext2 ++ ext3, by simp only [h3]; simp⟩
        · rw [hp] at h2
          simp only at h2
          subst h2
          exact ⟨ext1 ++ ext2, by simp⟩
      · exact ⟨ext1, by simp⟩
    · rw [hl] at h1
      simp only at h1
      subst h1
      exact ⟨ext1, by simp⟩

/-- C16: for a file size `≥ 0` and a part size `> 0`, `vpcPartUpload` returns
`mismatch part upload` with the trace unchanged (the file not opened, no PUT,
no POST) exactly when the number of part URLs differs from
`size / partSize`, plus 1 when `size % partSize ≠ 0`. -/
theorem vpcPartUpload_mismatch_iff (w : VpcWorld) (trace : List VpcEvent) (info : PartUploadInfo)
    (filePath : String) (param : UploadPartCommon) (hsize : 0 ≤ param.FileSize)
    (hint : isInt64 param.FileSize) (hpart : 0 < info.PartSize) :
    vpcPartUpload w trace (some info) filePath param
        = (.ret (some (.errorString "mismatch part upload")), trace) ↔
      (info.PartPutUrls.length : Int)
        ≠ param.FileSize / info.PartSize + (if param.FileSize % info.PartSize ≠ 0 then 1 else 0) := by
  rw [← vpcPartUpload_check param.FileSize info.PartSize info.PartPutUrls.length hsize hint hpart]
  constructor
  · intro h
    by_contra hcheck
    obtain ⟨ext, hext⟩ := vpcPartUpload_opens w trace info filePath param (ne_of_gt hpart) hcheck
    rw [h] at hext
    have hlen := congrArg List.length hext
    simp at hlen
  · intro hcheck
    unfold vpcPartUpload
    simp only
    rw [if_neg (ne_of_gt hpart), if_pos hcheck]

theorem vpcPartUpload_mismatch_iff_witness :
    vpcPartUpload (exampleVpcWorld (fun _ => {})) []
        (some { PartSize := 2, PartPutUrls := ["u1", "u2", "u3"], CompletePartUrl := "done" })
        "f" { FileSize := 4 }
      = (.ret (some (.errorString "mismatch part upload")), []) :=
  (vpcPartUpload_mismatch_iff (exampleVpcWorld (fun _ => {})) []
    { PartSize := 2, PartPutUrls := ["u1", "u2", "u3"], CompletePartUrl := "done" }
    "f" { FileSize := 4 } (by decide) (by decide) (by decide)).mpr (by decide)

/-- The streaming count check asks for `size / partSize + 1` URLs whatever the
remainder is. -/
theorem vpcPartUploadStream_mismatch (w : VpcWorld) (trace : List VpcEvent) (info : PartUploadInfo)
    (content : List UInt8) (param : UploadPartCommon) (hsize : 0 ≤ param.FileSize)
    (hint : isInt64 param.FileSize) (hpart : 2 ≤ info.PartSize)
    (hne : (info.PartPutUrls.length : Int) ≠ param.FileSize / info.PartSize + 1) :
    vpcPartUploadStream w trace (some info) content param
      = (.ret (some (.errorString "mismatch part upload")), trace) := by
  have hw1 := wrap64_tdiv param.FileSize info.PartSize hsize hint (by omega)
  have hq0 : 0 ≤ param.FileSize / info.PartSize := Int.ediv_nonneg hsize (by omega)
  have hhalf : param.FileSize / info.PartSize * 2 ≤ param.FileSize := by
    have := Int.ediv_mul_le param.FileSize (show info.PartSize ≠ 0 by omega)
    nlinarith
  have hw2 : wrap64 (param.FileSize / info.PartSize + 1) = param.FileSize / info.PartSize + 1 :=
    wrap64_of_isInt64 ⟨by linarith [show (-(2:Int)^63) ≤ 0 by norm_num], by
      have : (2:Int)^63 = 9223372036854775808 := by norm_num
      have := hint.2
      omega⟩
  unfold vpcPartUploadStream
  simp only
  rw [if_neg (by omega), hw1, hw2, if_pos hne]

/-- C17 (evaluation at the failing input): for a stream of 4 bytes and part
size 2 the streaming part upload rejects the 2 URLs that `size / partSize`
asks for, with nothing sent, and accepts 3 URLs, sending an empty third part;
the file-based check accepts the 2 URLs. -/
theorem vpcPartUploadStream_rejects_exact_count :
    (4 : Int) % 2 = 0 ∧ (4 : Int) / 2 = 2 ∧
    vpcPartUploadStream (exampleVpcWorld (fun url => { ETag := url })) []
        (some { PartSize := 2, PartPutUrls := ["u1", "u2"], CompletePartUrl := "done" })
        [1, 2, 3, 4] { FileSize := 4 }
      = (.ret (some (.errorString "mismatch part upload")), []) ∧
    vpcPartUploadStream (exampleVpcWorld (fun url => { ETag := url })) []
        (some { PartSize := 2, PartPutUrls := ["u1", "u2", "u3"], CompletePartUrl := "done" })
        [1, 2, 3, 4] { FileSize := 4 }
      = (.ret none,
          [.putBytes "u1" [1, 2], .putBytes "u2" [3, 4], .putBytes "u3" [],
            .post "done" [⟨1, "u1"⟩, ⟨2, "u2"⟩, ⟨3, "u3"⟩]]) ∧
    vpcPartUpload (exampleVpcWorld (fun url => { HashCrc64ecma := "42", ETag := url })) []
        (some { PartSize := 2, PartPutUrls := ["u1", "u2"], CompletePartUrl := "done" })
        "f" { FileSize := 4 }
      ≠ (.ret (some (.errorString "mismatch part upload")), []) := by
  decide

/-- C18 (evaluation at the failing input): for a file of 4 bytes, part size 2
and the 2 URLs the count check accepts, `vpcPartUpload` sends part 1 and then
panics on `urls[2]`; no second part and no completion POST is sent. With 5
bytes and 3 URLs the three parts and the completion body are as planned. -/
theorem vpcPartUpload_exact_multiple_panics :
    vpcPartUpload (exampleVpcWorld (fun url => { HashCrc64ecma := "42", ETag := url })) []
        (some { PartSize := 2, PartPutUrls := ["u1", "u2"], CompletePartUrl := "done" })
        "f" { FileSize := 4 }
      = (.panic "runtime error: index out of range", [.Open "f", .putSection "u1" 0 2]) ∧
    vpcPartUpload (exampleVpcWorld (fun url => { HashCrc64ecma := "42", ETag := url })) []
        (some { PartSize := 2, PartPutUrls := ["u1", "u2", "u3"], CompletePartUrl := "done" })
        "f" { FileSize := 5 }
      = (.ret none,
          [.Open "f", .putSection "u1" 0 2, .putSection "u2" 2 2, .putSection "u3" 4 1,
            .post "done" [⟨1, "u1"⟩, ⟨2, "u2"⟩, ⟨3, "u3"⟩]]) := by
  decide

/-- C20: for a non-nil VPC address whose quick-complete mode is `enable`,
`vpcUpload` and `vpcUploadStream` return `nil` with the trace unchanged: no
file is opened and no PUT or POST is made, whatever the mode, URLs and size. -/
theorem quick_complete_skips_transfer (w : VpcWorld) (trace : List VpcEvent)
    (addr : VpcTosUploadAddress) (req : VodUploadFuncRequest) (sreq : VodStreamUploadRequest)
    (hq : addr.QuickCompleteMode = "enable") :
    vpcUpload w trace (some addr) req = (.ret none, trace) ∧
    vpcUploadStream w trace (some addr) sreq = (.ret none, trace) := by
  constructor
  · unfold vpcUpload
    simp only
    rw [if_pos hq]
  · unfold vpcUploadStream
    simp only
    rw [if_pos hq]

theorem quick_complete_skips_transfer_witness :
    vpcUpload (exampleVpcWorld (fun _ => {})) []
        (some { QuickCompleteMode := "enable", UploadMode := "part" }) { Size := 9 }
      = (.ret none, []) ∧
    vpcUploadStream (exampleVpcWorld (fun _ => {})) []
        (some { QuickCompleteMode := "enable", UploadMode := "part" }) { Size := 9 }
      = (.ret none, []) :=
  quick_complete_skips_transfer _ [] { QuickCompleteMode := "enable", UploadMode := "part" }
    { Size := 9 } { Size := 9 } rfl

theorem vpcPartPut_mismatch (w : VpcWorld) (f u : String) (hmis : alwaysMismatch w f u)
    (t : List VpcEvent) (o s : Int)
    (hcrc : (w.crc64ecma t f (some (o, s))).2 = none) (hseek : w.Seek t f = none)
    (hparse : w.Parse u = none) (hreq : w.NewRequest "PUT" u = none) :
    vpcPartPut w t f u o s
      = (("", some (.errorString "integrity check failed")), t ++ [VpcEvent.putSection u o s]) := by
  obtain ⟨hdo, hstatus, hhash⟩ := hmis t (some (o, s))
  unfold vpcPartPut
  rcases hc : w.crc64ecma t f (some (o, s)) with ⟨hash, e⟩
  rw [hc] at hcrc hhash
  simp only at hcrc hhash
  subst hcrc
  simp only [hseek, hparse, hreq]
  rcases hd : w.Do t "PUT" u with ⟨rsp, e⟩
  rw [hd] at hdo hstatus hhash
  simp only at hdo hstatus hhash
  subst hdo
  simp only [hstatus, ne_eq, not_true_eq_false, if_false, hhash, not_false_eq_true, if_true]

theorem vpcPartPut_never_ok (w : VpcWorld) (f u : String) (hmis : alwaysMismatch w f u)
    (t : List VpcEvent) (o s : Int) : ∃ e, (vpcPartPut w t f u o s).1 = ("", some e) := by
  obtain ⟨hdo, hstatus, hhash⟩ := hmis t (some (o, s))
  unfold vpcPartPut
  split
  · exact ⟨_, rfl⟩
  · split
    · exact ⟨_, rfl⟩
    · split
      · exact ⟨_, rfl⟩
      · split
        · exact ⟨_, rfl⟩
        · simp only
          split
          · exact ⟨_, rfl⟩
          · rename_i hash _ _ _ _ _ _ _ _ rsp hd
            rename_i hc _ _ _ _ _ _ _
            simp only [hd] at hstatus hhash
            split_ifs with h1 h2
            · exact ⟨_, rfl⟩
            · exact ⟨_, rfl⟩
            · exfalso
              simp only [hc] at hhash
              exact hhash (not_not.mp h2)

theorem vpcPutWholeParts_never_ok (w : VpcWorld) (f u : String) (hmis : alwaysMismatch w f u)
    (chunkSize : Int) (l : List String) (hu : u ∈ l) :
    ∀ (i : Nat) (o : Int) (parts : List VpcUploadPartInfo) (t : List VpcEvent),
      ∃ e, (vpcPutWholeParts w f chunkSize l i o parts t).1.1 = some e := by
  induction l with
  | nil => cases hu
  | cons x rest ih =>
    intro i o parts t
    unfold vpcPutWholeParts
    rcases hp : vpcPartPut w t f x o chunkSize with ⟨⟨etag, _ | err⟩, t1⟩
    · simp only
      rcases List.mem_cons.mp hu with hx | hx
      · subst hx
        obtain ⟨e, he⟩ := vpcPartPut_never_ok w f u hmis t o chunkSize
        rw [hp] at he
        cases he
      · exact ih hx _ _ _ _
    · exact ⟨err, rfl⟩

theorem last_of_not_in_front (l : List String) (u : String) (hu : u ∈ l)
    (hfront : u ∉ l.take (l.length - 1)) : l.getD (l.length - 1) "" = u := by
  have hsplit := List.take_append_drop (l.length - 1) l
  have hmem : u ∈ l.take (l.length - 1) ++ l.drop (l.length - 1) := by rw [hsplit]; exact hu
  rcases List.mem_append.mp hmem with h | h
  · exact absurd h hfront
  · have hpos : 0 < l.length := List.length_pos_of_mem hu
    have hlt : l.length - 1 < l.length := by omega
    rw [List.drop_eq_getElem_cons hlt] at h
    have hnil : l.drop (l.length - 1 + 1) = [] := by
      apply List.drop_of_length_le
      omega
    rw [hnil, List.mem_singleton] at h
    rw [List.getD_eq_getElem l "" hlt, h]

/-- When one of the part URLs always answers with a mismatching checksum, the
file-based part upload neither returns `nil` nor sends the completion POST. -/
theorem vpcPartUpload_never_ok (w : VpcWorld) (f u : String) (hmis : alwaysMismatch w f u)
    (trace : List VpcEvent) (info : PartUploadInfo) (param : UploadPartCommon)
    (hu : u ∈ info.PartPutUrls) (hsize : 0 ≤ param.FileSize) (hint : isInt64 param.FileSize)
    (hpart : 0 < info.PartSize) :
    (vpcPartUpload w trace (some info) f param).1 ≠ .ret none ∧
    ∃ ext, (vpcPartUpload w trace (some info) f param).2 = trace ++ ext ∧
      ∀ url parts, VpcEvent.post url parts ∉ ext := by
  have hchk := vpcPartUpload_check param.FileSize info.PartSize info.PartPutUrls.length
    hsize hint hpart
  have hw1 := wrap64_tdiv param.FileSize info.PartSize hsize hint hpart
  have hq0 : 0 ≤ param.FileSize / info.PartSize := Int.ediv_nonneg hsize hpart.le
  obtain ⟨ext1, h1, hn1⟩ := vpcPutWholeParts_trace w f info.PartSize
    (info.PartPutUrls.take (info.PartPutUrls.length - 1)) 0 0 [] (trace ++ [VpcEvent.Open f])
  have hopen : ∀ url ps, VpcEvent.post url ps ∉ [VpcEvent.Open f] ++ ext1 := by
    intro url ps hmem
    rcases List.mem_append.mp hmem with h | h
    · simp at h
    · exact hn1 url ps h
  unfold vpcPartUpload
  simp only
  rw [if_neg (ne_of_gt hpart)]
  split_ifs with hcheck hidx
  · exact ⟨by simp, [], by simp, by simp⟩
  · have hcount := not_not.mp (fun h => hcheck (hchk.mpr h))
    split
    · exact ⟨by simp, [VpcEvent.Open f], rfl, by simp⟩
    · rcases hl : vpcPutWholeParts w f info.PartSize
        (info.PartPutUrls.take (info.PartPutUrls.length - 1)) 0 0 [] (trace ++ [VpcEvent.Open f])
        with ⟨⟨_ | err, off, parts⟩, t2⟩
      · rw [hl] at h1
        simp only at h1
        subst h1
        have hfront : u ∉ info.PartPutUrls.take (info.PartPutUrls.length - 1) := by
          intro hin
          obtain ⟨e, he⟩ := vpcPutWholeParts_never_ok w f u hmis info.PartSize _ hin 0 0 []
            (trace ++ [VpcEvent.Open f])
          rw [hl] at he
          cases he
        have hlast := last_of_not_in_front info.PartPutUrls u hu hfront
        simp only
        rw [hw1] at hidx
        have hlen : (info.PartPutUrls.length : Int) = param.FileSize / info.PartSize + 1 := by
          by_cases hz : param.FileSize % info.PartSize = 0
          · rw [if_neg (by simpa using hz)] at hcount
            omega
          · rw [if_pos hz] at hcount
            exact hcount
        have hix : (wrap64 (Int.tdiv param.FileSize info.PartSize)).toNat
            = info.PartPutUrls.length - 1 := by
          rw [hw1]
          omega
        rw [hix, hlast]
        obtain ⟨e, he⟩ := vpcPartPut_never_ok w f u hmis (trace ++ [VpcEvent.Open f] ++ ext1) off
          (wrap64 (param.FileSize - off))
        obtain ⟨ext2, h2, hn2⟩ := vpcPartPut_trace w (trace ++ [VpcEvent.Open f] ++ ext1) f u off
          (wrap64 (param.FileSize - off))
        rcases hp : vpcPartPut w (trace ++ [VpcEvent.Open f] ++ ext1) f u off
          (wrap64 (param.FileSize - off)) with ⟨⟨etag, _ | err⟩, t3⟩
        · rw [hp] at he
          cases he
        · rw [hp] at h2
          simp only at h2
          subst h2
          refine ⟨by simp, [VpcEvent.Open f] ++ ext1 ++ ext2, by simp, ?_⟩
          intro url ps hmem
          rcases List.mem_append.mp hmem with h | h
          · exact hopen url ps h
          · exact hn2 url ps h
      · rw [hl] at h1
        simp only at h1
        subst h1
        exact ⟨by simp, [VpcEvent.Open f] ++ ext1, by simp, hopen⟩
  · split
    · exact ⟨by simp, [VpcEvent.Open f], rfl, by simp⟩
    · rcases hl : vpcPutWholeParts w f info.PartSize
        (info.PartPutUrls.take (info.PartPutUrls.length - 1)) 0 0 [] (trace ++ [VpcEvent.Open f])
        with ⟨⟨_ | err, off, parts⟩, t2⟩
      all_goals
        rw [hl] at h1
        simp only at h1
        subst h1
        exact ⟨by simp, [VpcEvent.Open f] ++ ext1, by simp, hopen⟩

/-- C19: when every PUT to a URL is answered with status 200 and a checksum
header different from the local CRC-64/ECMA of the bytes sent, `vpcPartPut`
and `vpcPut` (their local steps succeeding) return `integrity check failed`
with no ETag, and a `vpcPartUpload` that has this URL among its part URLs
neither returns `nil` nor sends the completion POST. -/
theorem integrity_mismatch_fails (w : VpcWorld) (f u : String) (hmis : alwaysMismatch w f u) :
    (∀ (t : List VpcEvent) (o s : Int),
      (w.crc64ecma t f (some (o, s))).2 = none → w.Seek t f = none → w.Parse u = none →
      w.NewRequest "PUT" u = none →
      vpcPartPut w t f u o s
        = (("", some (.errorString "integrity check failed")),
            t ++ [VpcEvent.putSection u o s])) ∧
    (∀ (t : List VpcEvent) (addr : VpcTosUploadAddress), addr.PutUrl = u →
      w.Parse u = none → w.Open t f = none →
      (w.crc64ecma (t ++ [VpcEvent.Open f]) f none).2 = none →
      w.Seek (t ++ [VpcEvent.Open f]) f = none → w.NewRequest "PUT" u = none →
      vpcPut w t addr f
        = (some (.errorString "integrity check failed"),
            t ++ [VpcEvent.Open f] ++ [VpcEvent.putFile u])) ∧
    (∀ (trace : List VpcEvent) (info : PartUploadInfo) (param : UploadPartCommon),
      u ∈ info.PartPutUrls → 0 ≤ param.FileSize → isInt64 param.FileSize → 0 < info.PartSize →
      (vpcPartUpload w trace (some info) f param).1 ≠ .ret none ∧
      ∃ ext, (vpcPartUpload w trace (some info) f param).2 = trace ++ ext ∧
        ∀ url parts, VpcEvent.post url parts ∉ ext) := by
  refine ⟨fun t o s h1 h2 h3 h4 => vpcPartPut_mismatch w f u hmis t o s h1 h2 h3 h4, ?_,
    fun trace info param hu hs hi hp => vpcPartUpload_never_ok w f u hmis trace info param hu hs hi hp⟩
  intro t addr haddr hparse hopen hcrc hseek hreq
  obtain ⟨hdo, hstatus, hhash⟩ := hmis (t ++ [VpcEvent.Open f]) none
  unfold vpcPut
  rcases hc : w.crc64ecma (t ++ [VpcEvent.Open f]) f none with ⟨hash, e⟩
  rw [hc] at hcrc hhash
  simp only at hcrc hhash
  subst hcrc
  rcases hd : w.Do (t ++ [VpcEvent.Open f]) "PUT" u with ⟨rsp, e⟩
  rw [hd] at hdo hstatus hhash
  simp only at hdo hstatus hhash
  subst hdo
  simp only [haddr, hparse, hopen, hc, hseek, hreq, hd, hstatus, ne_eq, not_true_eq_false,
    if_false, hhash, not_false_eq_true, if_true]

theorem integrity_mismatch_fails_witness :
    vpcPartPut (exampleVpcWorld (fun _ => { HashCrc64ecma := "7", ETag := "etag" })) [] "f" "u1" 0 2
      = (("", some (.errorString "integrity check failed")), [VpcEvent.putSection "u1" 0 2]) :=
  (integrity_mismatch_fails (exampleVpcWorld (fun _ => { HashCrc64ecma := "7", ETag := "etag" }))
    "f" "u1" (fun _ _ => ⟨rfl, rfl, by show ("7" : String) ≠ "42"; decide⟩)).1 [] 0 2 rfl rfl rfl rfl

/-! ## Workers, failure records and the merge call -/

theorem calculateUploadParts_length (size chunkSize n : Int) (parts : List UploadPartInfo)
    (h : calculateUploadParts size chunkSize = .ret (n, parts, none)) :
    parts.length = n.toNat := by
  unfold calculateUploadParts at h
  by_cases h0 : chunkSize = 0
  · rw [if_pos h0] at h; cases h
  · rw [if_neg h0] at h
    by_cases h1 : wrap64 (Int.tdiv size chunkSize) > 10000
    · rw [if_pos h1] at h; cases h
    · rw [if_neg h1] at h
      by_cases h2 : Int.tmod size chunkSize ≠ 0
      · simp only [if_pos h2] at h
        split_ifs at h
        cases h
        simp only [addToSizeAt_length, List.length_map, List.length_range]
      · simp only [if_neg h2] at h
        cases h
        simp only [List.length_map, List.length_range]

theorem uploadMergePartV2_trace (w : World) (trace : List Event) (param : UploadPartCommon)
    (uploadID : String) (list : List (Option UploadPartResponse)) :
    (uploadMergePartV2 w trace param uploadID list).2 = trace ∨
    ∃ body, (uploadMergePartV2 w trace param uploadID list).2
      = trace ++ [Event.mergePut param uploadID body] := by
  unfold uploadMergePartV2
  split
  · exact Or.inl rfl
  · exact Or.inl rfl
  · exact Or.inl rfl
  · exact Or.inr ⟨_, rfl⟩

/-- With a failure record in `errChan`, `chunkUpload` ends without success after
the worker phase, the trace being the session start and the worker phase. -/
theorem chunkUpload_failure_recorded (w : World) (trace : List Event) (filePath : String)
    (param : UploadPartCommon) (totalNum : Int) (infos : List UploadPartInfo) (uploadID : String)
    (phase : WorkerPhase)
    (hplan : calculateUploadParts param.FileSize param.ChunkSize = .ret (totalNum, infos, none))
    (hinit : w.initUploadPartV2 trace param = (uploadID, none))
    (htot : 0 ≤ totalNum) (hpar : 0 < param.ParallelNum)
    (hrun : w.runWorkers (trace ++ [.initUploadPartV2 param]) filePath param uploadID infos
      = .ret phase)
    (v : UploadPartResponse) (rest : List UploadPartResponse) (herr : phase.errChan = v :: rest) :
    chunkUpload w trace filePath param
      = (if v.Error.Code = -1 then
          .panic "runtime error: invalid memory address or nil pointer dereference"
        else .ret (some (.UploadError v.Error.Code v.Error.ErrorCode v.Error.Message)),
        trace ++ [.initUploadPartV2 param] ++ [.workers uploadID param.ParallelNum infos]) := by
  unfold chunkUpload
  rw [hplan]
  simp only [hinit]
  rw [if_neg (by omega), if_neg (by omega), if_neg (by omega), hrun]
  simp only [herr]
  split_ifs <;> rfl

/-- Without a failure record, `chunkUpload` blocks when fewer results than
planned parts arrived and otherwise hands the first `totalNum` results to
`uploadMergePartV2`. -/
theorem chunkUpload_no_failure (w : World) (trace : List Event) (filePath : String)
    (param : UploadPartCommon) (totalNum : Int) (infos : List UploadPartInfo) (uploadID : String)
    (phase : WorkerPhase)
    (hplan : calculateUploadParts param.FileSize param.ChunkSize = .ret (totalNum, infos, none))
    (hinit : w.initUploadPartV2 trace param = (uploadID, none))
    (htot : 0 ≤ totalNum) (hpar : 0 < param.ParallelNum)
    (hrun : w.runWorkers (trace ++ [.initUploadPartV2 param]) filePath param uploadID infos
      = .ret phase)
    (herr : phase.errChan = []) :
    chunkUpload w trace filePath param
      = if phase.results.length < totalNum.toNat then
          (.blocked,
            trace ++ [.initUploadPartV2 param] ++ [.workers uploadID param.ParallelNum infos])
        else
          uploadMergePartV2 w
            (trace ++ [.initUploadPartV2 param] ++ [.workers uploadID param.ParallelNum infos])
            { param with ObjectContentType := phase.objectContentType } uploadID
            (phase.results.take totalNum.toNat) := by
  unfold chunkUpload
  rw [hplan]
  simp only [hinit]
  rw [if_neg (by omega), if_neg (by omega), if_neg (by omega), hrun]
  simp only [herr]

/-- A worker that starts with `*quit == 0` ends either with one more result per
job and no new failure record, or with exactly one new failure record and
fewer results than jobs. -/
theorem worker_results_or_failure (sw : StorageWorld) (jobs : List Jobs) :
    ∀ (st st1 : PoolState), st.quit = 0 → worker sw jobs st = .ret st1 →
      (st1.errChan = st.errChan ∧ st1.results.length = st.results.length + jobs.length) ∨
      (∃ res, st1.errChan = st.errChan ++ [res] ∧
        st1.results.length < st.results.length + jobs.length) := by
  induction jobs with
  | nil =>
    intro st st1 _ h
    unfold worker at h
    cases h
    exact Or.inl ⟨rfl, rfl⟩
  | cons job rest ih =>
    intro st st1 hq h
    unfold worker at h
    rw [if_neg (by simp [hq])] at h
    rcases hj : workerJob sw st.trace job with ⟨je, t1⟩
    rw [hj] at h
    cases je with
    | failure res =>
      simp only [Outcome.ret.injEq] at h
      subst h
      exact Or.inr ⟨res, rfl, by simp⟩
    | panic msg => cases h
    | result resp =>
      simp only at h
      split_ifs at h with h1
      · cases resp with
        | none => cases h
        | some r =>
          simp only at h
          rcases ih _ st1 (by exact hq) h with ⟨he, hl⟩ | ⟨res, he, hl⟩
          · refine Or.inl ⟨he, ?_⟩
            simp only [List.length_append, List.length_cons, List.length_nil] at hl ⊢
            omega
          · refine Or.inr ⟨res, he, ?_⟩
            simp only [List.length_append, List.length_cons, List.length_nil] at hl ⊢
            omega
      · rcases ih _ st1 (by exact hq) h with ⟨he, hl⟩ | ⟨res, he, hl⟩
        · refine Or.inl ⟨he, ?_⟩
          simp only [List.length_append, List.length_cons, List.length_nil] at hl ⊢
          omega
        · refine Or.inr ⟨res, he, ?_⟩
          simp only [List.length_append, List.length_cons, List.length_nil] at hl ⊢
          omega

/-- C21: in `chunkUpload`, after a successful plan and session start with at
least one worker, a failure record in `errChan` means that the call does not
return `nil` and that no merge request follows; a merge request is made only
when `errChan` is empty and at least as many results arrived as parts were
planned. For a single worker, a failure record exists exactly when fewer
results than jobs were produced. -/
theorem failure_blocks_merge (w : World) (trace : List Event) (filePath : String)
    (param : UploadPartCommon) (totalNum : Int) (infos : List UploadPartInfo) (uploadID : String)
    (phase : WorkerPhase)
    (hplan : calculateUploadParts param.FileSize param.ChunkSize = .ret (totalNum, infos, none))
    (hinit : w.initUploadPartV2 trace param = (uploadID, none))
    (hpar : 0 < param.ParallelNum)
    (hrun : w.runWorkers (trace ++ [.initUploadPartV2 param]) filePath param uploadID infos
      = .ret phase) :
    (phase.errChan ≠ [] →
      (chunkUpload w trace filePath param).1 ≠ .ret none ∧
      ∃ ext, (chunkUpload w trace filePath param).2 = trace ++ ext ∧
        ∀ p u body, Event.mergePut p u body ∉ ext) ∧
    (∀ ext, (chunkUpload w trace filePath param).2 = trace ++ ext →
      (∃ p u body, Event.mergePut p u body ∈ ext) →
      phase.errChan = [] ∧ infos.length ≤ phase.results.length) ∧
    (∀ (sw : StorageWorld) (jobs : List Jobs) (st : PoolState), worker sw jobs {} = .ret st →
      (st.errChan ≠ [] ↔ st.results.length < jobs.length) ∧ st.results.length ≤ jobs.length) := by
  have hlen := calculateUploadParts_length _ _ _ _ hplan
  have hneg : totalNum < 0 → chunkUpload w trace filePath param
      = (.panic "makechan: size out of range", trace ++ [.initUploadPartV2 param]) := by
    intro hlt
    unfold chunkUpload
    rw [hplan]
    simp only [hinit]
    rw [if_pos hlt]
  refine ⟨?_, ?_, ?_⟩
  · intro herr
    by_cases htot : totalNum < 0
    · rw [hneg htot]
      exact ⟨by simp, [.initUploadPartV2 param], rfl, by simp⟩
    · obtain ⟨v, rest, hv⟩ := List.exists_cons_of_ne_nil herr
      rw [chunkUpload_failure_recorded w trace filePath param totalNum infos uploadID phase hplan
        hinit (by omega) hpar hrun v rest hv]
      refine ⟨?_, [.initUploadPartV2 param] ++ [.workers uploadID param.ParallelNum infos],
        by simp, by simp⟩
      split_ifs <;> simp
  · intro ext hext ⟨p, u, body, hmem⟩
    by_cases htot : totalNum < 0
    · rw [hneg htot] at hext
      have := List.append_cancel_left hext
      subst this
      simp at hmem
    · cases herr : phase.errChan with
      | cons v rest =>
        rw [chunkUpload_failure_recorded w trace filePath param totalNum infos uploadID phase hplan
          hinit (by omega) hpar hrun v rest herr, List.append_assoc] at hext
        have := List.append_cancel_left hext
        subst this
        simp at hmem
      | nil =>
        refine ⟨rfl, ?_⟩
        rw [chunkUpload_no_failure w trace filePath param totalNum infos uploadID phase hplan
          hinit (by omega) hpar hrun herr] at hext
        split_ifs at hext with hshort
        · rw [List.append_assoc] at hext
          have := List.append_cancel_left hext
          subst this
          simp at hmem
        · omega
  · intro sw jobs st hst
    rcases worker_results_or_failure sw jobs {} st rfl hst with ⟨he, hl⟩ | ⟨res, he, hl⟩
    · simp only [List.length_nil, Nat.zero_add] at hl
      simp only [he, hl]
      simp
    · simp only [List.length_nil, Nat.zero_add] at hl
      simp only [he]
      exact ⟨by simpa using hl, le_of_lt hl⟩

theorem failure_blocks_merge_witness :
    (chunkUpload
        (oneWorkerWorld (exampleStorage none none
          (fun k => if k = 0 then none else some (.errorString "reset"))))
        [] "f" { FileSize := 8, ChunkSize := 4, ParallelNum := 1 }).1 ≠ .ret none ∧
    ∃ ext,
      (chunkUpload
        (oneWorkerWorld (exampleStorage none none
          (fun k => if k = 0 then none else some (.errorString "reset"))))
        [] "f" { FileSize := 8, ChunkSize := 4, ParallelNum := 1 }).2 = [] ++ ext ∧
      ∀ p u body, Event.mergePut p u body ∉ ext :=
  (failure_blocks_merge
    (oneWorkerWorld (exampleStorage none none
      (fun k => if k = 0 then none else some (.errorString "reset"))))
    [] "f" { FileSize := 8, ChunkSize := 4, ParallelNum := 1 } 2 [⟨1, 0, 4⟩, ⟨2, 4, 4⟩] "upload-1"
    { errChan :=
        [{ Success := -1,
           Error := { Code := -1, Error := "reset", Message := "upload part fail",
                      StatusCode := 500, Logid := "log-1" },
           PartNumber := 2 }],
      results := [some { PartNumber := 1, CheckSum := "crc" }] }
    (by decide) rfl (by decide) (by decide)).1 (by decide)

theorem putAttempt_fst (sw : StorageWorld) (job : Jobs) (data : List UInt8) (st : PutState) :
    (putAttempt sw job data st).1 = .ret (putAnswer sw st.trace job data).2.2.2 := rfl

theorem putAttempt_snd (sw : StorageWorld) (job : Jobs) (data : List UInt8) (st : PutState) :
    (putAttempt sw job data st).2
      = { resp := (putAnswer sw st.trace job data).1,
          logid := (putAnswer sw st.trace job data).2.1,
          statusCode := (putAnswer sw st.trace job data).2.2.1,
          err := (putAnswer sw st.trace job data).2.2.2,
          trace := st.trace ++ [putEvent job data] } := rfl

/-- The body of the worker loop once the file is open and the part read: the
state of the retried closure decides. -/
theorem workerJob_after_read (sw : StorageWorld) (trace : List StorageEvent) (job : Jobs)
    (data : List UInt8) (hopen : sw.Open trace job.filePath = none)
    (hsize : 0 ≤ job.uploadPartInfo.Size)
    (hread : sw.ReadAt (trace ++ [.Open job.filePath]) job.filePath job.uploadPartInfo.Size
      job.uploadPartInfo.OffSet = (data, none))
    (st : PutState)
    (hst : (retryDo (fun _ => true) (putAttempt sw job data) 3
      { trace := readTrace trace job } none).2 = st) :
    workerJob sw trace job
      = match st.err with
        | some err => (.failure (putFailure sw job err st.statusCode st.logid), st.trace)
        | none => (.result st.resp, st.trace) := by
  unfold workerJob
  simp only [hopen]
  rw [if_neg (by omega)]
  simp only [hread]
  unfold readTrace at hst
  rw [hst]
  cases herr : st.err with
  | none => rfl
  | some err =>
    cases err with
    | UploadError c ec m => rfl
    | errorString m => rfl

/-- C24: once the file is open and the part read, the worker calls `uploadPart`
for the part at most three times. A first, second or third attempt without
error ends the attempts and its response goes to `results`; after a failed
attempt, whatever the error is, the next attempt is made; when the third
attempt fails too, the worker records a failure for the part number of the job
that carries the text, status code and log id of the third error (and the
codes and message of an `UploadError`). -/
theorem worker_put_three_attempts (sw : StorageWorld) (trace : List StorageEvent) (job : Jobs)
    (data : List UInt8) (hopen : sw.Open trace job.filePath = none)
    (hsize : 0 ≤ job.uploadPartInfo.Size)
    (hread : sw.ReadAt (trace ++ [.Open job.filePath]) job.filePath job.uploadPartInfo.Size
      job.uploadPartInfo.OffSet = (data, none)) :
    ((putAnswer sw (readTrace trace job) job data).2.2.2 = none →
      workerJob sw trace job
        = (.result (putAnswer sw (readTrace trace job) job data).1,
            readTrace trace job ++ [putEvent job data])) ∧
    (∀ e1, (putAnswer sw (readTrace trace job) job data).2.2.2 = some e1 →
      (putAnswer sw (readTrace trace job ++ [putEvent job data]) job data).2.2.2 = none →
      workerJob sw trace job
        = (.result (putAnswer sw (readTrace trace job ++ [putEvent job data]) job data).1,
            readTrace trace job ++ [putEvent job data] ++ [putEvent job data])) ∧
    (∀ e1 e2, (putAnswer sw (readTrace trace job) job data).2.2.2 = some e1 →
      (putAnswer sw (readTrace trace job ++ [putEvent job data]) job data).2.2.2 = some e2 →
      (putAnswer sw (readTrace trace job ++ [putEvent job data] ++ [putEvent job data])
        job data).2.2.2 = none →
      workerJob sw trace job
        = (.result (putAnswer sw (readTrace trace job ++ [putEvent job data] ++ [putEvent job data])
              job data).1,
            readTrace trace job ++ [putEvent job data] ++ [putEvent job data]
              ++ [putEvent job data])) ∧
    (∀ e1 e2 e3, (putAnswer sw (readTrace trace job) job data).2.2.2 = some e1 →
      (putAnswer sw (readTrace trace job ++ [putEvent job data]) job data).2.2.2 = some e2 →
      (putAnswer sw (readTrace trace job ++ [putEvent job data] ++ [putEvent job data])
        job data).2.2.2 = some e3 →
      workerJob sw trace job
        = (.failure (putFailure sw job e3
              (putAnswer sw (readTrace trace job ++ [putEvent job data] ++ [putEvent job data])
                job data).2.2.1
              (putAnswer sw (readTrace trace job ++ [putEvent job data] ++ [putEvent job data])
                job data).2.1),
            readTrace trace job ++ [putEvent job data] ++ [putEvent job data]
              ++ [putEvent job data])) := by
  refine ⟨?_, ?_, ?_, ?_⟩
  · intro h1
    rw [workerJob_after_read sw trace job data hopen hsize hread _ rfl,
      retryDo_ok _ _ _ _ _ (by rw [putAttempt_fst]; simp only [h1]), putAttempt_snd]
    simp only [h1]
  · intro e1 h1 h2
    rw [workerJob_after_read sw trace job data hopen hsize hread _ rfl,
      retryDo_retry _ _ _ _ _ e1 (by rw [putAttempt_fst]; simp only [h1]) rfl,
      retryDo_ok _ _ _ _ _ (by rw [putAttempt_fst, putAttempt_snd]; simp only [h2]),
      putAttempt_snd, putAttempt_snd]
    simp only [h2]
  · intro e1 e2 h1 h2 h3
    rw [workerJob_after_read sw trace job data hopen hsize hread _ rfl,
      retryDo_retry _ _ _ _ _ e1 (by rw [putAttempt_fst]; simp only [h1]) rfl,
      retryDo_retry _ _ _ _ _ e2 (by rw [putAttempt_fst, putAttempt_snd]; simp only [h2]) rfl,
      retryDo_ok _ _ _ _ _
        (by rw [putAttempt_fst, putAttempt_snd, putAttempt_snd]; simp only [h3]),
      putAttempt_snd, putAttempt_snd, putAttempt_snd]
    simp only [h3]
  · intro e1 e2 e3 h1 h2 h3
    rw [workerJob_after_read sw trace job data hopen hsize hread _ rfl,
      retryDo_retry _ _ _ _ _ e1 (by rw [putAttempt_fst]; simp only [h1]) rfl,
      retryDo_retry _ _ _ _ _ e2 (by rw [putAttempt_fst, putAttempt_snd]; simp only [h2]) rfl,
      retryDo_retry _ _ _ _ _ e3
        (by rw [putAttempt_fst, putAttempt_snd, putAttempt_snd]; simp only [h3]) rfl]
    simp only [retryDo, putAttempt_snd, h3]

theorem worker_put_three_attempts_witness :
    workerJob
        (exampleStorage none none
          (fun k => if k < 2 then some (.UploadError 400 4001 "bad request") else none))
        [] { filePath := "f", uploadPartInfo := ⟨1, 0, 4⟩, uploadPartCommon := { TosHost := "h1" },
             uploadId := "upload-1", storageClass := 0 }
      = (.result (some { PartNumber := 1, CheckSum := "crc" }),
          [.Open "f", .ReadAt "f" 4 0,
            .uploadPart { TosHost := "h1" } "upload-1" 1 [0, 0, 0, 0] 0,
            .uploadPart { TosHost := "h1" } "upload-1" 1 [0, 0, 0, 0] 0,
            .uploadPart { TosHost := "h1" } "upload-1" 1 [0, 0, 0, 0] 0]) :=
  (worker_put_three_attempts
    (exampleStorage none none
      (fun k => if k < 2 then some (.UploadError 400 4001 "bad request") else none))
    [] { filePath := "f", uploadPartInfo := ⟨1, 0, 4⟩, uploadPartCommon := { TosHost := "h1" },
         uploadId := "upload-1", storageClass := 0 }
    [0, 0, 0, 0] rfl (by decide) rfl).2.2.1
    (.UploadError 400 4001 "bad request") (.UploadError 400 4001 "bad request") rfl rfl rfl

/-- C22 (evaluation at the failing inputs): for an 8-byte file in two parts and
one worker, a failure to open the file, a failure to read the part and a
transport error on all three attempts each make `chunkUpload` panic on the
`nil` error it dereferences, after the worker phase and without a merge
request; only a service error is returned as a value. -/
theorem chunkUpload_panics_on_recorded_failure :
    chunkUpload
        (oneWorkerWorld (exampleStorage (some (.errorString "no such file")) none (fun _ => none)))
        [] "f" { FileSize := 8, ChunkSize := 4, ParallelNum := 1 }
      = (.panic "runtime error: invalid memory address or nil pointer dereference",
          [.initUploadPartV2 { FileSize := 8, ChunkSize := 4, ParallelNum := 1 },
            .workers "upload-1" 1 [⟨1, 0, 4⟩, ⟨2, 4, 4⟩]]) ∧
    chunkUpload
        (oneWorkerWorld (exampleStorage none (some (.errorString "EOF")) (fun _ => none)))
        [] "f" { FileSize := 8, ChunkSize := 4, ParallelNum := 1 }
      = (.panic "runtime error: invalid memory address or nil pointer dereference",
          [.initUploadPartV2 { FileSize := 8, ChunkSize := 4, ParallelNum := 1 },
            .workers "upload-1" 1 [⟨1, 0, 4⟩, ⟨2, 4, 4⟩]]) ∧
    chunkUpload
        (oneWorkerWorld (exampleStorage none none (fun _ => some (.errorString "connection reset"))))
        [] "f" { FileSize := 8, ChunkSize := 4, ParallelNum := 1 }
      = (.panic "runtime error: invalid memory address or nil pointer dereference",
          [.initUploadPartV2 { FileSize := 8, ChunkSize := 4, ParallelNum := 1 },
            .workers "upload-1" 1 [⟨1, 0, 4⟩, ⟨2, 4, 4⟩]]) ∧
    chunkUpload
        (oneWorkerWorld (exampleStorage none none (fun _ => some (.UploadError 403 4001 "denied"))))
        [] "f" { FileSize := 8, ChunkSize := 4, ParallelNum := 1 }
      = (.ret (some (.UploadError 403 4001 "denied")),
          [.initUploadPartV2 { FileSize := 8, ChunkSize := 4, ParallelNum := 1 },
            .workers "upload-1" 1 [⟨1, 0, 4⟩, ⟨2, 4, 4⟩]]) ∧
    worker (exampleStorage (some (.errorString "no such file")) none (fun _ => none))
        (pushJobs "f" { FileSize := 8, ChunkSize := 4, ParallelNum := 1 } "upload-1"
          [⟨1, 0, 4⟩, ⟨2, 4, 4⟩]) {}
      = .ret
          { errChan :=
              [{ Success := -1,
                 Error := { Code := -1, Error := "no such file", Message := "open file failed" },
                 PartNumber := 1 }],
            quit := -1, trace := [.Open "f"] } := by
  decide

/-- C25 (evaluation at the failing input): a `ParallelNum` of 0 becomes 1 and
one worker is started, but a `ParallelNum` of -1 is left as it is, no worker
is started for it, and `chunkUpload` panics when it sets up the wait group, so
that `Upload` panics. -/
theorem negative_parallelNum_panics :
    (defaultParallelNum { Size := 8, ChunkSize := 4, ParallelNum := 0 }).ParallelNum = 1 ∧
    workersStarted 1 = 1 ∧
    (defaultParallelNum { Size := 8, ChunkSize := 4, ParallelNum := -1 }).ParallelNum = -1 ∧
    workersStarted (-1) = 0 ∧
    chunkUpload (oneWorkerWorld (exampleStorage none none (fun _ => none))) [] "f"
        { FileSize := 8, ChunkSize := 4, ParallelNum := -1 }
      = (.panic "sync: negative WaitGroup counter",
          [.initUploadPartV2 { FileSize := 8, ChunkSize := 4, ParallelNum := -1 }]) ∧
    (Upload (withChunkUpload (oneWorkerWorld (exampleStorage none none (fun _ => none))))
        { Size := 8, ChunkSize := 4, ParallelNum := -1 }).ret
      = .panic "sync: negative WaitGroup counter" ∧
    (Upload (withChunkUpload (oneWorkerWorld (exampleStorage none none (fun _ => none))))
        { Size := 8, ChunkSize := 4, ParallelNum := 0 }).ret
      = .ret ("oid1", "sk1", none, 200) := by
  decide

/-! ## Error response, planner domain and host choice -/

/-- C23: when the inner `Upload` returns the error `e` with request id `logId`
and status `code`, `UploadMediaInner` returns a non-nil response whose metadata
carries `RequestId = logId`, `Service = "vod"` and the text of `e` as error
message, together with `code` and `e`, and sends no commit request. -/
theorem UploadMediaInner_error_response (w : World) (errorText : GoError → String)
    (CommitUploadInfo : List Event → VodCommitUploadInfoRequest →
      Option VodCommitUploadInfoResponse × Int × Option GoError)
    (r : VodUploadMediaInnerFuncRequest) (logId sessionKey : String) (e : GoError) (code : Int)
    (h : (Upload w (uploadRequestOf r)).ret = .ret (logId, sessionKey, some e, code)) :
    (UploadMediaInner w errorText CommitUploadInfo r).ret
      = .ret (some
          { ResponseMetadata :=
              some { RequestId := logId, Service := "vod",
                     Error := some { Message := errorText e } } },
          code, some e) ∧
    (UploadMediaInner w errorText CommitUploadInfo r).commits = [] := by
  unfold UploadMediaInner
  simp only [h]
  exact ⟨rfl, trivial⟩

theorem UploadMediaInner_error_response_witness :
    (UploadMediaInner
        (exampleWorld [exampleAddress "h1" "oid1" "sk1"] (fun _ => some (.errorString "reset")))
        messageOf (fun _ _ => (none, 200, none)) { Size := 3 }).ret
      = .ret (some
          { ResponseMetadata :=
              some { RequestId := "req-1", Service := "vod",
                     Error := some { Message := "upload failed" } } },
          400, some (.errorString "upload failed")) ∧
    (UploadMediaInner
        (exampleWorld [exampleAddress "h1" "oid1" "sk1"] (fun _ => some (.errorString "reset")))
        messageOf (fun _ _ => (none, 200, none)) { Size := 3 }).commits = [] :=
  UploadMediaInner_error_response
    (exampleWorld [exampleAddress "h1" "oid1" "sk1"] (fun _ => some (.errorString "reset")))
    messageOf (fun _ _ => (none, 200, none)) { Size := 3 } "req-1" ""
    (.errorString "upload failed") 400 (by decide)

theorem raiseChunkSize_ge (w : World) (req : VodUploadFuncRequest) :
    w.MinChunckSize ≤ (raiseChunkSize w req).ChunkSize := by
  unfold raiseChunkSize
  split_ifs with h
  · exact le_refl _
  · omega

/-- C26: with a positive minimum chunk size, every `chunkUpload` call that
`Upload` makes carries `FileSize ≥ ChunkSize ≥ MinChunckSize > 0`, and for such
arguments `calculateUploadParts` returns without a panic: either the error
`parts over 10000`, or a plan of `totalNum ≥ 1` parts whose slice has
`totalNum` elements, so that index `totalNum - 1` is in range. -/
theorem upload_calls_planner_in_domain (w : World) (req : VodUploadFuncRequest)
    (hmin : 0 < w.MinChunckSize) (hint : isInt64 req.Size) :
    ∀ filePath param, Event.chunkUpload filePath param ∈ (Upload w req).trace →
      0 < param.ChunkSize ∧ w.MinChunckSize ≤ param.ChunkSize ∧
      param.ChunkSize ≤ param.FileSize ∧ param.FileSize = req.Size ∧
      (calculateUploadParts param.FileSize param.ChunkSize
          = .ret (0, [], some (.errorString "parts over 10000")) ∨
        ∃ totalNum parts,
          calculateUploadParts param.FileSize param.ChunkSize = .ret (totalNum, parts, none) ∧
          1 ≤ totalNum ∧ (parts.length : Int) = totalNum) := by
  intro filePath param hmem
  by_cases hsize : req.Size = 0
  · unfold Upload at hmem
    rw [if_pos hsize] at hmem
    simp at hmem
  · obtain ⟨ext, htr, hok, _⟩ := Upload_shape w req hsize
    rw [htr] at hmem
    rcases List.mem_cons.mp hmem with h | h
    · cases h
    · have hs := hok _ h
      simp only [strategyOk] at hs
      obtain ⟨hge, hfs, hcs⟩ := hs
      have hraise := raiseChunkSize_ge w req
      have hcpos : 0 < param.ChunkSize := by omega
      have hle : param.ChunkSize ≤ param.FileSize := by omega
      refine ⟨hcpos, by omega, hle, hfs, ?_⟩
      have hintp : isInt64 param.FileSize := by rw [hfs]; exact hint
      by_cases hn : param.FileSize / param.ChunkSize ≤ 10000
      · right
        have hplan := calculateUploadParts_eq param.FileSize param.ChunkSize hintp hcpos hle hn
        have hlen := calculateUploadParts_length _ _ _ _ hplan
        have hq : 1 ≤ param.FileSize / param.ChunkSize :=
          (Int.le_ediv_iff_mul_le hcpos).mpr (by omega)
        refine ⟨_, _, hplan, hq, ?_⟩
        rw [hlen]
        omega
      · left
        have hs0 : 0 ≤ param.FileSize := by omega
        have hq : Int.tdiv param.FileSize param.ChunkSize = param.FileSize / param.ChunkSize :=
          Int.tdiv_eq_ediv hs0 hcpos.le
        have hqle : param.FileSize / param.ChunkSize ≤ param.FileSize := Int.ediv_le_self _ hs0
        have hwq : wrap64 (param.FileSize / param.ChunkSize) = param.FileSize / param.ChunkSize :=
          wrap64_of_isInt64
            ⟨by linarith [show (-(2:Int)^63) ≤ 0 by norm_num], by linarith [hintp.2]⟩
        unfold calculateUploadParts
        simp only [hq, hwq]
        rw [if_neg (ne_of_gt hcpos), if_pos (by omega)]

theorem upload_calls_planner_in_domain_witness :
    0 < (4 : Int) ∧ (4 : Int) ≤ 4 ∧ (4 : Int) ≤ 9 ∧ (9 : Int) = 9 ∧
    (calculateUploadParts 9 4 = .ret (0, [], some (.errorString "parts over 10000")) ∨
      ∃ totalNum parts, calculateUploadParts 9 4 = .ret (totalNum, parts, none) ∧
        1 ≤ totalNum ∧ (parts.length : Int) = totalNum) :=
  upload_calls_planner_in_domain
    (exampleWorld [exampleAddress "h1" "oid1" "sk1"] (fun _ => none)) { Size := 9, ChunkSize := 1 }
    (by decide) (by decide) ""
    { TosHost := "h1", Oid := "oid1", Auth := "auth", ChunkSize := 4, FileSize := 9,
      ParallelNum := 1, RetryTimes := 1 }
    (by decide)

theorem pickUploadHost_checked (info : UploadCommonInfo)
    (h : checkUploadCommonInfo (some info) = none) :
    0 < info.Hosts.length ∧ pickUploadHost (some info) = .ret (preferredHost info, info) := by
  have hpos : 0 < info.Hosts.length := by
    unfold checkUploadCommonInfo at h
    simp only at h
    split_ifs at h with hc
    push_neg at hc
    omega
  refine ⟨hpos, ?_⟩
  unfold pickUploadHost preferredHost
  simp only [gt_iff_lt]
  by_cases hp : 0 < info.PreferredHostIndex ∧ info.PreferredHostIndex < (info.Hosts.length : Int)
  · rw [if_pos hp, if_pos hp, if_pos ⟨by omega, hp.2⟩]
  · rw [if_neg hp, if_neg hp, if_pos ⟨le_refl _, by omega⟩]
    rfl

/-- C27: for an upload info that passes `checkUploadCommonInfo`,
`pickUploadHost` returns without a panic and leaves the info as it was; the
host is `Hosts[PreferredHostIndex]` when `0 < PreferredHostIndex < len(Hosts)`
and `Hosts[0]` otherwise, and it is an element of `Hosts`. -/
theorem pickUploadHost_in_range (info : UploadCommonInfo)
    (h : checkUploadCommonInfo (some info) = none) :
    ∃ host, pickUploadHost (some info) = .ret (host, info) ∧ host ∈ info.Hosts ∧
      (0 < info.PreferredHostIndex ∧ info.PreferredHostIndex < (info.Hosts.length : Int) →
        info.Hosts[info.PreferredHostIndex.toNat]? = some host) ∧
      (¬ (0 < info.PreferredHostIndex ∧ info.PreferredHostIndex < (info.Hosts.length : Int)) →
        info.Hosts[0]? = some host) := by
  obtain ⟨hpos, hpick⟩ := pickUploadHost_checked info h
  refine ⟨preferredHost info, hpick, ?_, ?_, ?_⟩
  · unfold preferredHost
    split_ifs with hp
    · have hlt : info.PreferredHostIndex.toNat < info.Hosts.length := by omega
      rw [List.getD_eq_getElem _ _ hlt]
      exact List.getElem_mem _
    · rw [List.getD_eq_getElem _ _ hpos]
      exact List.getElem_mem _
  · intro hp
    have hlt : info.PreferredHostIndex.toNat < info.Hosts.length := by omega
    unfold preferredHost
    rw [if_pos hp, List.getD_eq_getElem _ _ hlt, List.getElem?_eq_getElem hlt]
  · intro hp
    unfold preferredHost
    rw [if_neg hp, List.getD_eq_getElem _ _ hpos, List.getElem?_eq_getElem hpos]

theorem pickUploadHost_in_range_witness :
    ∃ host, pickUploadHost (some exampleInfo) = .ret (host, exampleInfo) ∧
      host ∈ exampleInfo.Hosts ∧
      (0 < exampleInfo.PreferredHostIndex ∧
          exampleInfo.PreferredHostIndex < (exampleInfo.Hosts.length : Int) →
        exampleInfo.Hosts[exampleInfo.PreferredHostIndex.toNat]? = some host) ∧
      (¬ (0 < exampleInfo.PreferredHostIndex ∧
          exampleInfo.PreferredHostIndex < (exampleInfo.Hosts.length : Int)) →
        exampleInfo.Hosts[0]? = some host) :=
  pickUploadHost_in_range exampleInfo (by decide)

/-! ## Streams of unknown size -/

theorem UploadPart_data (sw : StorageWorld) (t : List StorageEvent) (info : UploadCommonInfo)
    (n : Int) (u : String) (data : List UInt8)
    (hcheck : checkUploadCommonInfo (some info) = none) (hdata : data ≠ []) :
    UploadPart sw t (some { UploadCommonInfo := some info, PartNumber := n, UploadId := u,
                            Data := data })
      = (.ret ((sw.uploadPart t (hostParam info) u n data info.StorageClass).1,
              (sw.uploadPart t (hostParam info) u n data info.StorageClass).2.2.2),
          t ++ [.uploadPart (hostParam info) u n data info.StorageClass]) := by
  unfold UploadPart
  simp only [hcheck, (pickUploadHost_checked info hcheck).2]
  rw [if_pos (by simpa using hdata)]
  rfl

theorem CompleteMultipartUpload_checked (sw : StorageWorld) (t : List StorageEvent)
    (info : UploadCommonInfo) (u : String) (list : List (Option UploadPartResponse))
    (hcheck : checkUploadCommonInfo (some info) = none) :
    CompleteMultipartUpload sw t
        (some { UploadCommonInfo := some info, UploadId := u, PartList := list })
      = (sw.uploadMergePartV2 t (storageParam info) u list,
          t ++ [.uploadMergePartV2 (storageParam info) u list]) := by
  unfold CompleteMultipartUpload
  simp only [hcheck, (pickUploadHost_checked info hcheck).2]
  rfl

theorem CreateMultipartUpload_checked (sw : StorageWorld) (t : List StorageEvent)
    (info : UploadCommonInfo) (hcheck : checkUploadCommonInfo (some info) = none) :
    CreateMultipartUpload sw t (some { UploadCommonInfo := some info })
      = (.ret (sw.initUploadPartV2 t (spaceParam info)),
          t ++ [.initUploadPartV2 (spaceParam info)]) := by
  unfold CreateMultipartUpload
  simp only [hcheck, (pickUploadHost_checked info hcheck).2]
  rfl

theorem PutObject_data (sw : StorageWorld) (t : List StorageEvent) (info : UploadCommonInfo)
    (data : List UInt8) (hcheck : checkUploadCommonInfo (some info) = none) :
    PutObject sw t (some { UploadCommonInfo := some info, Data := data })
      = if data.length ≠ 0 then
          (.ret (sw.directUpload t data (spaceParam info)),
            t ++ [.directUpload data (spaceParam info)])
        else (.ret (some (.errorString "nil data and content")), t) := by
  unfold PutObject
  simp only [hcheck, (pickUploadHost_checked info hcheck).2]
  split_ifs <;> rfl

theorem chunkAt_zero (c : Nat) (l : List UInt8) : chunkAt c l 0 = l.take c := by
  unfold chunkAt
  simp

theorem chunkAt_succ (c : Nat) (l : List UInt8) (j : Nat) :
    chunkAt c l (j + 1) = chunkAt c (l.drop c) j := by
  unfold chunkAt
  rw [List.drop_drop]
  congr 2
  ring

theorem chunkCount_zero (c : Nat) (hc : 0 < c) : chunkCount c 0 = 0 := by
  unfold chunkCount
  apply Nat.div_eq_of_lt
  omega

theorem chunkCount_step (c n : Nat) (hc : 0 < c) (hn : 0 < n) :
    chunkCount c n = chunkCount c (n - c) + 1 := by
  unfold chunkCount
  by_cases h : c ≤ n
  · have : n + c - 1 = (n - c + c - 1) + c := by omega
    rw [this, Nat.add_div_right _ hc]
  · have h1 : n - c = 0 := by omega
    rw [h1]
    have h2 : (0 + c - 1) / c = 0 := Nat.div_eq_of_lt (by omega)
    rw [h2]
    have h3 : n + c - 1 = (n - 1) + c := by omega
    rw [h3, Nat.add_div_right _ hc, Nat.div_eq_of_lt (by omega)]

theorem chunkEvents_nil (info : UploadCommonInfo) (u : String) (c : Nat) (hc : 0 < c)
    (first : Int) : chunkEvents info u c [] first = [] := by
  unfold chunkEvents
  rw [List.length_nil, chunkCount_zero c hc]
  rfl

theorem chunkEvents_step (info : UploadCommonInfo) (u : String) (c : Nat) (hc : 0 < c)
    (rest : List UInt8) (hrest : rest ≠ []) (first : Int) :
    chunkEvents info u c rest first
      = StorageEvent.uploadPart (hostParam info) u first (rest.take c) info.StorageClass ::
          chunkEvents info u c (rest.drop c) (first + 1) := by
  unfold chunkEvents
  rw [chunkCount_step c rest.length hc (List.length_pos.mpr hrest), List.length_drop,
    List.range_succ_eq_map, List.map_cons, List.map_map]
  congr 1
  · rw [chunkAt_zero]
    simp
  · apply List.map_congr_left
    intro j _
    simp only [Function.comp_apply, chunkAt_succ]
    congr 1
    push_cast
    ring

/-- The loop of `StreamUploadContentInChunk` when every request succeeds: the
chunk in hand is sent under the current index, the rest of the stream follows
in chunks of `c` bytes under consecutive indexes, and the session is completed
with one recorded part per chunk. -/
theorem uploadChunks_ok (sw : StorageWorld) (info : UploadCommonInfo) (u : String) (c : Int)
    (hcheck : checkUploadCommonInfo (some info) = none) (hok : allRequestsSucceed sw)
    (hc : 0 < c) :
    ∀ (fuel k : Nat) (data rest : List UInt8) (partList : List (Option UploadPartResponse))
      (trace : List StorageEvent),
      data ≠ [] → rest.length < fuel → (k : Int) + 1 + (rest.length : Int) < 2 ^ 63 →
      ∃ list,
        uploadChunks sw info u c fuel ((k : Int) + 1) data (some rest) partList trace
          = (.ret none,
              trace ++ [.uploadPart (hostParam info) u ((k : Int) + 1) data info.StorageClass]
                ++ chunkEvents info u c.toNat rest ((k : Int) + 2)
                ++ [.uploadMergePartV2 (storageParam info) u list]) ∧
        list.length = partList.length + 1 + chunkCount c.toNat rest.length := by
  have hcn : 0 < c.toNat := by omega
  intro fuel
  induction fuel with
  | zero => intro k data rest partList trace _ h; omega
  | succ fuel ih =>
    intro k data rest partList trace hdata hfuel hbound
    unfold uploadChunks
    rw [UploadPart_data sw trace info _ u data hcheck hdata]
    simp only [hok.2.2.1]
    unfold readLimited
    rw [if_neg (by omega)]
    simp only
    by_cases hrest : rest = []
    · subst hrest
      simp only [List.take_nil, List.length_nil, if_true]
      rw [CompleteMultipartUpload_checked sw _ info u _ hcheck]
      simp only [hok.2.2.2]
      refine ⟨partList ++ [(sw.uploadPart trace (hostParam info) u ((k : Int) + 1) data
        info.StorageClass).1], ?_, ?_⟩
      · rw [chunkEvents_nil info u c.toNat hcn, List.append_nil]
      · rw [chunkCount_zero c.toNat hcn]
        simp
    · have hlen : 0 < rest.length := List.length_pos.mpr hrest
      have htake : (rest.take c.toNat).length ≠ 0 := by
        rw [List.length_take]
        omega
      rw [if_neg htake]
      have hw : wrap64 ((k : Int) + 1 + 1) = ((k + 1 : Nat) : Int) + 1 := by
        rw [wrap64_of_isInt64 ⟨by linarith [show (-(2:Int)^63) ≤ 0 by norm_num], by omega⟩]
        push_cast
        ring
      rw [hw]
      have hdrop : (rest.drop c.toNat).length = rest.length - c.toNat := List.length_drop _ _
      obtain ⟨list, heq, hl⟩ := ih (k + 1) (rest.take c.toNat) (rest.drop c.toNat)
        (partList ++ [(sw.uploadPart trace (hostParam info) u ((k : Int) + 1) data
          info.StorageClass).1])
        (trace ++ [.uploadPart (hostParam info) u ((k : Int) + 1) data info.StorageClass])
        (by intro h; rw [h] at htake; simp at htake) (by omega) (by push_cast; omega)
      refine ⟨list, ?_, ?_⟩
      · rw [heq, chunkEvents_step info u c.toNat hcn rest hrest]
        have h2 : ((k + 1 : Nat) : Int) + 1 = (k : Int) + 2 := by push_cast; ring
        have h3 : ((k + 1 : Nat) : Int) + 2 = (k : Int) + 2 + 1 := by push_cast; ring
        rw [h2, h3]
        simp only [List.append_assoc, List.cons_append, List.nil_append]
      · rw [hl, chunkCount_step c.toNat rest.length hcn hlen, hdrop]
        simp only [List.length_append, List.length_cons, List.length_nil]
        omega

theorem chunks_join (c : Nat) :
    ∀ (n : Nat) (l : List UInt8), l.length ≤ n * c →
      ((List.range n).map (chunkAt c l)).flatten = l := by
  intro n
  induction n with
  | zero =>
    intro l h
    have : l = [] := List.length_eq_zero.mp (by omega)
    subst this
    rfl
  | succ n ih =>
    intro l h
    rw [List.range_succ_eq_map, List.map_cons, List.map_map, List.flatten_cons, chunkAt_zero]
    have hfun : chunkAt c l ∘ Nat.succ = chunkAt c (l.drop c) := by
      funext j
      exact chunkAt_succ c l j
    rw [hfun, ih (l.drop c) (by rw [List.length_drop, Nat.succ_mul] at *; omega),
      List.take_append_drop]

theorem chunkCount_bounds (c n : Nat) (hc : 0 < c) (hn : 0 < n) :
    (chunkCount c n - 1) * c < n ∧ n ≤ chunkCount c n * c ∧ 0 < chunkCount c n := by
  have hpos : 0 < chunkCount c n := Nat.div_pos (by omega) hc
  have hdm := Nat.div_add_mod (n + c - 1) c
  have hml := Nat.mod_lt (n + c - 1) hc
  rw [Nat.mul_comm] at hdm
  unfold chunkCount at hpos ⊢
  generalize (n + c - 1) / c = q at hdm hpos ⊢
  have h3 : (q - 1) * c + c = q * c := by
    rw [← Nat.succ_mul]
    congr 1
    omega
  refine ⟨by omega, by omega, hpos⟩

theorem chunkAt_length (c : Nat) (l : List UInt8) (j : Nat) :
    (chunkAt c l j).length = min c (l.length - j * c) := by
  unfold chunkAt
  rw [List.length_take, List.length_drop]

theorem chunk_lengths (c : Nat) (l : List UInt8) (hc : 0 < c) (hl : 0 < l.length) :
    (∀ j, j + 1 < chunkCount c l.length → (chunkAt c l j).length = c) ∧
    (chunkAt c l (chunkCount c l.length - 1)).length
      = if l.length % c = 0 then c else l.length % c := by
  obtain ⟨hlow, hhigh, hpos⟩ := chunkCount_bounds c l.length hc hl
  have h3 : (chunkCount c l.length - 1) * c + c = chunkCount c l.length * c := by
    rw [← Nat.succ_mul]
    congr 1
    omega
  constructor
  · intro j hj
    rw [chunkAt_length]
    have hmul : (j + 1) * c ≤ (chunkCount c l.length - 1) * c :=
      Nat.mul_le_mul_right c (by omega)
    rw [Nat.succ_mul] at hmul
    omega
  · rw [chunkAt_length]
    generalize hd : l.length - (chunkCount c l.length - 1) * c = d
    have hL : l.length = d + (chunkCount c l.length - 1) * c := by omega
    have hdpos : 0 < d := by omega
    have hdle : d ≤ c := by omega
    rw [hL, Nat.add_mul_mod_self_right, Nat.min_eq_right hdle]
    by_cases hdc : d = c
    · rw [hdc, Nat.mod_self, if_pos rfl]
    · rw [Nat.mod_eq_of_lt (by omega), if_neg (by omega)]

/-- C28: for a stream of unknown size whose reader delivers `content` without
error, with an upload info that passes the check, chunk size `c > 0` and every
request succeeding, `StreamUploadContentInChunk`

* fails with `nil data and content`, without any call, for empty content;
* sends content shorter than `c` by one single-shot `directUpload`;
* otherwise opens a session, sends `ceil(len / c)` parts numbered 1, 2, ... in
  stream order, part `i` holding the bytes from `(i - 1) * c` on, at most `c` of
  them, and completes the session with one recorded part per chunk.

Every chunk but the last has `c` bytes, the last has `len mod c` bytes when
that is not zero (else `c`), and the chunks in order make up the content. -/
theorem stream_in_chunk_parts (sw : StorageWorld) (trace : List StorageEvent)
    (info : UploadCommonInfo) (c size : Int) (content : List UInt8)
    (hcheck : checkUploadCommonInfo (some info) = none) (hok : allRequestsSucceed sw)
    (hc : 0 < c) (hint : isInt64 (content.length : Int)) :
    (content.length = 0 →
      StreamUploadContentInChunk sw trace
          { UploadCommonInfo := some info, ChunkSize := c, Size := size, Content := some content }
        = (.ret (some (.errorString "nil data and content")), trace)) ∧
    (0 < content.length → (content.length : Int) < c →
      StreamUploadContentInChunk sw trace
          { UploadCommonInfo := some info, ChunkSize := c, Size := size, Content := some content }
        = (.ret none, trace ++ [.directUpload content (spaceParam info)])) ∧
    (c ≤ (content.length : Int) →
      ∃ list,
        StreamUploadContentInChunk sw trace
            { UploadCommonInfo := some info, ChunkSize := c, Size := size,
              Content := some content }
          = (.ret none,
              trace ++ [.initUploadPartV2 (spaceParam info)]
                ++ chunkEvents info (sw.initUploadPartV2 trace (spaceParam info)).1 c.toNat
                    content 1
                ++ [.uploadMergePartV2 (storageParam info)
                      (sw.initUploadPartV2 trace (spaceParam info)).1 list]) ∧
        list.length = chunkCount c.toNat content.length) ∧
    (0 < content.length →
      ((List.range (chunkCount c.toNat content.length)).map (chunkAt c.toNat content)).flatten
        = content ∧
      (∀ j, j + 1 < chunkCount c.toNat content.length →
        ((chunkAt c.toNat content j).length : Int) = c) ∧
      (chunkAt c.toNat content (chunkCount c.toNat content.length - 1)).length
        = if content.length % c.toNat = 0 then c.toNat else content.length % c.toNat) := by
  have hcn : 0 < c.toNat := by omega
  refine ⟨?_, ?_, ?_, ?_⟩
  · intro h0
    have hnil : content = [] := List.length_eq_zero.mp h0
    subst hnil
    unfold StreamUploadContentInChunk
    simp only [hcheck]
    unfold readLimited
    rw [if_neg (by omega)]
    simp only [List.take_nil, List.length_nil]
    rw [if_pos (by exact_mod_cast hc), PutObject_data sw trace info [] hcheck]
    simp
  · intro hpos hlt
    unfold StreamUploadContentInChunk
    simp only [hcheck]
    unfold readLimited
    rw [if_neg (by omega)]
    simp only
    have htake : content.take c.toNat = content := List.take_of_length_le (by omega)
    rw [htake, if_pos hlt, PutObject_data sw trace info content hcheck, if_pos (by omega),
      hok.1]
  · intro hge
    have hne : content ≠ [] := by
      intro h
      rw [h] at hge
      simp at hge
      omega
    have htake : ((content.take c.toNat).length : Int) = c := by
      rw [List.length_take]
      omega
    have hdata : content.take c.toNat ≠ [] := by
      intro h
      rw [h] at htake
      simp at htake
      omega
    unfold StreamUploadContentInChunk
    simp only [hcheck]
    unfold readLimited
    rw [if_neg (by omega)]
    simp only
    rw [if_neg (by omega), CreateMultipartUpload_checked sw trace info hcheck]
    have hinit := hok.2.1 trace (spaceParam info)
    rcases hi : sw.initUploadPartV2 trace (spaceParam info) with ⟨uploadId, e⟩
    rw [hi] at hinit
    simp only at hinit
    subst hinit
    simp only
    obtain ⟨list, heq, hl⟩ := uploadChunks_ok sw info uploadId c hcheck hok hc
      ((Option.getD (some content) []).length + 1) 0 (content.take c.toNat)
      (content.drop c.toNat) [] (trace ++ [.initUploadPartV2 (spaceParam info)]) hdata
      (by simp only [Option.getD_some, List.length_drop]; omega)
      (by simp only [List.length_drop]; have := hint.2; omega)
    refine ⟨list, ?_, ?_⟩
    · have h01 : ((0 : Nat) : Int) + 1 = 1 := by norm_num
      have h02 : ((0 : Nat) : Int) + 2 = 1 + 1 := by norm_num
      rw [h01, h02] at heq
      rw [heq, chunkEvents_step info uploadId c.toNat hcn content hne 1]
      simp only [List.append_assoc, List.cons_append, List.nil_append]
    · rw [hl, chunkCount_step c.toNat content.length hcn (List.length_pos.mpr hne),
        List.length_drop]
      simp
      omega
  · intro hpos
    obtain ⟨_, hhigh, _⟩ := chunkCount_bounds c.toNat content.length hcn hpos
    obtain ⟨hfront, hlast⟩ := chunk_lengths c.toNat content hcn hpos
    refine ⟨chunks_join c.toNat _ content hhigh, ?_, hlast⟩
    intro j hj
    rw [hfront j hj]
    omega

/-! ## Unknown upload mode and the flattened upload info -/

theorem exampleStorage_succeeds :
    allRequestsSucceed (exampleStorage none none (fun _ => none)) :=
  ⟨fun _ _ _ => rfl, fun _ _ => rfl, fun _ _ _ _ _ _ => rfl, fun _ _ _ _ => rfl⟩

theorem stream_in_chunk_parts_witness :
    ∃ list,
      StreamUploadContentInChunk (exampleStorage none none (fun _ => none)) []
          { UploadCommonInfo := some exampleInfo, ChunkSize := 2, Size := 0,
            Content := some [1, 2, 3, 4, 5] }
        = (.ret none,
            [] ++ [.initUploadPartV2 (spaceParam exampleInfo)]
              ++ chunkEvents exampleInfo "upload-1" 2 [1, 2, 3, 4, 5] 1
              ++ [.uploadMergePartV2 (storageParam exampleInfo) "upload-1" list]) ∧
      list.length = chunkCount 2 5 :=
  (stream_in_chunk_parts (exampleStorage none none (fun _ => none)) [] exampleInfo 2 0
    [1, 2, 3, 4, 5] (by decide) exampleStorage_succeeds (by decide) (by decide)).2.2.1 (by decide)

/-- C29: for a non-nil private-network address whose quick-complete mode is not
`enable` and whose upload mode is neither `direct` nor `part`, `vpcUpload` and
`vpcUploadStream` return `nil` with the trace unchanged (no file opened, no PUT,
no POST); and when the control plane offers such an address next to a single
address with a store info, `Upload` over the modelled `vpcUpload` returns that
URI of that store info and the session key with status 200. -/
theorem unknown_mode_reports_success (vw : VpcWorld) (trace : List VpcEvent)
    (addr : VpcTosUploadAddress) (req : VodUploadFuncRequest) (sreq : VodStreamUploadRequest)
    (hq : addr.QuickCompleteMode ≠ "enable") (hd : addr.UploadMode ≠ "direct")
    (hp : addr.UploadMode ≠ "part") :
    vpcUpload vw trace (some addr) req = (.ret none, trace) ∧
    vpcUploadStream vw trace (some addr) sreq = (.ret none, trace) ∧
    (∀ (w : World) (logId : String) (ua : UploadAddress) (si : Option StoreInfo)
        (rest : List (Option StoreInfo)),
      req.Size ≠ 0 → offersVpcAddress w req logId addr ua → ua.StoreInfos = si :: rest →
      vpcBacked w vw →
      Upload w req
        = { ret := .ret (GetStoreUri si, ua.SessionKey, none, 200),
            req := raiseChunkSize w req,
            trace := [.ApplyUploadInfo (raiseChunkSize w req),
                      .vpcUpload addr (raiseChunkSize w req)] }) := by
  have hv : ∀ (t : List VpcEvent) (q : VodUploadFuncRequest),
      vpcUpload vw t (some addr) q = (.ret none, t) := by
    intro t q
    unfold vpcUpload
    simp only
    rw [if_neg hq, if_neg hd, if_neg hp]
  refine ⟨hv trace req, ?_, ?_⟩
  · unfold vpcUploadStream
    simp only
    rw [if_neg hq, if_neg hd, if_neg hp]
  · intro w logId ua si rest hsize hoffer hsi hback
    obtain ⟨r, code, md, data, happly, hmd, hid, herr, hdata, hvpc, hua⟩ := hoffer
    have hfilter : md.Error.filter (fun e => e.Code ≠ "0") = none := by
      cases hE : md.Error with
      | none => rfl
      | some e => simp [Option.filter, herr e hE]
    have hb := hback [Event.ApplyUploadInfo (raiseChunkSize w req)] addr (raiseChunkSize w req)
    rw [hv] at hb
    unfold Upload
    rw [if_neg hsize]
    simp only [happly, hmd, hfilter, hdata, Option.bind, hvpc, hua, hb, hsi]
    rfl

theorem unknown_mode_reports_success_witness :
    Upload (exampleVpcUploadWorld { UploadMode := "multipart" }) { Size := 9 }
      = { ret := .ret ("oid1", "sk1", none, 200),
          req := { Size := 9, ChunkSize := 4 },
          trace := [.ApplyUploadInfo { Size := 9, ChunkSize := 4 },
                    .vpcUpload { UploadMode := "multipart" } { Size := 9, ChunkSize := 4 }] } :=
  (unknown_mode_reports_success (exampleVpcWorld (fun _ => {})) []
    { UploadMode := "multipart" } { Size := 9 } {} (by decide) (by decide) (by decide)).2.2
    (exampleVpcUploadWorld { UploadMode := "multipart" }) "req-1"
    { UploadHosts := ["h1"], StoreInfos := [some { StoreUri := "oid1", Auth := "auth" }],
      SessionKey := "sk1" }
    (some { StoreUri := "oid1", Auth := "auth" }) [] (by decide)
    ⟨_, 200, { RequestId := "req-1" },
      { UploadAddress := exampleAddress "h1" "oid1" "sk1",
        VpcTosUploadAddress := some { UploadMode := "multipart" } },
      rfl, rfl, rfl, (fun e h => by cases h), rfl, rfl, rfl⟩
    rfl (fun _ _ _ => rfl)

theorem BuildVodCommonUploadInfo_success (fmtPlusV : ResponseError → String)
    (resp : Option VodApplyUploadInfoResponse) (info : UploadCommonInfo)
    (h : BuildVodCommonUploadInfo fmtPlusV resp = .ret (some info, none)) :
    ∃ ua host hosts si infos ch,
      (GetData resp).bind (·.UploadAddress) = some ua ∧
      ua.UploadHosts = host :: hosts ∧ ua.StoreInfos = some si :: infos ∧
      allUploadAddress ((GetData resp).bind (·.CandidateUploadAddresses)) ≠ [] ∧
      candidateHosts (allUploadAddress ((GetData resp).bind (·.CandidateUploadAddresses)))
        = .ret ch ∧
      info = (if ch.length > 0 then
          { Hosts := ch, Oid := si.StoreUri, SessionKey := ua.SessionKey, Auth := si.Auth }
        else
          { Hosts := ua.UploadHosts, Oid := si.StoreUri, SessionKey := ua.SessionKey,
            Auth := si.Auth }) := by
  unfold BuildVodCommonUploadInfo at h
  split at h
  · cases h
  · split at h
    · split at h
      · cases h
      · simp only at h
        split at h
        · cases h
        · split_ifs at h
          · cases h
          · split at h
            · cases h
            · split at h
              · rename_i ua hua hall _ _ host hosts si infos hH hS _ ch hc
                refine ⟨ua, host, hosts, si, infos, ch, hua, hH, hS, ?_, hc, ?_⟩
                · intro h0
                  apply hall
                  rw [h0]
                  rfl
                · simp only [Outcome.ret.injEq, Prod.mk.injEq, Option.some.injEq, and_true] at h
                  exact h.symm
              · cases h
              · cases h
            · cases h
    · cases h

/-- C30: `BuildVodCommonUploadInfo` returns an upload info only for a response
that holds a single upload address with a first host and a non-nil first store
info and at least one candidate address; `Oid`, `SessionKey` and `Auth` then
come from the single address, and `Hosts` is the hosts of the candidates in
main, backup, fallback order when there is one, otherwise the hosts of the
single address. A response that passes the first checks but lacks the single
address, or has no candidate address, is the error `empty address`. -/
theorem BuildVodCommonUploadInfo_needs_both (fmtPlusV : ResponseError → String)
    (resp : Option VodApplyUploadInfoResponse) :
    (∀ info, BuildVodCommonUploadInfo fmtPlusV resp = .ret (some info, none) →
      ∃ ua host hosts si infos,
        (GetData resp).bind (·.UploadAddress) = some ua ∧
        ua.UploadHosts = host :: hosts ∧ ua.StoreInfos = some si :: infos ∧
        allUploadAddress ((GetData resp).bind (·.CandidateUploadAddresses)) ≠ [] ∧
        info.Oid = si.StoreUri ∧ info.SessionKey = ua.SessionKey ∧ info.Auth = si.Auth ∧
        info.Hosts =
          if flattenHosts (allUploadAddress ((GetData resp).bind (·.CandidateUploadAddresses)))
              ≠ [] then
            flattenHosts (allUploadAddress ((GetData resp).bind (·.CandidateUploadAddresses)))
          else ua.UploadHosts) ∧
    (∀ r md res, resp = some r → r.ResponseMetadata = some md → r.Result = some res →
      (∀ e, md.Error = some e → e.Code = "0") →
      ((GetData resp).bind (·.UploadAddress) = none ∨
        allUploadAddress ((GetData resp).bind (·.CandidateUploadAddresses)) = []) →
      BuildVodCommonUploadInfo fmtPlusV resp
        = .ret (none, some (.errorString "empty address"))) := by
  constructor
  · intro info h
    obtain ⟨ua, host, hosts, si, infos, ch, hua, hH, hS, hall, hc, hinfo⟩ :=
      BuildVodCommonUploadInfo_success fmtPlusV resp info h
    have hfl := candidateHosts_eq_flatten _ _ hc
    refine ⟨ua, host, hosts, si, infos, hua, hH, hS, hall, ?_, ?_, ?_, ?_⟩
    · rw [hinfo]; split_ifs <;> rfl
    · rw [hinfo]; split_ifs <;> rfl
    · rw [hinfo]; split_ifs <;> rfl
    · rw [hinfo, ← hfl]
      by_cases hpos : ch.length > 0
      · rw [if_pos hpos, if_pos (List.length_pos.mp hpos)]
      · have hnil : ch = [] := List.length_eq_zero.mp (by omega)
        rw [if_neg hpos, if_neg (by simp [hnil])]
  · intro r md res hr hmd hres herr hmiss
    subst hr
    have hfilter : md.Error.filter (fun e => e.Code ≠ "0") = none := by
      cases hE : md.Error with
      | none => rfl
      | some e => simp [Option.filter, herr e hE]
    unfold BuildVodCommonUploadInfo
    simp only [hmd, hres, hfilter]
    rcases hmiss with hnone | hempty
    · simp only [hnone]
    · cases hua : (GetData (some r)).bind (·.UploadAddress) with
      | none => rfl
      | some ua =>
        simp only
        rw [if_pos (by rw [hempty]; rfl)]

theorem BuildVodCommonUploadInfo_needs_both_witness :
    BuildVodCommonUploadInfo (fun e => e.Message)
        (some { ResponseMetadata := some { RequestId := "req-1" },
                Result := some
                  { Data := some { UploadAddress := exampleAddress "h1" "oid1" "sk1" } } })
      = .ret (none, some (.errorString "empty address")) :=
  (BuildVodCommonUploadInfo_needs_both (fun e => e.Message)
    (some { ResponseMetadata := some { RequestId := "req-1" },
            Result := some
              { Data := some { UploadAddress := exampleAddress "h1" "oid1" "sk1" } } })).2
    _ { RequestId := "req-1" }
    { Data := some { UploadAddress := exampleAddress "h1" "oid1" "sk1" } }
    rfl rfl rfl (fun e h => by cases h) (Or.inr rfl)

/-! ## Host failover over the calls that `Upload` makes -/

theorem defaultParallelNum_idem (req : VodUploadFuncRequest) :
    defaultParallelNum (defaultParallelNum req) = defaultParallelNum req := by
  unfold defaultParallelNum
  split_ifs <;> rfl

/-- The outcome of the closure that `Upload` retries is the outcome of the
transfer it wraps. -/
theorem attempt_fst_eq (w : World) (req : VodUploadFuncRequest) (host : String) (si : StoreInfo)
    (b : List UInt8) (i : Nat) (rc : Int) (t : List Event) :
    (attempt w (decide ((loopRequest w req).Size < (loopRequest w req).ChunkSize)) b
        (loopRequest w req).FilePath i
        (newUploadPart host si.StoreUri si.Auth (loopRequest w req)) (rc, t)).1
      = lazyUpload w req host si rc (t ++ [.Printf ((i : Int) + 1) rc]) b := by
  unfold attempt lazyUpload
  by_cases h : (loopRequest w req).Size < (loopRequest w req).ChunkSize
  · simp [h]
  · simp [h]

theorem attemptsOn_succ (host : String) (k : Nat) :
    attemptsOn host (k + 1) = attemptsOn host k ++ [(host, (k : Int) + 1)] := by
  unfold attemptsOn
  rw [List.range_succ, List.map_append]
  rfl

theorem attemptsOn_three (host : String) :
    attemptsOn host 3 = [(host, 1), (host, 2), (host, 3)] := by
  simp [attemptsOn, List.range_succ]

/-- After `j` attempts that fail with retryable errors the retry goes on with
`j` attempts fewer, the attempts made being numbered from `rc`. -/
theorem retryDo_after_failures (w : World) (d : Bool) (b : List UInt8) (f : String) (i : Nat)
    (up : UploadPartCommon) (n : Nat) :
    ∀ (j : Nat) (rc : Int) (t : List Event) (last : Option GoError),
      (∀ m : Nat, m < j → ∀ t1, retryableFailure (attempt w d b f i up (rc + (m : Int), t1)).1) →
      ∃ last1 t1,
        (j = 0 → last1 = last) ∧
        (0 < j → ∃ e, last1 = some e ∧ retryIf e = true) ∧
        transferAttempts t1
          = transferAttempts t ++ (List.range j).map (fun (m : Nat) => (up.TosHost, rc + (m : Int))) ∧
        retryDo retryIf (attempt w d b f i up) (j + n) (rc, t) last
          = retryDo retryIf (attempt w d b f i up) n (rc + (j : Int), t1) last1 := by
  intro j
  induction j with
  | zero =>
    intro rc t last _
    refine ⟨last, t, fun _ => rfl, fun h => absurd h (lt_irrefl _), by simp, ?_⟩
    simp
  | succ j ih =>
    intro rc t last hfail
    obtain ⟨e, he, hp⟩ := hfail 0 (by omega) t
    simp only [Nat.cast_zero, add_zero] at he
    have hshift : ∀ m : Nat, m < j → ∀ t1,
        retryableFailure (attempt w d b f i up (rc + 1 + (m : Int), t1)).1 := by
      intro m hm t1
      have := hfail (m + 1) (by omega) t1
      have hcast : rc + ((m + 1 : Nat) : Int) = rc + 1 + (m : Int) := by push_cast; ring
      rwa [hcast] at this
    obtain ⟨last1, t1, hzero, hlast, htr, heq⟩ := ih (rc + 1)
      (t ++ [.Printf ((i : Int) + 1) rc] ++
        [if d then Event.directUpload b { up with RetryTimes := rc }
          else Event.chunkUpload f { up with RetryTimes := rc }]) (some e) hshift
    have hn : j + 1 + n = (j + n) + 1 := by omega
    refine ⟨last1, t1, fun h => absurd h (Nat.succ_ne_zero j), ?_, ?_, ?_⟩
    · intro _
      by_cases hj : 0 < j
      · exact hlast hj
      · have hj0 : j = 0 := by omega
        exact ⟨e, hzero hj0, hp⟩
    · rw [htr, transferAttempts_step, List.range_succ_eq_map, List.map_cons, List.map_map,
        List.append_assoc]
      congr 1
      simp only [Nat.cast_zero, add_zero, List.singleton_append, List.cons.injEq, true_and]
      apply List.map_congr_left
      intro m _
      simp only [Function.comp_apply, Nat.succ_eq_add_one, Prod.mk.injEq, true_and]
      push_cast
      ring
    · rw [hn, retryDo_retry _ _ _ _ _ e he hp, attempt_snd, heq]
      have hcast : rc + 1 + (j : Int) = rc + ((j + 1 : Nat) : Int) := by push_cast; ring
      rw [hcast]

theorem attemptsOn_eq_map (host : String) (k : Nat) :
    (List.range k).map (fun (m : Nat) => (host, (1 : Int) + (m : Int))) = attemptsOn host k := by
  unfold attemptsOn
  apply List.map_congr_left
  intro m _
  rw [add_comm]

theorem attemptEvents_attempts (i : Nat) (d : Bool) (b : List UInt8) (f : String)
    (up : UploadPartCommon) :
    ∀ (k : Nat) (rc : Int),
      transferAttempts (attemptEvents i d b f up rc k)
        = (List.range k).map (fun (m : Nat) => (up.TosHost, rc + (m : Int))) := by
  intro k
  induction k with
  | zero => intro rc; rfl
  | succ k ih =>
    intro rc
    have hhead : attemptEvents i d b f up rc (k + 1)
        = ([] ++ [Event.Printf ((i : Int) + 1) rc] ++
            [if d then Event.directUpload b { up with RetryTimes := rc }
              else Event.chunkUpload f { up with RetryTimes := rc }]) ++
          attemptEvents i d b f up (rc + 1) k := by
      simp [attemptEvents]
    rw [hhead, transferAttempts_append, transferAttempts_step, ih, List.range_succ_eq_map,
      List.map_cons, List.map_map]
    simp only [transferAttempts, List.filterMap_nil, List.nil_append, Nat.cast_zero, add_zero,
      List.singleton_append, List.cons.injEq, true_and]
    apply List.map_congr_left
    intro m _
    simp only [Function.comp_apply, Nat.succ_eq_add_one, Prod.mk.injEq, true_and]
    push_cast
    ring

/-- The retry ends with the first attempt that succeeds or returns an error the
predicate rejects, the `k` attempts before it having failed with retryable
errors. -/
theorem retryDo_stops_at (w : World) (d : Bool) (b : List UInt8) (f : String) (i : Nat)
    (up : UploadPartCommon) (k n : Nat) (t : List Event) (x : Option GoError)
    (hfail : ∀ m : Nat, m < k → ∀ t1,
      retryableFailure (attempt w d b f i up ((1 : Int) + (m : Int), t1)).1)
    (hend : ∀ t1, (attempt w d b f i up ((1 : Int) + (k : Int), t1)).1 = .ret x)
    (hx : ∀ e, x = some e → retryIf e = false) :
    ∃ rc2 t2,
      retryDo retryIf (attempt w d b f i up) (k + (n + 1)) (1, t) none = (.ret x, (rc2, t2)) ∧
      transferAttempts t2 = transferAttempts t ++ attemptsOn up.TosHost (k + 1) := by
  obtain ⟨last1, t1, _, _, htr, heq⟩ :=
    retryDo_after_failures w d b f i up (n + 1) k 1 t none hfail
  rw [attemptsOn_eq_map] at htr
  refine ⟨(1 : Int) + (k : Int) + 1,
    t1 ++ [.Printf ((i : Int) + 1) ((1 : Int) + (k : Int))] ++
      [if d then Event.directUpload b { up with RetryTimes := (1 : Int) + (k : Int) }
        else Event.chunkUpload f { up with RetryTimes := (1 : Int) + (k : Int) }], ?_, ?_⟩
  · rw [heq]
    cases x with
    | none => rw [retryDo_ok _ _ _ _ _ (hend t1), attempt_snd]
    | some e => rw [retryDo_reject _ _ _ _ _ e (hend t1) (hx e rfl), attempt_snd]
  · rw [transferAttempts_step, htr, attemptsOn_succ, List.append_assoc]
    congr 3
    rw [add_comm]

/-- Three attempts that fail with retryable errors use up the retry. -/
theorem retryDo_exhausted (w : World) (d : Bool) (b : List UInt8) (f : String) (i : Nat)
    (up : UploadPartCommon) (t : List Event)
    (hfail : ∀ m : Nat, m < 3 → ∀ t1,
      retryableFailure (attempt w d b f i up ((1 : Int) + (m : Int), t1)).1) :
    ∃ e rc2 t2,
      retryDo retryIf (attempt w d b f i up) 3 (1, t) none = (.ret (some e), (rc2, t2)) ∧
      retryIf e = true ∧
      transferAttempts t2 = transferAttempts t ++ attemptsOn up.TosHost 3 := by
  obtain ⟨last1, t1, _, hlast, htr, heq⟩ :=
    retryDo_after_failures w d b f i up 0 3 1 t none hfail
  obtain ⟨e, rfl, he⟩ := hlast (by omega)
  rw [attemptsOn_eq_map] at htr
  exact ⟨e, _, t1, by rw [show (3 : Nat) = 3 + 0 from rfl, heq]; rfl, he, htr⟩

/-- When every attempt returns an error with the property `Q`, the retry
returns an error with the property `Q`. -/
theorem retryDo_errors (w : World) (d : Bool) (b : List UInt8) (f : String) (i : Nat)
    (up : UploadPartCommon) (Q : GoError → Prop) :
    ∀ (n : Nat) (rc : Int) (t : List Event) (last : Option GoError),
      (∀ m : Nat, m < n → ∀ t1,
        ∃ e, (attempt w d b f i up (rc + (m : Int), t1)).1 = .ret (some e) ∧ Q e) →
      (n = 0 → ∃ e, last = some e ∧ Q e) →
      ∃ e s1, retryDo retryIf (attempt w d b f i up) n (rc, t) last = (.ret (some e), s1) ∧ Q e := by
  intro n
  induction n with
  | zero =>
    intro rc t last _ h
    obtain ⟨e, rfl, hq⟩ := h rfl
    exact ⟨e, _, rfl, hq⟩
  | succ n ih =>
    intro rc t last hfail _
    obtain ⟨e, he, hq⟩ := hfail 0 (by omega) t
    simp only [Nat.cast_zero, add_zero] at he
    by_cases hp : retryIf e = true
    · rw [retryDo_retry _ _ _ _ _ e he hp, attempt_snd]
      apply ih (rc + 1) _ (some e)
      · intro m hm t1
        have := hfail (m + 1) (by omega) t1
        have hcast : rc + ((m + 1 : Nat) : Int) = rc + 1 + (m : Int) := by push_cast; ring
        rwa [hcast] at this
      · exact fun _ => ⟨e, rfl, hq⟩
    · rw [retryDo_reject _ _ _ _ _ e he (by simpa using hp)]
      exact ⟨e, _, rfl, hq⟩

theorem retryIf_false_cond (Code ErrorCode : Int) (Message : String)
    (h : retryIf (.UploadError Code ErrorCode Message) = false) :
    ¬ (ErrorCode ≥ 5000 ∨ (ErrorCode = 0 ∧ Code ≥ 500)) := by
  intro hcond
  have := (retryIf_eq_true_iff (.UploadError Code ErrorCode Message)).mpr ⟨_, _, _, rfl, hcond⟩
  rw [h] at this
  cases this

theorem retryIf_true_cond (Code ErrorCode : Int) (Message : String)
    (h : retryIf (.UploadError Code ErrorCode Message) = true) :
    ErrorCode ≥ 5000 ∨ (ErrorCode = 0 ∧ Code ≥ 500) := by
  obtain ⟨c, ec, m, heq, hcond⟩ := (retryIf_eq_true_iff _).mp h
  cases heq
  exact hcond

/-- The attempts of the retried closure, read as calls of `lazyUpload`. -/
theorem attempt_ends (w : World) (req : VodUploadFuncRequest) (host : String) (si : StoreInfo)
    (b : List UInt8) (i : Nat) (P : Outcome (Option GoError) → Prop) (lo hi : Nat)
    (h : ∀ rc : Int, (lo : Int) ≤ rc → rc ≤ (hi : Int) →
      ∀ t b1, P (lazyUpload w req host si rc t b1)) :
    ∀ m : Nat, lo ≤ 1 + m → m < hi → ∀ t1,
      P (attempt w (decide ((loopRequest w req).Size < (loopRequest w req).ChunkSize)) b
          (loopRequest w req).FilePath i
          (newUploadPart host si.StoreUri si.Auth (loopRequest w req))
          ((1 : Int) + (m : Int), t1)).1 := by
  intro m hlo hm t1
  rw [attempt_fst_eq]
  exact h _ (by omega) (by omega) _ _

/-- Three retryable failures on a candidate let the loop continue after three
attempts. -/
theorem transferWithRetry_exhausted (w : World) (req : VodUploadFuncRequest) (logId : String)
    (i : Nat) (oid sessionKey : String) (host : String) (si : StoreInfo) (b : List UInt8)
    (t1 : List Event)
    (hf : ∀ rc : Int, 1 ≤ rc → rc ≤ 3 → ∀ t b1, retryableFailure (lazyUpload w req host si rc t b1)) :
    ∃ t2,
      transferWithRetry w logId i (decide ((loopRequest w req).Size < (loopRequest w req).ChunkSize))
          oid sessionKey (newUploadPart host si.StoreUri si.Auth (loopRequest w req))
          (loopRequest w req) b t1
        = .next { req := loopRequest w req, bts := b, trace := t2 } ∧
      transferAttempts t2 = transferAttempts t1 ++ attemptsOn host 3 := by
  obtain ⟨e, rc2, t2, hret, he, htr⟩ := retryDo_exhausted w _ b (loopRequest w req).FilePath i
    (newUploadPart host si.StoreUri si.Auth (loopRequest w req)) t1
    (fun m hm => attempt_ends w req host si b i retryableFailure 1 3
      (fun rc h1 h3 => hf rc (by exact_mod_cast h1) (by exact_mod_cast h3)) m (by omega) hm)
  refine ⟨t2, ?_, htr⟩
  unfold transferWithRetry
  rw [hret]
  cases e with
  | UploadError c ec m =>
    have hcond := retryIf_true_cond c ec m he
    simp only [hcond, not_true_eq_false, if_false]
  | errorString m => cases he

/-- The transfer with retry ends at attempt `k + 1` when that attempt succeeds
or returns an error the predicate rejects, the attempts before it having
failed with retryable errors. -/
theorem transferWithRetry_stops_at (w : World) (req : VodUploadFuncRequest) (logId : String)
    (i : Nat) (oid sessionKey : String) (host : String) (si : StoreInfo) (b : List UInt8)
    (t1 : List Event) (k : Nat) (x : Option GoError) (hk : k ≤ 2)
    (hf : ∀ rc : Int, 1 ≤ rc → rc ≤ (k : Int) →
      ∀ t b1, retryableFailure (lazyUpload w req host si rc t b1))
    (hend : ∀ t b1, lazyUpload w req host si ((k : Int) + 1) t b1 = .ret x)
    (hx : ∀ e, x = some e → retryIf e = false) :
    ∃ t2, transferAttempts t2 = transferAttempts t1 ++ attemptsOn host (k + 1) ∧
      (x = none →
        transferWithRetry w logId i
            (decide ((loopRequest w req).Size < (loopRequest w req).ChunkSize))
            oid sessionKey (newUploadPart host si.StoreUri si.Auth (loopRequest w req))
            (loopRequest w req) b t1
          = .done { ret := .ret (oid, sessionKey, none, 200), req := loopRequest w req,
                    trace := t2 }) ∧
      (∀ Code ErrorCode Message, x = some (.UploadError Code ErrorCode Message) →
        transferWithRetry w logId i
            (decide ((loopRequest w req).Size < (loopRequest w req).ChunkSize))
            oid sessionKey (newUploadPart host si.StoreUri si.Auth (loopRequest w req))
            (loopRequest w req) b t1
          = .done { ret := .ret (logId, "", some (.UploadError Code ErrorCode Message), 400),
                    req := loopRequest w req, trace := t2 }) ∧
      (∀ msg, x = some (.errorString msg) →
        transferWithRetry w logId i
            (decide ((loopRequest w req).Size < (loopRequest w req).ChunkSize))
            oid sessionKey (newUploadPart host si.StoreUri si.Auth (loopRequest w req))
            (loopRequest w req) b t1
          = .next { req := loopRequest w req, bts := b, trace := t2 }) := by
  obtain ⟨n, hn⟩ : ∃ n, 3 = k + (n + 1) := ⟨2 - k, by omega⟩
  obtain ⟨rc2, t2, hret, htr⟩ := retryDo_stops_at w _ b (loopRequest w req).FilePath i
    (newUploadPart host si.StoreUri si.Auth (loopRequest w req)) k n t1 x
    (fun m hm => attempt_ends w req host si b i retryableFailure 1 k
      (fun rc h1 h3 => hf rc (by exact_mod_cast h1) h3) m (by omega) hm)
    (fun t => by
      rw [attempt_fst_eq, add_comm]
      exact hend _ _)
    hx
  refine ⟨t2, htr, ?_, ?_, ?_⟩
  · intro h
    subst h
    unfold transferWithRetry
    rw [hn, hret]
  · intro c ec m h
    subst h
    have hcond := retryIf_false_cond c ec m (hx _ rfl)
    unfold transferWithRetry
    rw [hn, hret]
    simp only [hcond, not_false_eq_true, if_true]
  · intro msg h
    subst h
    unfold transferWithRetry
    rw [hn, hret]

/-- When every attempt on a candidate fails, the iteration ends with an error
or the loop continues. -/
theorem transferWithRetry_failure (w : World) (req : VodUploadFuncRequest) (logId : String)
    (i : Nat) (oid sessionKey : String) (host : String) (si : StoreInfo) (b : List UInt8)
    (t1 : List Event)
    (hf : ∀ rc : Int, 1 ≤ rc → rc ≤ 3 → ∀ t b1, transferFailure (lazyUpload w req host si rc t b1)) :
    (∃ t2,
      transferWithRetry w logId i (decide ((loopRequest w req).Size < (loopRequest w req).ChunkSize))
          oid sessionKey (newUploadPart host si.StoreUri si.Auth (loopRequest w req))
          (loopRequest w req) b t1
        = .next { req := loopRequest w req, bts := b, trace := t2 }) ∨
    (∃ r o s e c,
      transferWithRetry w logId i (decide ((loopRequest w req).Size < (loopRequest w req).ChunkSize))
          oid sessionKey (newUploadPart host si.StoreUri si.Auth (loopRequest w req))
          (loopRequest w req) b t1
        = .done r ∧ r.ret = .ret (o, s, some e, c)) := by
  obtain ⟨e, s1, hret, _⟩ := retryDo_errors w
    (decide ((loopRequest w req).Size < (loopRequest w req).ChunkSize)) b
    (loopRequest w req).FilePath i
    (newUploadPart host si.StoreUri si.Auth (loopRequest w req)) (fun _ => True) 3 1 t1 none
    (fun m hm t => by
      obtain ⟨e, he⟩ := attempt_ends w req host si b i transferFailure 1 3
        (fun rc h1 h3 => hf rc (by exact_mod_cast h1) (by exact_mod_cast h3)) m (by omega) hm t
      exact ⟨e, he, trivial⟩)
    (by omega)
  unfold transferWithRetry
  rw [hret]
  cases e with
  | UploadError c ec m =>
    simp only
    split_ifs
    · exact Or.inl ⟨_, rfl⟩
    · exact Or.inr ⟨_, _, _, _, _, rfl, rfl⟩
  | errorString m => exact Or.inl ⟨_, rfl⟩

/-- When every attempt on a candidate fails with an error that lets the loop
go on, the loop continues after one to three attempts, numbered from 1. -/
theorem transferWithRetry_continuing (w : World) (req : VodUploadFuncRequest) (logId : String)
    (i : Nat) (oid sessionKey : String) (host : String) (si : StoreInfo) (b : List UInt8)
    (t1 : List Event)
    (hf : ∀ rc : Int, 1 ≤ rc → rc ≤ 3 →
      ∀ t b1, continuingFailure (lazyUpload w req host si rc t b1)) :
    ∃ t2 j, 1 ≤ j ∧ j ≤ 3 ∧
      transferWithRetry w logId i (decide ((loopRequest w req).Size < (loopRequest w req).ChunkSize))
          oid sessionKey (newUploadPart host si.StoreUri si.Auth (loopRequest w req))
          (loopRequest w req) b t1
        = .next { req := loopRequest w req, bts := b, trace := t2 } ∧
      transferAttempts t2 = transferAttempts t1 ++ attemptsOn host j := by
  obtain ⟨e, s1, hret, hq⟩ := retryDo_errors w
    (decide ((loopRequest w req).Size < (loopRequest w req).ChunkSize)) b
    (loopRequest w req).FilePath i
    (newUploadPart host si.StoreUri si.Auth (loopRequest w req))
    (fun e => retryIf e = true ∨ ∃ msg, e = .errorString msg) 3 1 t1 none
    (fun m hm t => attempt_ends w req host si b i continuingFailure 1 3
        (fun rc h1 h3 => hf rc (by exact_mod_cast h1) (by exact_mod_cast h3)) m (by omega) hm t)
    (by omega)
  obtain ⟨j, hj3, hj1, hshape⟩ := retryDo_attempt_shape w retryIf
    (decide ((loopRequest w req).Size < (loopRequest w req).ChunkSize)) b
    (loopRequest w req).FilePath i
    (newUploadPart host si.StoreUri si.Auth (loopRequest w req)) 3 1 t1 none
  rw [hret] at hshape
  refine ⟨s1.2, j, hj1 (by omega), hj3, ?_, ?_⟩
  · unfold transferWithRetry
    rw [hret]
    cases e with
    | UploadError c ec m =>
      rcases hq with hq | ⟨msg, hmsg⟩
      · have hcond := retryIf_true_cond c ec m hq
        simp only [hcond, not_true_eq_false, if_false]
      · cases hmsg
    | errorString m => rfl
  · simp only at hshape
    rw [hshape, transferAttempts_append, attemptEvents_attempts, attemptsOn_eq_map]
    rfl

theorem loopRequest_inv (w : World) (req : VodUploadFuncRequest) :
    defaultParallelNum (loopRequest w req) = loopRequest w req := by
  unfold loopRequest
  exact defaultParallelNum_idem _

theorem threeAttemptsEach_cons (a : Option UploadAddress) (rest : List (Option UploadAddress)) :
    threeAttemptsEach (a :: rest) = threeAttemptsEach [a] ++ threeAttemptsEach rest := by
  simp [threeAttemptsEach]

theorem threeAttemptsEach_one (a : Option UploadAddress) (host : String) (si : StoreInfo)
    (hu : usableAs a host si) : threeAttemptsEach [a] = attemptsOn host 3 := by
  rw [threeAttemptsEach_usable a host si [] hu, attemptsOn_three]
  rfl

theorem attemptsOn_sublist (host : String) (j : Nat) (hj : j ≤ 3) :
    (attemptsOn host j).Sublist (attemptsOn host 3) := by
  unfold attemptsOn
  exact List.Sublist.map _ (List.range_sublist.mpr hj)

theorem attemptsOn_first (host : String) (j : Nat) (hj : 1 ≤ j) : (host, (1 : Int)) ∈ attemptsOn host j := by
  unfold attemptsOn
  exact List.mem_map.mpr ⟨0, List.mem_range.mpr (by omega), by simp⟩

/-- A candidate that does not pass the guard of the loop is skipped. -/
theorem uploadToAddress_skip (w : World) (logId : String) (i : Nat) (a : Option UploadAddress)
    (st : LoopState) (h : ∀ host si, ¬ usableAs a host si) :
    uploadToAddress w logId i a st = .next st ∧ threeAttemptsEach [a] = [] := by
  rcases hH : GetUploadHosts a with _ | ⟨host, hosts⟩
  · exact ⟨by simp [uploadToAddress, hH], by simp [threeAttemptsEach, hH]⟩
  · rcases hS : GetStoreInfos a with _ | ⟨_ | si, infos⟩
    · exact ⟨by simp [uploadToAddress, hH, hS], by simp [threeAttemptsEach, hH, hS]⟩
    · exact ⟨by simp [uploadToAddress, hH, hS], by simp [threeAttemptsEach, hH, hS]⟩
    · exact absurd ⟨hosts, infos, hH, hS⟩ (h host si)

theorem usable_or_not (a : Option UploadAddress) :
    (∃ host si, usableAs a host si) ∨ (∀ host si, ¬ usableAs a host si) := by
  by_cases h : ∃ host si, usableAs a host si
  · exact Or.inl h
  · right
    intro host si hu
    exact h ⟨host, si, hu⟩

/-- One iteration on a usable candidate: the payload cannot be read, or the
transfer is made under retry with the request of the loop. -/
theorem uploadToAddress_cases (w : World) (req : VodUploadFuncRequest) (logId : String) (i : Nat)
    (a : Option UploadAddress) (st : LoopState) (host : String) (si : StoreInfo)
    (hinv : defaultParallelNum st.req = loopRequest w req) (hu : usableAs a host si) :
    (∃ err t1, uploadToAddress w logId i a st
        = .done { ret := .ret (logId, "", some err, 400), req := loopRequest w req, trace := t1 }) ∨
    (∃ b t1, transferAttempts t1 = transferAttempts st.trace ∧
      uploadToAddress w logId i a st =
        transferWithRetry w logId i
          (decide ((loopRequest w req).Size < (loopRequest w req).ChunkSize))
          si.StoreUri (GetSessionKey a)
          (newUploadPart host si.StoreUri si.Auth (loopRequest w req)) (loopRequest w req) b t1) := by
  obtain ⟨hosts, infos, hH, hS⟩ := hu
  have hshape := readPayload_shape w
    (decide ((loopRequest w req).Size < (loopRequest w req).ChunkSize)) st.bts st.trace
  unfold uploadToAddress
  simp only [hH, hS, hinv]
  rcases hr : readPayload w
    (decide ((loopRequest w req).Size < (loopRequest w req).ChunkSize))
    st.bts st.trace with ⟨b, _ | err, t1⟩
  · right
    refine ⟨b, t1, ?_, rfl⟩
    rw [hr] at hshape
    rcases hshape with h | h
    · simp only at h
      rw [h]
    · simp only at h
      rw [h, transferAttempts_append]
      simp [transferAttempts, transferOf]
  · left
    exact ⟨err, t1, rfl⟩

/-- One iteration on a usable candidate when the payload can be read. -/
theorem uploadToAddress_retry (w : World) (req : VodUploadFuncRequest) (logId : String) (i : Nat)
    (a : Option UploadAddress) (st : LoopState) (host : String) (si : StoreInfo)
    (hinv : defaultParallelNum st.req = loopRequest w req) (hu : usableAs a host si)
    (hread : ∀ t, (w.ReadAll t).2 = none) :
    ∃ b t1, transferAttempts t1 = transferAttempts st.trace ∧
      uploadToAddress w logId i a st =
        transferWithRetry w logId i
          (decide ((loopRequest w req).Size < (loopRequest w req).ChunkSize))
          si.StoreUri (GetSessionKey a)
          (newUploadPart host si.StoreUri si.Auth (loopRequest w req)) (loopRequest w req) b t1 := by
  obtain ⟨hosts, infos, hH, hS⟩ := hu
  obtain ⟨b, t1, hr, htr⟩ := readPayload_ok w
    (decide ((loopRequest w req).Size < (loopRequest w req).ChunkSize))
    st.bts st.trace hread
  refine ⟨b, t1, htr, ?_⟩
  unfold uploadToAddress
  simp only [hH, hS, hinv, hr]

/-- A candidate all of whose attempts fail with retryable errors costs three
attempts when it passes the guard, and the loop continues. -/
theorem uploadToAddress_exhausted (w : World) (req : VodUploadFuncRequest) (logId : String)
    (i : Nat) (a : Option UploadAddress) (st : LoopState)
    (hinv : defaultParallelNum st.req = loopRequest w req)
    (hread : ∀ t, (w.ReadAll t).2 = none)
    (hfail : allAttemptsEnd w req a retryableFailure) :
    ∃ st1, defaultParallelNum st1.req = loopRequest w req ∧
      uploadToAddress w logId i a st = .next st1 ∧
      transferAttempts st1.trace = transferAttempts st.trace ++ threeAttemptsEach [a] := by
  rcases usable_or_not a with ⟨host, si, hu⟩ | hno
  · obtain ⟨b, t1, htr, heq⟩ := uploadToAddress_retry w req logId i a st host si hinv hu hread
    obtain ⟨t2, hnext, htr2⟩ := transferWithRetry_exhausted w req logId i si.StoreUri
      (GetSessionKey a) host si b t1 (fun rc h1 h3 => hfail rc h1 h3 host si hu)
    exact ⟨_, loopRequest_inv w req, heq.trans hnext,
      by rw [threeAttemptsEach_one a host si hu]; simp only [htr2, htr]⟩
  · obtain ⟨h1, h2⟩ := uploadToAddress_skip w logId i a st hno
    exact ⟨st, hinv, h1, by rw [h2, List.append_nil]⟩

/-- The loop runs through a stretch of candidates all of whose attempts fail
with retryable errors, spending three attempts on each usable one. -/
theorem uploadCandidates_exhausted (w : World) (req : VodUploadFuncRequest) (logId : String)
    (pre rest : List (Option UploadAddress)) (hread : ∀ t, (w.ReadAll t).2 = none) :
    ∀ (i : Nat) (st : LoopState), defaultParallelNum st.req = loopRequest w req →
      (∀ a ∈ pre, allAttemptsEnd w req a retryableFailure) →
      ∃ st1, defaultParallelNum st1.req = loopRequest w req ∧
        uploadCandidates w logId (pre ++ rest) i st
          = uploadCandidates w logId rest (i + pre.length) st1 ∧
        transferAttempts st1.trace = transferAttempts st.trace ++ threeAttemptsEach pre := by
  induction pre with
  | nil => intro i st hinv _; exact ⟨st, hinv, rfl, by simp [threeAttemptsEach]⟩
  | cons a pre ih =>
    intro i st hinv hfail
    obtain ⟨st0, hinv0, h0, htr0⟩ := uploadToAddress_exhausted w req logId i a st hinv hread
      (hfail a (List.mem_cons_self _ _))
    obtain ⟨st1, hinv1, h1, htr1⟩ := ih (i + 1) st0 hinv0
      (fun x hx => hfail x (List.mem_cons_of_mem _ hx))
    refine ⟨st1, hinv1, ?_, ?_⟩
    · have hidx : i + (a :: pre).length = i + 1 + pre.length := by
        simp only [List.length_cons]; omega
      rw [hidx, ← h1]
      simp only [List.cons_append, uploadCandidates, h0]
      rfl
    · rw [htr1, htr0, threeAttemptsEach_cons a pre, List.append_assoc]

/-- A candidate all of whose attempts fail with errors that let the loop go on
costs one to three attempts when it passes the guard, and the loop continues. -/
theorem uploadToAddress_continuing (w : World) (req : VodUploadFuncRequest) (logId : String)
    (i : Nat) (a : Option UploadAddress) (st : LoopState)
    (hinv : defaultParallelNum st.req = loopRequest w req)
    (hread : ∀ t, (w.ReadAll t).2 = none)
    (hfail : allAttemptsEnd w req a continuingFailure) :
    ∃ st1 X, defaultParallelNum st1.req = loopRequest w req ∧
      uploadToAddress w logId i a st = .next st1 ∧
      transferAttempts st1.trace = transferAttempts st.trace ++ X ∧
      X.Sublist (threeAttemptsEach [a]) ∧
      (∀ host si, usableAs a host si → (host, (1 : Int)) ∈ X) := by
  rcases usable_or_not a with ⟨host, si, hu⟩ | hno
  · obtain ⟨b, t1, htr, heq⟩ := uploadToAddress_retry w req logId i a st host si hinv hu hread
    obtain ⟨t2, j, hj1, hj3, hnext, htr2⟩ := transferWithRetry_continuing w req logId i si.StoreUri
      (GetSessionKey a) host si b t1 (fun rc h1 h3 => hfail rc h1 h3 host si hu)
    refine ⟨_, attemptsOn host j, loopRequest_inv w req, heq.trans hnext,
      by simp only [htr2, htr], ?_, ?_⟩
    · rw [threeAttemptsEach_one a host si hu]
      exact attemptsOn_sublist host j hj3
    · intro host2 si2 hu2
      rw [usableAs_host a host host2 si si2 hu hu2]
      exact attemptsOn_first host j hj1
  · obtain ⟨h1, h2⟩ := uploadToAddress_skip w logId i a st hno
    exact ⟨st, [], hinv, h1, by rw [List.append_nil], List.nil_sublist _,
      fun host si hu => absurd hu (hno host si)⟩

/-- The loop runs through a stretch of candidates all of whose attempts fail
with errors that let it go on: each usable one is attempted, in list order,
at most three times. -/
theorem uploadCandidates_continuing (w : World) (req : VodUploadFuncRequest) (logId : String)
    (pre rest : List (Option UploadAddress)) (hread : ∀ t, (w.ReadAll t).2 = none) :
    ∀ (i : Nat) (st : LoopState), defaultParallelNum st.req = loopRequest w req →
      (∀ a ∈ pre, allAttemptsEnd w req a continuingFailure) →
      ∃ st1 X, defaultParallelNum st1.req = loopRequest w req ∧
        uploadCandidates w logId (pre ++ rest) i st
          = uploadCandidates w logId rest (i + pre.length) st1 ∧
        transferAttempts st1.trace = transferAttempts st.trace ++ X ∧
        X.Sublist (threeAttemptsEach pre) ∧
        (∀ a ∈ pre, ∀ host si, usableAs a host si → (host, (1 : Int)) ∈ X) := by
  induction pre with
  | nil =>
    intro i st hinv _
    exact ⟨st, [], hinv, rfl, by simp, List.nil_sublist _, fun a ha => absurd ha (List.not_mem_nil a)⟩
  | cons a pre ih =>
    intro i st hinv hfail
    obtain ⟨st0, X0, hinv0, h0, htr0, hsub0, hmem0⟩ :=
      uploadToAddress_continuing w req logId i a st hinv hread (hfail a (List.mem_cons_self _ _))
    obtain ⟨st1, X1, hinv1, h1, htr1, hsub1, hmem1⟩ := ih (i + 1) st0 hinv0
      (fun x hx => hfail x (List.mem_cons_of_mem _ hx))
    refine ⟨st1, X0 ++ X1, hinv1, ?_, ?_, ?_, ?_⟩
    · have hidx : i + (a :: pre).length = i + 1 + pre.length := by
        simp only [List.length_cons]; omega
      rw [hidx, ← h1]
      simp only [List.cons_append, uploadCandidates, h0]
      rfl
    · rw [htr1, htr0, List.append_assoc]
    · rw [threeAttemptsEach_cons a pre]
      exact List.Sublist.append hsub0 hsub1
    · intro x hx host si hu
      rcases List.mem_cons.mp hx with rfl | hx
      · exact List.mem_append_left _ (hmem0 host si hu)
      · exact List.mem_append_right _ (hmem1 x hx host si hu)

/-- A candidate all of whose attempts fail ends the call with an error or lets
the loop continue. -/
theorem uploadToAddress_failure (w : World) (req : VodUploadFuncRequest) (logId : String)
    (i : Nat) (a : Option UploadAddress) (st : LoopState)
    (hinv : defaultParallelNum st.req = loopRequest w req)
    (hfail : allAttemptsEnd w req a transferFailure) :
    (∃ st1, defaultParallelNum st1.req = loopRequest w req ∧
      uploadToAddress w logId i a st = .next st1) ∨
    (∃ r o s e c, uploadToAddress w logId i a st = .done r ∧ r.ret = .ret (o, s, some e, c)) := by
  rcases usable_or_not a with ⟨host, si, hu⟩ | hno
  · rcases uploadToAddress_cases w req logId i a st host si hinv hu with
      ⟨err, t1, h⟩ | ⟨b, t1, _, heq⟩
    · exact Or.inr ⟨_, _, _, _, _, h, rfl⟩
    · rcases transferWithRetry_failure w req logId i si.StoreUri (GetSessionKey a) host si b t1
        (fun rc h1 h3 => hfail rc h1 h3 host si hu) with ⟨t2, h⟩ | ⟨r, o, s, e, c, h, hr⟩
      · exact Or.inl ⟨_, loopRequest_inv w req, heq.trans h⟩
      · exact Or.inr ⟨r, o, s, e, c, heq.trans h, hr⟩
  · exact Or.inl ⟨st, hinv, (uploadToAddress_skip w logId i a st hno).1⟩

/-- While every attempt fails, the loop reaches the candidates after the
stretch or the call has ended with an error. -/
theorem uploadCandidates_failure (w : World) (req : VodUploadFuncRequest) (logId : String)
    (pre rest : List (Option UploadAddress)) :
    ∀ (i : Nat) (st : LoopState), defaultParallelNum st.req = loopRequest w req →
      (∀ a ∈ pre, allAttemptsEnd w req a transferFailure) →
      (∃ st1, defaultParallelNum st1.req = loopRequest w req ∧
        uploadCandidates w logId (pre ++ rest) i st
          = uploadCandidates w logId rest (i + pre.length) st1) ∨
      (∃ o s e c, (uploadCandidates w logId (pre ++ rest) i st).ret = .ret (o, s, some e, c)) := by
  induction pre with
  | nil => intro i st hinv _; exact Or.inl ⟨st, hinv, rfl⟩
  | cons a pre ih =>
    intro i st hinv hfail
    have hidx : i + (a :: pre).length = i + 1 + pre.length := by
      simp only [List.length_cons]; omega
    rcases uploadToAddress_failure w req logId i a st hinv (hfail a (List.mem_cons_self _ _)) with
      ⟨st1, hinv1, h1⟩ | ⟨r, o, s, e, c, h1, h2⟩
    · rcases ih (i + 1) st1 hinv1 (fun x hx => hfail x (List.mem_cons_of_mem _ hx)) with
        ⟨st2, hinv2, h3⟩ | ⟨o, s, e, c, h3⟩
      · refine Or.inl ⟨st2, hinv2, ?_⟩
        rw [hidx, ← h3]
        simp only [List.cons_append, uploadCandidates, h1]
        rfl
      · refine Or.inr ⟨o, s, e, c, ?_⟩
        rw [← h3]
        simp only [List.cons_append, uploadCandidates, h1]
        rfl
    · refine Or.inr ⟨o, s, e, c, ?_⟩
      simp only [List.cons_append, uploadCandidates, h1, h2]

/-- The iteration on a usable candidate whose attempt `k + 1` succeeds or is
rejected, after `k` retryable failures. -/
theorem uploadToAddress_stops_at (w : World) (req : VodUploadFuncRequest) (logId : String)
    (i : Nat) (a : Option UploadAddress) (st : LoopState) (host : String) (si : StoreInfo)
    (k : Nat) (x : Option GoError) (hk : k ≤ 2)
    (hinv : defaultParallelNum st.req = loopRequest w req) (hu : usableAs a host si)
    (hread : ∀ t, (w.ReadAll t).2 = none)
    (hf : ∀ rc : Int, 1 ≤ rc → rc ≤ (k : Int) → attemptEnds w req a rc retryableFailure)
    (hend : attemptEnds w req a ((k : Int) + 1) (· = .ret x))
    (hx : ∀ e, x = some e → retryIf e = false) :
    ∃ b t2, transferAttempts t2 = transferAttempts st.trace ++ attemptsOn host (k + 1) ∧
      (x = none →
        uploadToAddress w logId i a st
          = .done { ret := .ret (si.StoreUri, GetSessionKey a, none, 200),
                    req := loopRequest w req, trace := t2 }) ∧
      (∀ Code ErrorCode Message, x = some (.UploadError Code ErrorCode Message) →
        uploadToAddress w logId i a st
          = .done { ret := .ret (logId, "", some (.UploadError Code ErrorCode Message), 400),
                    req := loopRequest w req, trace := t2 }) ∧
      (∀ msg, x = some (.errorString msg) →
        uploadToAddress w logId i a st
          = .next { req := loopRequest w req, bts := b, trace := t2 }) := by
  obtain ⟨b, t1, htr, heq⟩ := uploadToAddress_retry w req logId i a st host si hinv hu hread
  obtain ⟨t2, htr2, h1, h2, h3⟩ := transferWithRetry_stops_at w req logId i si.StoreUri
    (GetSessionKey a) host si b t1 k x hk (fun rc h1 h3 => hf rc h1 h3 host si hu)
    (hend host si hu) hx
  exact ⟨b, t2, by rw [htr2, htr], fun h => heq.trans (h1 h),
    fun c ec m h => heq.trans (h2 c ec m h), fun msg h => heq.trans (h3 msg h)⟩

theorem oneWorker_example (filePath : String) (param : UploadPartCommon) (uploadID : String) :
    oneWorker (exampleStorage none none (fun _ => none)) filePath param uploadID
        [⟨1, 0, 4⟩, ⟨2, 4, 4⟩]
      = .ret { results := [some { PartNumber := 1, CheckSum := "crc" },
                           some { PartNumber := 2, CheckSum := "crc" }] } := by
  rfl

theorem failoverWorld_loopRequest (c : CandidateUploadAddresses)
    (answer : String → Int → Option GoError) :
    loopRequest (failoverWorld c answer) exampleFile
      = { FilePath := "f", Size := 8, ChunkSize := 4, ParallelNum := 1 } := by
  rfl

/-- In the example world every attempt that `Upload` makes for the example
file is a multipart transfer, which ends as the host answers the start of the
session. -/
theorem failoverWorld_lazyUpload (c : CandidateUploadAddresses)
    (answer : String → Int → Option GoError) (host : String) (si : StoreInfo) (rc : Int)
    (trace : List Event) (bts : List UInt8) :
    lazyUpload (failoverWorld c answer) exampleFile host si rc trace bts
      = .ret (answer host rc) := by
  unfold lazyUpload
  rw [failoverWorld_loopRequest]
  rw [if_neg (by decide)]
  show (chunkUpload _ trace "f" _).1 = _
  unfold chunkUpload
  have hplan : calculateUploadParts 8 4 = .ret (2, [⟨1, 0, 4⟩, ⟨2, 4, 4⟩], none) := by decide
  simp only [newUploadPart, hplan]
  cases h : answer host rc with
  | some err =>
    simp [failoverWorld, withTransfers, h]
  | none =>
    have hbody : genMergeBody [some { PartNumber := 1, CheckSum := "crc" },
        some { PartNumber := 2, CheckSum := "crc" }] = .ret ("1:crc,2:crc", none) := by decide
    simp [failoverWorld, withTransfers, h, oneWorker_example, uploadMergePartV2, hbody,
      exampleCandidateWorld, exampleWorld]

theorem failoverWorld_offers (c : CandidateUploadAddresses)
    (answer : String → Int → Option GoError) (req : VodUploadFuncRequest) :
    offersCandidates (failoverWorld c answer) req "req-1" (allUploadAddress (some c)) := by
  refine ⟨_, 200, { RequestId := "req-1" }, { CandidateUploadAddresses := some c },
    rfl, rfl, rfl, ?_, rfl, rfl, rfl⟩
  intro e h
  cases h

theorem failoverWorld_attemptEnds (c : CandidateUploadAddresses)
    (answer : String → Int → Option GoError) (a : Option UploadAddress) (host : String)
    (si : StoreInfo) (rc : Int) (P : Outcome (Option GoError) → Prop)
    (hu : usableAs a host si) (h : P (.ret (answer host rc))) :
    attemptEnds (failoverWorld c answer) exampleFile a rc P := by
  intro host2 si2 hu2 t b
  rw [failoverWorld_lazyUpload, usableAs_host a host host2 si si2 hu hu2]
  exact h

theorem failoverWorld_allAttemptsEnd (c : CandidateUploadAddresses)
    (answer : String → Int → Option GoError) (a : Option UploadAddress)
    (P : Outcome (Option GoError) → Prop)
    (h : ∀ host si, usableAs a host si → ∀ rc : Int, P (.ret (answer host rc))) :
    allAttemptsEnd (failoverWorld c answer) exampleFile a P := by
  intro rc _ _ host si hu t b
  rw [failoverWorld_lazyUpload]
  exact h host si hu rc

theorem exampleAddress_host (host oid sessionKey : String) (host2 : String) (si : StoreInfo)
    (hu : usableAs (exampleAddress host oid sessionKey) host2 si) : host2 = host :=
  usableAs_host _ host host2 _ si (exampleAddress_usable host oid sessionKey) hu

theorem candidateHosts_flatten (l : List (Option UploadAddress)) (h : ∀ x ∈ l, x ≠ none) :
    candidateHosts l = .ret (flattenHosts l) := by
  induction l with
  | nil => rfl
  | cons a rest ih =>
    cases a with
    | none => exact absurd rfl (h none (List.mem_cons_self _ _))
    | some ua =>
      simp only [candidateHosts, ih (fun x hx => h x (List.mem_cons_of_mem _ hx)), flattenHosts,
        GetUploadHosts]

/-- For a response without metadata error that holds a single address with a
host and a non-nil first store info, and candidates none of which is `nil`,
`BuildVodCommonUploadInfo` returns the hosts of main, backup and fallback
candidates in that order. -/
theorem BuildVodCommonUploadInfo_flattens (fmtPlusV : ResponseError → String)
    (r : VodApplyUploadInfoResponse) (md : ResponseMetadata) (res : VodApplyUploadInfoResult)
    (data : ApplyUploadInfoData) (c : CandidateUploadAddresses) (ua : UploadAddress)
    (uaHost : String) (uaHosts : List String) (storeInfo : StoreInfo)
    (infos : List (Option StoreInfo))
    (hmd : r.ResponseMetadata = some md) (herr : ∀ e, md.Error = some e → e.Code = "0")
    (hres : r.Result = some res) (hdata : res.Data = some data)
    (hc : data.CandidateUploadAddresses = some c) (hua : data.UploadAddress = some ua)
    (hH : ua.UploadHosts = uaHost :: uaHosts) (hS : ua.StoreInfos = some storeInfo :: infos)
    (hne : c.MainUploadAddresses ++ c.BackupUploadAddresses ++ c.FallbackUploadAddresses ≠ [])
    (hnil : ∀ x ∈ c.MainUploadAddresses ++ c.BackupUploadAddresses ++ c.FallbackUploadAddresses,
      x ≠ none) :
    BuildVodCommonUploadInfo fmtPlusV (some r)
      = .ret (some
          (if (flattenHosts (c.MainUploadAddresses ++ c.BackupUploadAddresses ++
                c.FallbackUploadAddresses)).length > 0 then
            { Hosts := flattenHosts (c.MainUploadAddresses ++ c.BackupUploadAddresses ++
                c.FallbackUploadAddresses),
              Oid := storeInfo.StoreUri, SessionKey := ua.SessionKey, Auth := storeInfo.Auth }
          else
            { Hosts := ua.UploadHosts, Oid := storeInfo.StoreUri, SessionKey := ua.SessionKey,
              Auth := storeInfo.Auth }), none) := by
  have hfilter : md.Error.filter (fun e => e.Code ≠ "0") = none := by
    cases hE : md.Error with
    | none => rfl
    | some e => simp [Option.filter, herr e hE]
  have hlen : ¬ (c.MainUploadAddresses ++ c.BackupUploadAddresses ++
      c.FallbackUploadAddresses).length = 0 := by
    intro h0
    exact hne (List.length_eq_zero.mp h0)
  unfold BuildVodCommonUploadInfo
  simp only [hmd, hres, hfilter, GetData, Option.bind, hdata, hc, hua, allUploadAddress, hlen,
    if_false, hH, hS, candidateHosts_flatten _ hnil]

/-- C7: with three usable candidates, every attempt that `Upload` makes on the
first two failing with a service error of code at least 5000 and its first
attempt on the third succeeding (control plane and payload read without
error), `Upload` returns the object id and session key of the third candidate
with status 200, after exactly three attempts numbered 1, 2, 3 on each of the
first two hosts and one on the third. -/
theorem upload_fails_over_to_third_host (w : World) (req : VodUploadFuncRequest)
    (logId : String) (a1 a2 a3 : Option UploadAddress) (h1 h2 h3 : String)
    (s1 s2 s3 : StoreInfo) (hsize : req.Size ≠ 0)
    (hcp : offersCandidates w req logId [a1, a2, a3])
    (hu1 : usableAs a1 h1 s1) (hu2 : usableAs a2 h2 s2) (hu3 : usableAs a3 h3 s3)
    (hread : ∀ t, (w.ReadAll t).2 = none)
    (hf1 : allAttemptsEnd w req a1 serviceFailure5000)
    (hf2 : allAttemptsEnd w req a2 serviceFailure5000)
    (hok : attemptEnds w req a3 1 (· = .ret none)) :
    (Upload w req).ret = .ret (s3.StoreUri, GetSessionKey a3, none, 200) ∧
    transferAttempts (Upload w req).trace =
      [(h1, 1), (h1, 2), (h1, 3), (h2, 1), (h2, 2), (h2, 3), (h3, 1)] := by
  rw [Upload_eq_uploadCandidates w req logId _ hsize (by simp) hcp]
  have hpre : ∀ a ∈ [a1, a2], allAttemptsEnd w req a retryableFailure := by
    intro a ha rc hlo hhi host si hu t b
    simp only [List.mem_cons, List.mem_singleton, List.not_mem_nil, or_false] at ha
    rcases ha with rfl | rfl
    · exact serviceFailure5000_retryable _ (hf1 rc hlo hhi host si hu t b)
    · exact serviceFailure5000_retryable _ (hf2 rc hlo hhi host si hu t b)
  obtain ⟨st1, hinv, hloop, htr⟩ := uploadCandidates_exhausted w req logId [a1, a2] [a3] hread 0
    { req := raiseChunkSize w req, bts := [], trace := [.ApplyUploadInfo (raiseChunkSize w req)] }
    rfl hpre
  have hloop2 : uploadCandidates w logId [a1, a2, a3] 0
      { req := raiseChunkSize w req, bts := [], trace := [.ApplyUploadInfo (raiseChunkSize w req)] }
      = uploadCandidates w logId [a3] (0 + [a1, a2].length) st1 := hloop
  obtain ⟨b, t2, htr2, hdone, _, _⟩ := uploadToAddress_stops_at w req logId (0 + [a1, a2].length)
    a3 st1 h3 s3 0 none (by omega) hinv hu3 hread
    (fun rc hlo hhi => absurd (le_trans hlo hhi) (by decide))
    (by simpa using hok) (fun e he => by cases he)
  rw [hloop2]
  simp only [uploadCandidates, hdone rfl, true_and]
  rw [htr2, htr, threeAttemptsEach_usable a1 h1 s1 _ hu1,
    threeAttemptsEach_usable a2 h2 s2 _ hu2]
  simp [transferAttempts, transferOf, threeAttemptsEach, attemptsOn, List.range_succ]

theorem upload_fails_over_to_third_host_witness :
    (Upload (failoverWorld
        { MainUploadAddresses := [exampleAddress "h1" "oid1" "sk1",
            exampleAddress "h2" "oid2" "sk2", exampleAddress "h3" "oid3" "sk3"] }
        (fun host _ => if host = "h3" then none else some (.UploadError 500 5001 "busy")))
      exampleFile).ret = .ret ("oid3", "sk3", none, 200) ∧
    transferAttempts (Upload (failoverWorld
        { MainUploadAddresses := [exampleAddress "h1" "oid1" "sk1",
            exampleAddress "h2" "oid2" "sk2", exampleAddress "h3" "oid3" "sk3"] }
        (fun host _ => if host = "h3" then none else some (.UploadError 500 5001 "busy")))
      exampleFile).trace =
      [("h1", 1), ("h1", 2), ("h1", 3), ("h2", 1), ("h2", 2), ("h2", 3), ("h3", 1)] :=
  upload_fails_over_to_third_host
    (failoverWorld
      { MainUploadAddresses := [exampleAddress "h1" "oid1" "sk1",
          exampleAddress "h2" "oid2" "sk2", exampleAddress "h3" "oid3" "sk3"] }
      (fun host _ => if host = "h3" then none else some (.UploadError 500 5001 "busy")))
    exampleFile "req-1" (exampleAddress "h1" "oid1" "sk1") (exampleAddress "h2" "oid2" "sk2")
    (exampleAddress "h3" "oid3" "sk3") "h1" "h2" "h3" _ _ _
    (by decide) (failoverWorld_offers _ _ _)
    (exampleAddress_usable "h1" "oid1" "sk1") (exampleAddress_usable "h2" "oid2" "sk2")
    (exampleAddress_usable "h3" "oid3" "sk3") (fun _ => rfl)
    (failoverWorld_allAttemptsEnd _ _ _ _ (fun host si hu rc => by
      rw [exampleAddress_host _ _ _ host si hu]
      exact ⟨500, 5001, "busy", rfl, by decide⟩))
    (failoverWorld_allAttemptsEnd _ _ _ _ (fun host si hu rc => by
      rw [exampleAddress_host _ _ _ host si hu]
      exact ⟨500, 5001, "busy", rfl, by decide⟩))
    (failoverWorld_attemptEnds _ _ _ "h3" _ 1 _ (exampleAddress_usable "h3" "oid3" "sk3") rfl)

/-- C8 (amended): let the candidates before a usable candidate fail on all three
attempts with retryable errors, let the first `k` attempts (at most two) on that
candidate fail with retryable errors, and let attempt `k + 1` on it return an
error that the retry predicate rejects. If that error is an `UploadError`,
`Upload` makes no further attempt, neither on that host nor on any remaining
candidate, and returns the error with status 400 and an empty session key. If
it is not an `UploadError`, `Upload` makes no further attempt on that host and
goes on with the remaining candidates; when the first attempt on the next
candidate succeeds, it returns the object id and session key of that
candidate with status 200. -/
theorem upload_stops_on_rejected_uploadError (w : World) (req : VodUploadFuncRequest)
    (logId : String) (pre rest : List (Option UploadAddress)) (a : Option UploadAddress)
    (host : String) (si : StoreInfo) (k : Nat) (err : GoError)
    (hsize : req.Size ≠ 0)
    (hcp : offersCandidates w req logId (pre ++ a :: rest))
    (hread : ∀ t, (w.ReadAll t).2 = none)
    (hpre : ∀ x ∈ pre, allAttemptsEnd w req x retryableFailure)
    (hu : usableAs a host si) (hk : k ≤ 2)
    (hretry : ∀ rc : Int, 1 ≤ rc → rc ≤ (k : Int) → attemptEnds w req a rc retryableFailure)
    (hrej : retryIf err = false)
    (herr : attemptEnds w req a ((k : Int) + 1) (· = .ret (some err))) :
    (∀ Code ErrorCode Message, err = .UploadError Code ErrorCode Message →
      (Upload w req).ret = .ret (logId, "", some err, 400) ∧
      transferAttempts (Upload w req).trace = threeAttemptsEach pre ++ attemptsOn host (k + 1)) ∧
    (∀ msg, err = .errorString msg →
      ∃ st1, Upload w req = uploadCandidates w logId rest (pre.length + 1) st1 ∧
        st1.req = loopRequest w req ∧
        transferAttempts st1.trace = threeAttemptsEach pre ++ attemptsOn host (k + 1)) ∧
    (∀ msg a2 rest2 host2 si2, err = .errorString msg → rest = a2 :: rest2 →
      usableAs a2 host2 si2 → attemptEnds w req a2 1 (· = .ret none) →
      (Upload w req).ret = .ret (si2.StoreUri, GetSessionKey a2, none, 200) ∧
      transferAttempts (Upload w req).trace
        = threeAttemptsEach pre ++ attemptsOn host (k + 1) ++ [(host2, 1)]) := by
  have hup := Upload_eq_uploadCandidates w req logId _ hsize (by simp) hcp
  obtain ⟨st1, hinv, hloop, htr⟩ := uploadCandidates_exhausted w req logId pre (a :: rest) hread 0
    { req := raiseChunkSize w req, bts := [], trace := [.ApplyUploadInfo (raiseChunkSize w req)] }
    rfl hpre
  have htr0 : transferAttempts st1.trace = threeAttemptsEach pre := by
    rw [htr]
    simp [transferAttempts, transferOf]
  obtain ⟨b, t2, htr2, _, hdone, hnext⟩ := uploadToAddress_stops_at w req logId (0 + pre.length)
    a st1 host si k (some err) hk hinv hu hread hretry herr
    (fun e he => by cases he; exact hrej)
  rw [htr0] at htr2
  have hplain : ∀ msg, err = .errorString msg →
      Upload w req = uploadCandidates w logId rest (pre.length + 1)
        { req := loopRequest w req, bts := b, trace := t2 } := by
    intro msg hmsg
    rw [hup, hloop]
    simp only [uploadCandidates, hnext msg (by rw [hmsg])]
    rw [Nat.zero_add]
  refine ⟨?_, ?_, ?_⟩
  · intro c ec m hE
    rw [hup, hloop]
    simp only [uploadCandidates, hdone c ec m (by rw [hE])]
    exact ⟨by rw [hE], htr2⟩
  · intro msg hmsg
    exact ⟨_, hplain msg hmsg, rfl, htr2⟩
  · intro msg a2 rest2 host2 si2 hmsg hrest hu2 hok
    subst hrest
    obtain ⟨b3, t3, htr3, hdone3, _, _⟩ := uploadToAddress_stops_at w req logId (pre.length + 1)
      a2 { req := loopRequest w req, bts := b, trace := t2 } host2 si2 0 none (by omega)
      (loopRequest_inv w req) hu2 hread
      (fun rc hlo hhi => absurd (le_trans hlo hhi) (by decide))
      (by simpa using hok) (fun e he => by cases he)
    rw [hplain msg hmsg]
    simp only [uploadCandidates, hdone3 rfl, true_and]
    rw [htr3, htr2]
    simp [attemptsOn, List.range_succ]

/-- C8 as stated fails in two ways. An error that is not an `UploadError` is
rejected by the retry predicate, yet after the single attempt on `h1` the loop
goes on to `h2` and `Upload` returns success there. And an `UploadError` that
the predicate rejects, returned by the second attempt on `h1` after a
retryable error at the first, ends the call after two attempts on `h1`, not
one. -/
theorem upload_continues_after_plain_error :
    retryIf (.errorString "connection reset") = false ∧
    (Upload (failoverWorld
        { MainUploadAddresses := [exampleAddress "h1" "oid1" "sk1",
            exampleAddress "h2" "oid2" "sk2"] }
        (fun host _ => if host = "h1" then some (.errorString "connection reset") else none))
      exampleFile).ret = .ret ("oid2", "sk2", none, 200) ∧
    transferAttempts (Upload (failoverWorld
        { MainUploadAddresses := [exampleAddress "h1" "oid1" "sk1",
            exampleAddress "h2" "oid2" "sk2"] }
        (fun host _ => if host = "h1" then some (.errorString "connection reset") else none))
      exampleFile).trace = [("h1", 1), ("h2", 1)] ∧
    retryIf (.UploadError 503 0 "unavailable") = true ∧
    retryIf (.UploadError 400 4001 "bad request") = false ∧
    (Upload (failoverWorld
        { MainUploadAddresses := [exampleAddress "h1" "oid1" "sk1",
            exampleAddress "h2" "oid2" "sk2"] }
        (fun _ rc => if rc = 1 then some (.UploadError 503 0 "unavailable")
          else some (.UploadError 400 4001 "bad request")))
      exampleFile).ret = .ret ("req-1", "", some (.UploadError 400 4001 "bad request"), 400) ∧
    transferAttempts (Upload (failoverWorld
        { MainUploadAddresses := [exampleAddress "h1" "oid1" "sk1",
            exampleAddress "h2" "oid2" "sk2"] }
        (fun _ rc => if rc = 1 then some (.UploadError 503 0 "unavailable")
          else some (.UploadError 400 4001 "bad request")))
      exampleFile).trace = [("h1", 1), ("h1", 2)] := by
  decide

theorem upload_stops_on_rejected_uploadError_witness :
    ((Upload (failoverWorld
        { MainUploadAddresses := [exampleAddress "h1" "oid1" "sk1",
            exampleAddress "h2" "oid2" "sk2", exampleAddress "h3" "oid3" "sk3"] }
        (fun host rc => if host = "h1" ∨ rc = 1 then some (.UploadError 500 5001 "busy")
          else some (.UploadError 400 4001 "bad request")))
      exampleFile).ret = .ret ("req-1", "", some (.UploadError 400 4001 "bad request"), 400) ∧
    transferAttempts (Upload (failoverWorld
        { MainUploadAddresses := [exampleAddress "h1" "oid1" "sk1",
            exampleAddress "h2" "oid2" "sk2", exampleAddress "h3" "oid3" "sk3"] }
        (fun host rc => if host = "h1" ∨ rc = 1 then some (.UploadError 500 5001 "busy")
          else some (.UploadError 400 4001 "bad request")))
      exampleFile).trace = [("h1", 1), ("h1", 2), ("h1", 3), ("h2", 1), ("h2", 2)]) ∧
    ((Upload (failoverWorld
        { MainUploadAddresses := [exampleAddress "h1" "oid1" "sk1",
            exampleAddress "h2" "oid2" "sk2", exampleAddress "h3" "oid3" "sk3"] }
        (fun host rc => if host = "h3" then none
          else if host = "h1" ∨ rc = 1 then some (.UploadError 500 5001 "busy")
          else some (.errorString "connection reset")))
      exampleFile).ret = .ret ("oid3", "sk3", none, 200) ∧
    transferAttempts (Upload (failoverWorld
        { MainUploadAddresses := [exampleAddress "h1" "oid1" "sk1",
            exampleAddress "h2" "oid2" "sk2", exampleAddress "h3" "oid3" "sk3"] }
        (fun host rc => if host = "h3" then none
          else if host = "h1" ∨ rc = 1 then some (.UploadError 500 5001 "busy")
          else some (.errorString "connection reset")))
      exampleFile).trace
      = [("h1", 1), ("h1", 2), ("h1", 3), ("h2", 1), ("h2", 2), ("h3", 1)]) :=
  ⟨(upload_stops_on_rejected_uploadError
      (failoverWorld
        { MainUploadAddresses := [exampleAddress "h1" "oid1" "sk1",
            exampleAddress "h2" "oid2" "sk2", exampleAddress "h3" "oid3" "sk3"] }
        (fun host rc => if host = "h1" ∨ rc = 1 then some (.UploadError 500 5001 "busy")
          else some (.UploadError 400 4001 "bad request")))
      exampleFile "req-1"
      [exampleAddress "h1" "oid1" "sk1"] [exampleAddress "h3" "oid3" "sk3"]
      (exampleAddress "h2" "oid2" "sk2") "h2" { StoreUri := "oid2", Auth := "auth" } 1
      (.UploadError 400 4001 "bad request")
      (by decide) (failoverWorld_offers _ _ _) (fun _ => rfl)
      (fun x hx => failoverWorld_allAttemptsEnd _ _ x _ (fun host si hu rc => by
        rw [List.mem_singleton.mp hx] at hu
        rw [exampleAddress_host _ _ _ host si hu]
        exact ⟨.UploadError 500 5001 "busy", rfl, by decide⟩))
      (exampleAddress_usable "h2" "oid2" "sk2") (by decide)
      (fun rc hlo hhi => by
        have hrc : rc = 1 := le_antisymm hhi hlo
        rw [hrc]
        exact failoverWorld_attemptEnds _ _ _ "h2" _ 1 _ (exampleAddress_usable "h2" "oid2" "sk2")
          ⟨.UploadError 500 5001 "busy", rfl, by decide⟩)
      (by decide)
      (failoverWorld_attemptEnds _ _ _ "h2" _ _ _ (exampleAddress_usable "h2" "oid2" "sk2")
        rfl)).1 400 4001 "bad request" rfl,
   (upload_stops_on_rejected_uploadError
      (failoverWorld
        { MainUploadAddresses := [exampleAddress "h1" "oid1" "sk1",
            exampleAddress "h2" "oid2" "sk2", exampleAddress "h3" "oid3" "sk3"] }
        (fun host rc => if host = "h3" then none
          else if host = "h1" ∨ rc = 1 then some (.UploadError 500 5001 "busy")
          else some (.errorString "connection reset")))
      exampleFile "req-1"
      [exampleAddress "h1" "oid1" "sk1"] [exampleAddress "h3" "oid3" "sk3"]
      (exampleAddress "h2" "oid2" "sk2") "h2" { StoreUri := "oid2", Auth := "auth" } 1
      (.errorString "connection reset")
      (by decide) (failoverWorld_offers _ _ _) (fun _ => rfl)
      (fun x hx => failoverWorld_allAttemptsEnd _ _ x _ (fun host si hu rc => by
        rw [List.mem_singleton.mp hx] at hu
        rw [exampleAddress_host _ _ _ host si hu]
        exact ⟨.UploadError 500 5001 "busy", rfl, by decide⟩))
      (exampleAddress_usable "h2" "oid2" "sk2") (by decide)
      (fun rc hlo hhi => by
        have hrc : rc = 1 := le_antisymm hhi hlo
        rw [hrc]
        exact failoverWorld_attemptEnds _ _ _ "h2" _ 1 _ (exampleAddress_usable "h2" "oid2" "sk2")
          ⟨.UploadError 500 5001 "busy", rfl, by decide⟩)
      (by decide)
      (failoverWorld_attemptEnds _ _ _ "h2" _ _ _ (exampleAddress_usable "h2" "oid2" "sk2")
        rfl)).2.2 "connection reset" (exampleAddress "h3" "oid3" "sk3") [] "h3"
        { StoreUri := "oid3", Auth := "auth" } rfl rfl (exampleAddress_usable "h3" "oid3" "sk3")
        (failoverWorld_attemptEnds _ _ _ "h3" _ 1 _ (exampleAddress_usable "h3" "oid3" "sk3")
          rfl)⟩

/-- C10: when the control plane offers at least one candidate address and every
attempt that `Upload` makes on every candidate fails with a retryable error
(the payload being read without error), `Upload` makes three attempts, numbered
1, 2, 3, on each usable candidate in list order and returns the error
`upload failed` with status 400 and an empty session key. -/
theorem upload_all_hosts_fail (w : World) (req : VodUploadFuncRequest) (logId : String)
    (all : List (Option UploadAddress)) (hsize : req.Size ≠ 0) (hne : all ≠ [])
    (hcp : offersCandidates w req logId all)
    (hread : ∀ t, (w.ReadAll t).2 = none)
    (hfail : ∀ a ∈ all, allAttemptsEnd w req a retryableFailure) :
    (Upload w req).ret = .ret (logId, "", some (.errorString "upload failed"), 400) ∧
    transferAttempts (Upload w req).trace = threeAttemptsEach all := by
  rw [Upload_eq_uploadCandidates w req logId _ hsize hne hcp]
  obtain ⟨st1, _, hloop, htr⟩ := uploadCandidates_exhausted w req logId all [] hread 0
    { req := raiseChunkSize w req, bts := [], trace := [.ApplyUploadInfo (raiseChunkSize w req)] }
    rfl hfail
  rw [List.append_nil] at hloop
  rw [hloop]
  simp only [uploadCandidates, true_and]
  rw [htr]
  simp [transferAttempts, transferOf]

theorem upload_all_hosts_fail_witness :
    (Upload (failoverWorld
        { MainUploadAddresses := [exampleAddress "h1" "oid1" "sk1", none],
          BackupUploadAddresses := [exampleAddress "h2" "oid2" "sk2"] }
        (fun _ _ => some (.UploadError 503 0 "unavailable")))
      exampleFile).ret = .ret ("req-1", "", some (.errorString "upload failed"), 400) ∧
    transferAttempts (Upload (failoverWorld
        { MainUploadAddresses := [exampleAddress "h1" "oid1" "sk1", none],
          BackupUploadAddresses := [exampleAddress "h2" "oid2" "sk2"] }
        (fun _ _ => some (.UploadError 503 0 "unavailable")))
      exampleFile).trace =
      [("h1", 1), ("h1", 2), ("h1", 3), ("h2", 1), ("h2", 2), ("h2", 3)] :=
  upload_all_hosts_fail
    (failoverWorld
      { MainUploadAddresses := [exampleAddress "h1" "oid1" "sk1", none],
        BackupUploadAddresses := [exampleAddress "h2" "oid2" "sk2"] }
      (fun _ _ => some (.UploadError 503 0 "unavailable")))
    exampleFile "req-1"
    [exampleAddress "h1" "oid1" "sk1", none, exampleAddress "h2" "oid2" "sk2"]
    (by decide) (by decide) (failoverWorld_offers _ _ _) (fun _ => rfl)
    (fun a _ => failoverWorld_allAttemptsEnd _ _ a _
      (fun _ _ _ _ => ⟨.UploadError 503 0 "unavailable", rfl, by decide⟩))

/-- The iteration on a usable candidate whose attempt `k + 1` succeeds after
`k` retryable failures ends the call, with the ids of that candidate unless
the payload could not be read. -/
theorem uploadToAddress_success (w : World) (req : VodUploadFuncRequest) (logId : String)
    (i : Nat) (a : Option UploadAddress) (st : LoopState) (host : String) (si : StoreInfo)
    (k : Nat) (hk : k ≤ 2)
    (hinv : defaultParallelNum st.req = loopRequest w req) (hu : usableAs a host si)
    (hf : ∀ rc : Int, 1 ≤ rc → rc ≤ (k : Int) → attemptEnds w req a rc retryableFailure)
    (hok : attemptEnds w req a ((k : Int) + 1) (· = .ret none)) :
    ∃ r, uploadToAddress w logId i a st = .done r ∧
      (r.ret = .ret (si.StoreUri, GetSessionKey a, none, 200) ∨
        ∃ o s e c, r.ret = .ret (o, s, some e, c)) := by
  rcases uploadToAddress_cases w req logId i a st host si hinv hu with
    ⟨err, t1, h⟩ | ⟨b, t1, _, heq⟩
  · exact ⟨_, h, Or.inr ⟨_, _, _, _, rfl⟩⟩
  · obtain ⟨t2, _, hdone, _, _⟩ := transferWithRetry_stops_at w req logId i si.StoreUri
      (GetSessionKey a) host si b t1 k none hk (fun rc h1 h3 => hf rc h1 h3 host si hu)
      (hok host si hu) (fun e he => by cases he)
    exact ⟨_, heq.trans (hdone rfl), Or.inl rfl⟩

/-- C11: the list `Upload` iterates is main ++ backup ++ fallback, and its
transfer attempts follow that order, at most three per candidate. When every
attempt on the candidates before one fails and the transfer on that one
succeeds (at attempt `k + 1`, after `k` retryable failures), a successful
`Upload` returns the object id and session key of that candidate; when the
payload can be read and the earlier failures are retryable or not an
`UploadError`, `Upload` does return them, having attempted every usable earlier
candidate, in list order, before it. For a response without metadata error,
with a single address that has a host and a non-nil first store info and
candidates none of which is `nil`, `BuildVodCommonUploadInfo` returns the hosts
of the same list in the same order. -/
theorem upload_candidate_order (w : World) (req : VodUploadFuncRequest) (logId : String)
    (c : CandidateUploadAddresses) (pre rest : List (Option UploadAddress))
    (a : Option UploadAddress) (host : String) (si : StoreInfo) (k : Nat)
    (hsize : req.Size ≠ 0)
    (hcp : offersCandidates w req logId (allUploadAddress (some c)))
    (hsplit : c.MainUploadAddresses ++ c.BackupUploadAddresses ++ c.FallbackUploadAddresses
      = pre ++ a :: rest)
    (hpre : ∀ x ∈ pre, allAttemptsEnd w req x transferFailure)
    (hu : usableAs a host si) (hk : k ≤ 2)
    (hretry : ∀ rc : Int, 1 ≤ rc → rc ≤ (k : Int) → attemptEnds w req a rc retryableFailure)
    (hok : attemptEnds w req a ((k : Int) + 1) (· = .ret none)) :
    allUploadAddress (some c)
      = c.MainUploadAddresses ++ c.BackupUploadAddresses ++ c.FallbackUploadAddresses ∧
    (transferAttempts (Upload w req).trace).Sublist
      (threeAttemptsEach
        (c.MainUploadAddresses ++ c.BackupUploadAddresses ++ c.FallbackUploadAddresses)) ∧
    (∀ oid sessionKey code, (Upload w req).ret = .ret (oid, sessionKey, none, code) →
      oid = si.StoreUri ∧ sessionKey = GetSessionKey a) ∧
    ((∀ t, (w.ReadAll t).2 = none) → (∀ x ∈ pre, allAttemptsEnd w req x continuingFailure) →
      (Upload w req).ret = .ret (si.StoreUri, GetSessionKey a, none, 200) ∧
      ∃ X, transferAttempts (Upload w req).trace = X ++ attemptsOn host (k + 1) ∧
        X.Sublist (threeAttemptsEach pre) ∧
        ∀ x ∈ pre, ∀ h s, usableAs x h s → (h, (1 : Int)) ∈ X) ∧
    (∀ (fmtPlusV : ResponseError → String) (r : VodApplyUploadInfoResponse)
      (md : ResponseMetadata) (res : VodApplyUploadInfoResult) (data : ApplyUploadInfoData)
      (ua : UploadAddress) (uaHost : String) (uaHosts : List String) (storeInfo : StoreInfo)
      (infos : List (Option StoreInfo)),
      r.ResponseMetadata = some md → (∀ e, md.Error = some e → e.Code = "0") →
      r.Result = some res → res.Data = some data →
      data.CandidateUploadAddresses = some c → data.UploadAddress = some ua →
      ua.UploadHosts = uaHost :: uaHosts → ua.StoreInfos = some storeInfo :: infos →
      (∀ x ∈ c.MainUploadAddresses ++ c.BackupUploadAddresses ++ c.FallbackUploadAddresses,
        x ≠ none) →
      BuildVodCommonUploadInfo fmtPlusV (some r)
        = .ret (some
            (if (flattenHosts (c.MainUploadAddresses ++ c.BackupUploadAddresses ++
                  c.FallbackUploadAddresses)).length > 0 then
              { Hosts := flattenHosts (c.MainUploadAddresses ++ c.BackupUploadAddresses ++
                  c.FallbackUploadAddresses),
                Oid := storeInfo.StoreUri, SessionKey := ua.SessionKey, Auth := storeInfo.Auth }
            else
              { Hosts := ua.UploadHosts, Oid := storeInfo.StoreUri, SessionKey := ua.SessionKey,
                Auth := storeInfo.Auth }), none)) := by
  have hall : allUploadAddress (some c)
      = c.MainUploadAddresses ++ c.BackupUploadAddresses ++ c.FallbackUploadAddresses := rfl
  have hne : allUploadAddress (some c) ≠ [] := by
    rw [hall, hsplit]
    simp
  have hup := Upload_eq_uploadCandidates w req logId _ hsize hne hcp
  refine ⟨hall, ?_, ?_, ?_, ?_⟩
  · obtain ⟨ext, htr, _, hsub, _⟩ := uploadCandidates_shape w logId (allUploadAddress (some c)) 0
      { req := raiseChunkSize w req, bts := [],
        trace := [Event.ApplyUploadInfo (raiseChunkSize w req)] }
    rw [hup, htr, transferAttempts_append]
    simpa [transferAttempts, transferOf, hall] using hsub
  · intro oid sessionKey code hret
    rw [hup, hall, hsplit] at hret
    rcases uploadCandidates_failure w req logId pre (a :: rest) 0
      { req := raiseChunkSize w req, bts := [],
        trace := [Event.ApplyUploadInfo (raiseChunkSize w req)] } rfl hpre with
      ⟨st1, hinv, h1⟩ | ⟨o, s, e, cd, h1⟩
    · rw [h1] at hret
      obtain ⟨r, hdone, hr⟩ := uploadToAddress_success w req logId (0 + pre.length) a st1 host si
        k hk hinv hu hretry hok
      simp only [uploadCandidates, hdone] at hret
      rcases hr with hr | ⟨o, s, e, cd, hr⟩
      · rw [hr] at hret
        injection hret with hret
        injection hret with h1 hret
        injection hret with h2 _
        exact ⟨h1.symm, h2.symm⟩
      · rw [hr] at hret
        injection hret with hret
        injection hret with _ hret
        injection hret with _ hret
        injection hret with hret _
        cases hret
    · rw [h1] at hret
      injection hret with hret
      injection hret with _ hret
      injection hret with _ hret
      injection hret with hret _
      cases hret
  · intro hread hcont
    obtain ⟨st1, X, hinv, hloop, htr, hsub, hmem⟩ := uploadCandidates_continuing w req logId pre
      (a :: rest) hread 0
      { req := raiseChunkSize w req, bts := [],
        trace := [Event.ApplyUploadInfo (raiseChunkSize w req)] } rfl hcont
    obtain ⟨b, t2, htr2, hdone, _, _⟩ := uploadToAddress_stops_at w req logId (0 + pre.length)
      a st1 host si k none hk hinv hu hread hretry hok (fun e he => by cases he)
    rw [hup, hall, hsplit, hloop]
    simp only [uploadCandidates, hdone rfl, true_and]
    refine ⟨X, ?_, hsub, hmem⟩
    rw [htr2, htr]
    simp [transferAttempts, transferOf]
  · intro fmtPlusV r md res data ua uaHost uaHosts storeInfo infos hmd herr hres hdata hc hua
      hH hS hnil
    exact BuildVodCommonUploadInfo_flattens fmtPlusV r md res data c ua uaHost uaHosts storeInfo
      infos hmd herr hres hdata hc hua hH hS (by rw [hsplit]; simp) hnil

theorem upload_candidate_order_witness :
    ((Upload (failoverWorld
        { MainUploadAddresses := [exampleAddress "h1" "oid1" "sk1"],
          BackupUploadAddresses := [exampleAddress "h2" "oid2" "sk2"],
          FallbackUploadAddresses := [exampleAddress "h3" "oid3" "sk3",
            exampleAddress "h4" "oid4" "sk4"] }
        (fun host rc => if host = "h1" then some (.UploadError 500 5001 "busy")
          else if host = "h2" then some (.errorString "connection reset")
          else if host = "h3" ∧ rc = 1 then some (.UploadError 503 0 "unavailable")
          else none))
      exampleFile).ret = .ret ("oid3", "sk3", none, 200) ∧
      ∃ X, transferAttempts (Upload (failoverWorld
          { MainUploadAddresses := [exampleAddress "h1" "oid1" "sk1"],
            BackupUploadAddresses := [exampleAddress "h2" "oid2" "sk2"],
            FallbackUploadAddresses := [exampleAddress "h3" "oid3" "sk3",
              exampleAddress "h4" "oid4" "sk4"] }
          (fun host rc => if host = "h1" then some (.UploadError 500 5001 "busy")
            else if host = "h2" then some (.errorString "connection reset")
            else if host = "h3" ∧ rc = 1 then some (.UploadError 503 0 "unavailable")
            else none))
        exampleFile).trace = X ++ attemptsOn "h3" (1 + 1) ∧
        X.Sublist (threeAttemptsEach
          [exampleAddress "h1" "oid1" "sk1", exampleAddress "h2" "oid2" "sk2"]) ∧
        ∀ x ∈ [exampleAddress "h1" "oid1" "sk1", exampleAddress "h2" "oid2" "sk2"],
          ∀ h s, usableAs x h s → (h, (1 : Int)) ∈ X) ∧
    transferAttempts (Upload (failoverWorld
        { MainUploadAddresses := [exampleAddress "h1" "oid1" "sk1"],
          BackupUploadAddresses := [exampleAddress "h2" "oid2" "sk2"],
          FallbackUploadAddresses := [exampleAddress "h3" "oid3" "sk3",
            exampleAddress "h4" "oid4" "sk4"] }
        (fun host rc => if host = "h1" then some (.UploadError 500 5001 "busy")
          else if host = "h2" then some (.errorString "connection reset")
          else if host = "h3" ∧ rc = 1 then some (.UploadError 503 0 "unavailable")
          else none))
      exampleFile).trace
      = [("h1", 1), ("h1", 2), ("h1", 3), ("h2", 1), ("h3", 1), ("h3", 2)] ∧
    BuildVodCommonUploadInfo (fun e => e.Message)
        (some
          { ResponseMetadata := some { RequestId := "req-1" }
            Result := some
              { Data := some
                  { UploadAddress := exampleAddress "h0" "oid0" "sk0"
                    CandidateUploadAddresses := some
                      { MainUploadAddresses := [exampleAddress "h1" "oid1" "sk1"]
                        BackupUploadAddresses := [exampleAddress "h2" "oid2" "sk2"]
                        FallbackUploadAddresses := [exampleAddress "h3" "oid3" "sk3",
                          exampleAddress "h4" "oid4" "sk4"] } } } })
      = .ret (some { Hosts := ["h1", "h2", "h3", "h4"], Oid := "oid0", SessionKey := "sk0",
                     Auth := "auth" }, none) :=
  have key := upload_candidate_order
    (failoverWorld
      { MainUploadAddresses := [exampleAddress "h1" "oid1" "sk1"],
        BackupUploadAddresses := [exampleAddress "h2" "oid2" "sk2"],
        FallbackUploadAddresses := [exampleAddress "h3" "oid3" "sk3",
          exampleAddress "h4" "oid4" "sk4"] }
      (fun host rc => if host = "h1" then some (.UploadError 500 5001 "busy")
        else if host = "h2" then some (.errorString "connection reset")
        else if host = "h3" ∧ rc = 1 then some (.UploadError 503 0 "unavailable")
        else none))
    exampleFile "req-1"
    { MainUploadAddresses := [exampleAddress "h1" "oid1" "sk1"],
      BackupUploadAddresses := [exampleAddress "h2" "oid2" "sk2"],
      FallbackUploadAddresses := [exampleAddress "h3" "oid3" "sk3",
        exampleAddress "h4" "oid4" "sk4"] }
    [exampleAddress "h1" "oid1" "sk1", exampleAddress "h2" "oid2" "sk2"]
    [exampleAddress "h4" "oid4" "sk4"]
    (exampleAddress "h3" "oid3" "sk3") "h3" { StoreUri := "oid3", Auth := "auth" } 1
    (by decide) (failoverWorld_offers _ _ _) rfl
    (fun x hx => failoverWorld_allAttemptsEnd _ _ x _ (fun host si hu rc => by
      simp only [List.mem_cons, List.mem_singleton, List.not_mem_nil, or_false] at hx
      rcases hx with rfl | rfl
      · rw [exampleAddress_host _ _ _ host si hu]
        exact ⟨.UploadError 500 5001 "busy", rfl⟩
      · rw [exampleAddress_host _ _ _ host si hu]
        exact ⟨.errorString "connection reset", rfl⟩))
    (exampleAddress_usable "h3" "oid3" "sk3") (by decide)
    (fun rc hlo hhi => by
      have hrc : rc = 1 := le_antisymm hhi hlo
      rw [hrc]
      exact failoverWorld_attemptEnds _ _ _ "h3" _ 1 _ (exampleAddress_usable "h3" "oid3" "sk3")
        ⟨.UploadError 503 0 "unavailable", rfl, by decide⟩)
    (failoverWorld_attemptEnds _ _ _ "h3" _ _ _ (exampleAddress_usable "h3" "oid3" "sk3") rfl)
  ⟨key.2.2.2.1 (fun _ => rfl)
      (fun x hx => failoverWorld_allAttemptsEnd _ _ x _ (fun host si hu rc => by
        simp only [List.mem_cons, List.mem_singleton, List.not_mem_nil, or_false] at hx
        rcases hx with rfl | rfl
        · rw [exampleAddress_host _ _ _ host si hu]
          exact ⟨.UploadError 500 5001 "busy", rfl, Or.inl (by decide)⟩
        · rw [exampleAddress_host _ _ _ host si hu]
          exact ⟨.errorString "connection reset", rfl, Or.inr ⟨_, rfl⟩⟩)),
    by decide,
    key.2.2.2.2 (fun e => e.Message) _ { RequestId := "req-1" } _ _
      { UploadHosts := ["h0"], StoreInfos := [some { StoreUri := "oid0", Auth := "auth" }],
        SessionKey := "sk0" } "h0" [] { StoreUri := "oid0", Auth := "auth" } []
      rfl (fun e h => by cases h) rfl rfl rfl rfl rfl rfl (by decide)⟩

end VolcVod
